import Mathlib

/-!
# Cluster assembly orchestrator of kubekey: embedding and verification

A shallow embedding of `pkg/kubernetes/master.go`, `pkg/kubernetes/nodes.go` and
`pkg/kubernetes/preinstall/prepull_images.go`, with models of the parts of the Go
libraries `strings`, `regexp` and `k8s.io/apimachinery/pkg/util/version` they call.

* Go strings are Lean `String`s; the text algorithms work on `List Char`.
* The package variables `clusterIsExist`, `allNodesInfo` and `clusterStatus` are the
  fields of an explicit `World`, threaded through every operation, together with the
  log of the calls made to `mgr.Runner.ExecuteCmd` and of the local files written.
* The remote executor and the other collaborators living outside the three files are
  the fields of `Env`; theorems quantify over every `Env`.
* A Go function returning `error` returns a `Ret`: `nil`, an error, or a run-time panic.
-/

set_option autoImplicit false

namespace Kubekey

/-! ## Errors -/

/-- Go error values: an opaque error, `errors.WithStack` and `errors.Wrap`. -/
inductive Error where
  | raw (msg : String)
  | withStack (e : Error)
  | wrap (e : Error) (msg : String)
  deriving DecidableEq, Repr

/-- The root of a chain of wrapped errors (`errors.Cause`). -/
def Error.Cause : Error → Error
  | .raw m => .raw m
  | .withStack e => e.Cause
  | .wrap e _ => e.Cause

/-- What a Go function of result type `error` does: returns nil, returns an error, or panics. -/
inductive Ret where
  | nil
  | err (e : Error)
  | panic (what : String)
  deriving DecidableEq, Repr

/-! ## Data model -/

/-- The fields of `kubekeyapiv1alpha1.HostCfg` read by the orchestrator. -/
structure HostCfg where
  Name : String
  InternalAddress : String
  Arch : String
  IsMaster : Bool
  IsWorker : Bool
  Labels : List (String × String)
  deriving DecidableEq, Repr

/-- One call `mgr.Runner.ExecuteCmd(cmd, retries, printOutput)`. -/
structure Call where
  cmd : String
  retries : Int
  printOutput : Bool
  deriving DecidableEq, Repr

/-- The package variable `clusterStatus`, a map read and written at five constant keys only;
a key that was never written reads as the empty string. -/
structure ClusterStatus where
  version : String
  joinMasterCmd : String
  joinWorkerCmd : String
  clusterInfo : String
  kubeconfig : String
  deriving DecidableEq, Repr

/-- A Go `map[string]string`: the binding of a key is its first entry. -/
abbrev GoMap := List (String × String)

/-- Map assignment `m[k] = v`. -/
def GoMap.set (m : GoMap) (k v : String) : GoMap := (k, v) :: m

/-- Two-valued map read `v, ok := m[k]`. -/
def GoMap.get? (m : GoMap) (k : String) : Option String := m.lookup k

/-- Map read `m[k]`, the empty string for an absent key. -/
def GoMap.get (m : GoMap) (k : String) : String := (m.get? k).getD ""

/-- Presence test `_, ok := m[k]`. -/
def GoMap.has (m : GoMap) (k : String) : Bool := (m.get? k).isSome

/-- The package variables of `package kubernetes` and the effects visible outside it:
`trace` lists the calls of `mgr.Runner.ExecuteCmd` made so far, oldest first, and `writes`
the calls of `ioutil.WriteFile` as pairs of path and data. -/
structure World where
  clusterIsExist : Bool
  allNodesInfo : GoMap
  clusterStatus : ClusterStatus
  trace : List Call
  writes : List (String × String)
  deriving DecidableEq, Repr

/-- The values of the package variables at program start, nothing executed yet. -/
def World.init : World :=
  { clusterIsExist := false
    allNodesInfo := []
    clusterStatus := { version := "", joinMasterCmd := "", joinWorkerCmd := "",
                       clusterInfo := "", kubeconfig := "" }
    trace := []
    writes := [] }

/-! ## Go text functions (`strings`, `fmt`) -/

/-- The characters for which `unicode.IsSpace` holds. -/
def isSpace (c : Char) : Bool :=
  let n := c.toNat
  (9 ≤ n && n ≤ 13) || n == 32 || n == 0x85 || n == 0xA0 || n == 0x1680 ||
  (0x2000 ≤ n && n ≤ 0x200A) || n == 0x2028 || n == 0x2029 || n == 0x202F ||
  n == 0x205F || n == 0x3000

/-- Whether `sub` occurs in the text (`strings.Index(s, sub) >= 0`). -/
def containsL (sub : List Char) : List Char → Bool
  | [] => sub.isEmpty
  | c :: cs => sub.isPrefixOf (c :: cs) || containsL sub cs

/-- The function strings.Contains. -/
def Contains (s substr : String) : Bool := containsL substr.data s.data

/-- Scan of `strings.Split` for a non-empty separator; `skip` counts the characters of a
separator just recognised that are still to be passed over. The head of the result is the
piece being read. -/
def splitAux (sep : List Char) : List Char → Nat → List (List Char)
  | [], _ => [[]]
  | _ :: cs, k + 1 => splitAux sep cs k
  | c :: cs, 0 =>
    if sep.isPrefixOf (c :: cs) then [] :: splitAux sep cs (sep.length - 1)
    else match splitAux sep cs 0 with
      | [] => [[c]]
      | p :: ps => (c :: p) :: ps

/-- The list form of strings.Split: with an empty separator the text is exploded into its
characters, otherwise it is cut at the non-overlapping occurrences of the separator found
from left to right. -/
def splitL (s sep : List Char) : List (List Char) :=
  if sep.isEmpty then s.map (fun c => [c]) else splitAux sep s 0

/-- The function strings.Split. -/
def Split (s sep : String) : List String := (splitL s.data sep.data).map String.mk

/-- Scan of `strings.Replace(s, old, new, -1)` for a non-empty `old`. -/
def replaceAux (old new : List Char) : List Char → Nat → List Char
  | [], _ => []
  | _ :: cs, k + 1 => replaceAux old new cs k
  | c :: cs, 0 =>
    if old.isPrefixOf (c :: cs) then new ++ replaceAux old new cs (old.length - 1)
    else c :: replaceAux old new cs 0

/-- The list form of `strings.Replace(s, old, new, -1)`: an empty `old` matches before every
character and at the end of the text. -/
def replaceL (s old new : List Char) : List Char :=
  if old.isEmpty then new ++ (s.map (fun c => c :: new)).flatten else replaceAux old new s 0

/-- The call `strings.Replace(s, old, new, -1)`. -/
def Replace (s old new : String) : String := ⟨replaceL s.data old.data new.data⟩

/-- The list form of strings.Fields: the maximal runs of non-space characters. -/
def fieldsL : List Char → List (List Char)
  | [] => []
  | c :: cs =>
    if isSpace c then fieldsL cs
    else match cs with
      | [] => [[c]]
      | d :: _ =>
        if isSpace d then [c] :: fieldsL cs
        else match fieldsL cs with
          | [] => [[c]]
          | p :: ps => (c :: p) :: ps

/-- The function strings.Fields. -/
def Fields (s : String) : List String := (fieldsL s.data).map String.mk

/-- The function strings.Join. -/
def Join : List String → String → String
  | [], _ => ""
  | [a], _ => a
  | a :: b :: rest, sep => a ++ sep ++ Join (b :: rest) sep

/-! ## Regular expressions (`regexp`)

Go returns the leftmost match and, among the matches starting there, the one a
backtracking search finds first. `matchLens` lists the lengths of the matches of an
expression at the head of a text in that order of preference. -/

/-- The regular expressions used by `getJoinCmd`. -/
inductive Re where
  | cls (p : Char → Bool)
  | seq (a b : Re)
  | alt (a b : Re)
  | rep (r : Re) (lo hi : Nat)
  | plus (r : Re)

/-- Greedy bounded repetition: between `lo` and `hi` matches of `f` in a row. -/
def repLens (f : List Char → List Nat) : Nat → Nat → List Char → List Nat
  | lo, 0, _ => if lo = 0 then [0] else []
  | lo, hi + 1, s =>
    ((f s).flatMap fun n => (repLens f (lo - 1) hi (s.drop n)).map (n + ·)) ++
      (if lo = 0 then [0] else [])

/-- Lengths of the matches of an expression at the head of `s`, preferred first. The
unbounded `plus` is the repetition bounded by the length of the text, which is exact for
an operand that does not match the empty text (here always a character class). -/
def matchLens : Re → List Char → List Nat
  | .cls p => fun s => match s with
    | [] => []
    | c :: _ => if p c then [1] else []
  | .seq a b => fun s => (matchLens a s).flatMap fun n => (matchLens b (s.drop n)).map (n + ·)
  | .alt a b => fun s => matchLens a s ++ matchLens b s
  | .rep r lo hi => fun s => repLens (matchLens r) lo hi s
  | .plus r => fun s => repLens (matchLens r) 1 s.length s

/-- Leftmost-first match of the expression in the text, `none` when there is none. -/
def findL (re : Re) : List Char → Option (List Char)
  | [] => (matchLens re []).head?.map fun _ => []
  | c :: cs => match (matchLens re (c :: cs)).head? with
    | some n => some ((c :: cs).take n)
    | none => findL re cs

/-- The successive non-overlapping matches of `FindAllString(s, -1)`, for an expression
that does not match the empty text. -/
def findAllL (re : Re) : List Char → Nat → List (List Char)
  | [], _ => []
  | _ :: cs, k + 1 => findAllL re cs k
  | c :: cs, 0 => match (matchLens re (c :: cs)).head? with
    | some n => (c :: cs).take n :: findAllL re cs (n - 1)
    | none => findAllL re cs 0

/-- The method `(*Regexp).FindAllString(s, -1)`. -/
def FindAllString (re : Re) (s : String) : List String := (findAllL re s.data 0).map String.mk

/-- The method `(*Regexp).FindStringSubmatch`: `none` for Go nil, otherwise element 0 of
the result, the text of the whole match (the submatches are never read). -/
def FindStringSubmatch (re : Re) (s : String) : Option String := (findL re s.data).map String.mk

/-- Character class `[0-9|a-z]` (the bar is a member of the class). -/
def certKeyChar (c : Char) : Bool := ('0' ≤ c && c ≤ '9') || c == '|' || ('a' ≤ c && c ≤ 'z')

/-- Character class `[\d]`. -/
def digitChar (c : Char) : Bool := '0' ≤ c && c ≤ '9'

/-- Character class `[a-f0-9]`. -/
def hexChar (c : Char) : Bool := ('a' ≤ c && c ≤ 'f') || ('0' ≤ c && c ≤ '9')

/-- The expression `[0-9|a-z]{64}`. -/
def certKeyRe : Re := .rep (.cls certKeyChar) 64 64

/-- The expression `[\d]+\.[\d]+\.[\d]+\.[\d]+`. -/
def ipv4Re : Re :=
  let d := Re.plus (.cls digitChar)
  let dot := Re.cls (· == '.')
  .seq d (.seq dot (.seq d (.seq dot (.seq d (.seq dot d)))))

/-- The expression
`[a-f0-9]{1,4}(:[a-f0-9]{1,4}){7}|[a-f0-9]{1,4}(:[a-f0-9]{1,4}){0,7}::[a-f0-9]{0,4}(:[a-f0-9]{1,4}){0,7}`. -/
def ipv6Re : Re :=
  let h14 := Re.rep (.cls hexChar) 1 4
  let colon := Re.cls (· == ':')
  let grp := Re.seq colon h14
  .alt (.seq h14 (.rep grp 7 7))
    (.seq h14 (.seq (.rep grp 0 7) (.seq colon (.seq colon
      (.seq (.rep (.cls hexChar) 0 4) (.rep grp 0 7))))))

/-! ## The manager and the collaborators -/

/-- The type of `mgr.Cluster.ControlPlaneEndpoint`. -/
structure ControlPlaneEndpoint where
  Domain : String
  Address : String
  Port : Int
  deriving DecidableEq, Repr

/-- The type of `mgr.Cluster.Kubernetes`, the fields read here. -/
structure KubernetesCfg where
  Version : String
  ContainerManager : String
  deriving DecidableEq, Repr

/-- The type of `mgr.Cluster.Network`, the field read here. -/
structure NetworkCfg where
  Plugin : String
  deriving DecidableEq, Repr

/-- The type of `mgr.Cluster.Registry`, the field read here. -/
structure RegistryCfg where
  PrivateRegistry : String
  deriving DecidableEq, Repr

/-- The type of `mgr.Cluster`, the fields read here. -/
structure ClusterCfg where
  ControlPlaneEndpoint : ControlPlaneEndpoint
  Kubernetes : KubernetesCfg
  Network : NetworkCfg
  Registry : RegistryCfg
  deriving DecidableEq, Repr

/-- The type of `mgr.Runner`, the field read here. -/
structure Runner where
  Index : Int
  deriving DecidableEq, Repr

/-- The type `manager.Manager`, the fields read here. -/
structure Manager where
  Runner : Runner
  WorkDir : String
  ObjName : String
  Cluster : ClusterCfg
  K8sNodes : List HostCfg
  deriving DecidableEq, Repr

/-- The collaborators outside the embedded files. Each may answer differently as the run
goes on, so each receives the log of the remote calls made before it.

* `ExecuteCmd`: the result `(output, err)` of `mgr.Runner.ExecuteCmd`;
* `IsExist`: `util.IsExist`;
* `localSh`: `exec.Command("/bin/sh", "-c", cmd).CombinedOutput()`;
* `GenerateKubeadmCfg`: `tmpl.GenerateKubeadmCfg`;
* `CreateClusterDns`: `dns.CreateClusterDns`, which has no access to the package
  variables; it answers with the remote calls it makes and its result;
* `EncodeToString`, `DecodeString`: `base64.StdEncoding`;
* `WriteFile`: the result of `ioutil.WriteFile(path, data, 0644)`;
* `filepathJoin`: `filepath.Join`. -/
structure Env where
  ExecuteCmd : List Call → Call → String × Option Error
  IsExist : List Call → String → Bool
  localSh : List Call → String → String × Option Error
  GenerateKubeadmCfg : List Call → Manager → String × Option Error
  CreateClusterDns : List Call → Manager → List Call × Option Error
  EncodeToString : String → String
  DecodeString : String → Except Error String
  WriteFile : List Call → String → String → Option Error
  filepathJoin : String → String → String

/-- The call `mgr.Runner.ExecuteCmd(cmd, retries, printOutput)`: the executor answers and the
call is logged. -/
def ExecuteCmd (env : Env) (cmd : String) (retries : Int) (printOutput : Bool) (w : World) :
    (String × Option Error) × World :=
  let c : Call := { cmd := cmd, retries := retries, printOutput := printOutput }
  (env.ExecuteCmd w.trace c, { w with trace := w.trace ++ [c] })

/-- Sequencing `if err := f(); err != nil { return err }`: go on only after nil. -/
def seqRet (r : Ret × World) (k : World → Ret × World) : Ret × World :=
  match r with
  | (.nil, w) => k w
  | other => other

/-- The value `errors.Wrap(errors.WithStack(err), msg)`. -/
def wrapStack (e : Error) (msg : String) : Error := .wrap (.withStack e) msg

/-- The format `sudo -E /bin/sh -c "%s"`. -/
def sudoE (cmd : String) : String := "sudo -E /bin/sh -c \"" ++ cmd ++ "\""

/-- The format `sudo env PATH=$PATH /bin/sh -c "%s"`. -/
def sudoEnvPath (cmd : String) : String := "sudo env PATH=$PATH /bin/sh -c \"" ++ cmd ++ "\""

/-- The function strings.TrimSpace. -/
def TrimSpace (s : String) : String :=
  ⟨((s.data.dropWhile isSpace).reverse.dropWhile isSpace).reverse⟩

/-! ## nodes.go -/

/-- ExistNode is used determine if the node already exists. -/
def ExistNode (allNodesInfo : GoMap) (node : HostCfg) : Bool :=
  let name := allNodesInfo.has node.Name
  let version := if name && allNodesInfo.get node.Name != "" then true else false
  let ip := allNodesInfo.has node.InternalAddress
  version || ip

/-! ## master.go -/

/-- The loop `for i := 0; i < 3; i++` of InitKubernetesCluster, addMaster and addWorker, run
over the remaining values of `i`. The three loops differ in the command, the reset command
and the message only. A result nil means the loop was left by `break`. -/
def retryLoop (env : Env) (cmd resetCmd msg : String) : List Nat → World → Ret × World
  | [], w => (.nil, w)
  | i :: rest, w =>
    let (r, w) := ExecuteCmd env cmd 0 true w
    match r.2 with
    | some err =>
      if i = 2 then (.err (wrapStack err msg), w)
      else
        let (_, w) := ExecuteCmd env resetCmd 0 true w
        retryLoop env cmd resetCmd msg rest w
    | none => (.nil, w)

/-- The command of the retry loop of InitKubernetesCluster. -/
def kubeadmInitCmd : String :=
  "sudo env PATH=$PATH /bin/sh -c \"/usr/local/bin/kubeadm init --config=/etc/kubernetes/kubeadm-config.yaml --ignore-preflight-errors=FileExisting-crictl\""

/-- The reset command of InitKubernetesCluster. -/
def resetCmdInit : String := "sudo -E /bin/sh -c \"/usr/local/bin/kubeadm reset -f\""

/-- The reset command of addMaster and addWorker. -/
def resetCmdJoin : String := "sudo env PATH=$PATH /bin/sh -c \"/usr/local/bin/kubeadm reset -f\""

/-- The command built by GetKubeConfig. -/
def getKubeConfigCmd : String :=
  let createConfigDirCmd := "mkdir -p /root/.kube && mkdir -p $HOME/.kube"
  let getKubeConfigCmd := "cp -f /etc/kubernetes/admin.conf /root/.kube/config"
  let getKubeConfigCmdUsr := "cp -f /etc/kubernetes/admin.conf $HOME/.kube/config"
  let chownKubeConfig := "chown $(id -u):$(id -g) $HOME/.kube/config"
  let cmd := Join [createConfigDirCmd, getKubeConfigCmd, getKubeConfigCmdUsr, chownKubeConfig] " && "
  sudoE cmd

/-- GetKubeConfig is used to copy admin.conf to ~/.kube/config . -/
def GetKubeConfig (env : Env) (w : World) : Ret × World :=
  let (r, w) := ExecuteCmd env getKubeConfigCmd 2 false w
  match r.2 with
  | some err => (.err (wrapStack err "Failed to init kubernetes cluster"), w)
  | none => (.nil, w)

/-- The command built by removeMasterTaint. -/
def removeMasterTaintCmd (node : HostCfg) : String :=
  "sudo -E /bin/sh -c \"/usr/local/bin/kubectl taint nodes " ++ node.Name ++
    " node-role.kubernetes.io/master=:NoSchedule-\""

/-- The function removeMasterTaint. -/
def removeMasterTaint (env : Env) (node : HostCfg) (w : World) : Ret × World :=
  if node.IsWorker then
    let (r, w) := ExecuteCmd env (removeMasterTaintCmd node) 5 true w
    match r.2 with
    | some err => (.err (wrapStack err "Failed to remove master taint"), w)
    | none => (.nil, w)
  else (.nil, w)

/-- The command built by addWorkerLabel. -/
def addWorkerLabelCmd (node : HostCfg) : String :=
  "sudo -E /bin/sh -c \"/usr/local/bin/kubectl label --overwrite node " ++ node.Name ++
    " node-role.kubernetes.io/worker=\""

/-- The function addWorkerLabel; the result of the command is discarded. -/
def addWorkerLabel (env : Env) (node : HostCfg) (w : World) : Ret × World :=
  if node.IsWorker then
    let (_, w) := ExecuteCmd env (addWorkerLabelCmd node) 5 true w
    (.nil, w)
  else (.nil, w)

/-- The command built by PatchKubeadmSecret for one certificate field. -/
def patchCmd (cert : String) : String :=
  "sudo -E /bin/sh -c \"/usr/local/bin/kubectl patch -n kube-system secret kubeadm-certs -p '\x7b\\\"data\\\": \x7b\\\"" ++
    cert ++ "\\\": \\\"\\\"\x7d\x7d'\""

/-- The loop `for _, cert := range externalEtcdCerts` of PatchKubeadmSecret. -/
def patchLoop (env : Env) : List String → World → Ret × World
  | [], w => (.nil, w)
  | cert :: rest, w =>
    let (r, w) := ExecuteCmd env (patchCmd cert) 5 true w
    match r.2 with
    | some err => (.err (wrapStack err "Failed to patch kubeadm secret"), w)
    | none => patchLoop env rest w

/-- PatchKubeadmSecret is used to patch etcd's certs for kubeadm-certs secret. -/
def PatchKubeadmSecret (env : Env) (w : World) : Ret × World :=
  patchLoop env ["external-etcd-ca.crt", "external-etcd.crt", "external-etcd.key"] w

/-- The value of `oldServer` in loadKubeConfig. -/
def oldServer (mgr : Manager) : String :=
  "server: https://" ++ mgr.Cluster.ControlPlaneEndpoint.Domain ++ ":" ++
    toString mgr.Cluster.ControlPlaneEndpoint.Port

/-- The value of `newServer` in loadKubeConfig. -/
def newServer (mgr : Manager) : String :=
  "server: https://" ++ mgr.Cluster.ControlPlaneEndpoint.Address ++ ":" ++
    toString mgr.Cluster.ControlPlaneEndpoint.Port

/-- The function loadKubeConfig. -/
def loadKubeConfig (env : Env) (mgr : Manager) (w : World) : Ret × World :=
  let kubeConfigPath := env.filepathJoin mgr.WorkDir ("config-" ++ mgr.ObjName)
  match env.DecodeString w.clusterStatus.kubeconfig with
  | .error err => (.err err, w)
  | .ok kubeconfigStr =>
    let newKubeconfigStr := Replace kubeconfigStr (oldServer mgr) (newServer mgr)
    let w1 := { w with writes := w.writes ++ [(kubeConfigPath, newKubeconfigStr)] }
    match env.WriteFile w.trace kubeConfigPath newKubeconfigStr with
    | some err => (.err err, w1)
    | none => (.nil, w1)

/-- One round of the loop over the lines of the node listing in getJoinCmd. Reading
element 0 of an empty `strings.Fields` result panics. -/
def nodeLine (line : String) (m : GoMap) : Ret × GoMap :=
  let m := match FindStringSubmatch ipv4Re line with
    | some ipv4 => m.set ipv4 ipv4
    | none => m
  let m := match FindStringSubmatch ipv6Re line with
    | some ipv6 => m.set ipv6 ipv6
    | none => m
  let fields := Fields line
  if fields.length > 3 then
    match fields[0]?, fields[1]? with
    | some f0, some f1 => (.nil, m.set f0 f1)
    | _, _ => (.panic "index out of range", m)
  else
    match fields[0]? with
    | some f0 => (.nil, m.set f0 "")
    | none => (.panic "index out of range [0] with length 0", m)

/-- The loop `for i := 0; i < len(tmp); i++` of getJoinCmd. -/
def nodeLines : List String → GoMap → Ret × GoMap
  | [], m => (.nil, m)
  | line :: rest, m =>
    match nodeLine line m with
    | (.nil, m) => nodeLines rest m
    | other => other

/-- The command listing the nodes in getJoinCmd. -/
def getNodesCmd : String :=
  "sudo -E /bin/sh -c \"/usr/local/bin/kubectl --no-headers=true get nodes -o custom-columns=:metadata.name,:status.nodeInfo.kubeletVersion,:status.addresses\""

/-- The function getJoinCmd. The two `regexp.Compile` calls are on constant expressions that
compile, so `err4` and `err5` are nil. Indexing the match list at 0 and the split list at 1
panics when the element is absent. -/
def getJoinCmd (env : Env) (w : World) : Ret × World :=
  let uploadCertsCmd := "/usr/local/bin/kubeadm init phase upload-certs --upload-certs"
  let (r, w) := ExecuteCmd env (sudoE uploadCertsCmd) 5 true w
  match r.2 with
  | some err => (.err (wrapStack err "Failed to upload kubeadm certs"), w)
  | none =>
  match (FindAllString certKeyRe r.1)[0]? with
  | none => (.panic "index out of range [0] with length 0", w)
  | some certificateKey =>
  seqRet (PatchKubeadmSecret env w) fun w =>
  let tokenCreateMasterCmd := "/usr/local/bin/kubeadm token create --print-join-command"
  let (r2, w) := ExecuteCmd env (sudoE tokenCreateMasterCmd) 5 true w
  match r2.2 with
  | some err2 => (.err (wrapStack err2 "Failed to get join node cmd"), w)
  | none =>
  let joinWorkerStrList := Split r2.1 "kubeadm join"
  match joinWorkerStrList[1]? with
  | none => (.panic "index out of range [1] with length 1", w)
  | some tail =>
  let w := { w with clusterStatus :=
    { w.clusterStatus with joinWorkerCmd := "/usr/local/bin/kubeadm join " ++ tail } }
  let w := { w with clusterStatus :=
    { w.clusterStatus with joinMasterCmd :=
        w.clusterStatus.joinWorkerCmd ++ " --control-plane --certificate-key " ++ certificateKey } }
  let (r3, w) := ExecuteCmd env getNodesCmd 5 true w
  match r3.2 with
  | some err3 => (.err (wrapStack err3 "Failed to get cluster info"), w)
  | none =>
  let w := { w with clusterStatus := { w.clusterStatus with clusterInfo := r3.1 } }
  let tmp := Split w.clusterStatus.clusterInfo "\r\n"
  let (p, m) := if tmp.length ≥ 1 then nodeLines tmp w.allNodesInfo else (.nil, w.allNodesInfo)
  let w := { w with allNodesInfo := m }
  match p with
  | .panic what => (.panic what, w)
  | _ =>
  let kubeCfgBase64Cmd := "cat /etc/kubernetes/admin.conf | base64 --wrap=0"
  let (r6, w) := ExecuteCmd env (sudoE kubeCfgBase64Cmd) 1 false w
  match r6.2 with
  | some err6 => (.err (wrapStack err6 "Failed to get cluster kubeconfig"), w)
  | none => (.nil, { w with clusterStatus := { w.clusterStatus with kubeconfig := r6.1 } })

/-- The function getJoinNodesCmd. -/
def getJoinNodesCmd (env : Env) (w : World) : Ret × World :=
  seqRet (getJoinCmd env w) fun w => (.nil, w)

/-- The probe command of GetClusterStatus. -/
def probeCmd : String :=
  "sudo -E /bin/sh -c \"[ -f /etc/kubernetes/admin.conf ] && echo 'Cluster already exists.' || echo 'Cluster will be created.'\""

/-- The version lookup command of GetClusterStatus. -/
def versionCmd : String :=
  "sudo cat /etc/kubernetes/manifests/kube-apiserver.yaml | grep 'image:' | awk -F '[:]' '\x7bprint $(NF-0)\x7d'"

/-- GetClusterStatus is used to fetch status and info from cluster. -/
def GetClusterStatus (env : Env) (mgr : Manager) (_node : HostCfg) (w : World) : Ret × World :=
  if mgr.Runner.Index = 0 then
    if w.clusterStatus.clusterInfo = "" then
      let (r, w) := ExecuteCmd env probeCmd 0 true w
      if Contains r.1 "Cluster will be created" then
        (.nil, { w with clusterIsExist := false })
      else
        match r.2 with
        | some err => (.err (wrapStack err "Failed to find /etc/kubernetes/admin.conf"), w)
        | none =>
        let w := { w with clusterIsExist := true }
        let (rv, w) := ExecuteCmd env versionCmd 0 true w
        match rv.2 with
        | some err => (.err (wrapStack err "Failed to find current version"), w)
        | none =>
        let w := if !Contains rv.1 "No such file or directory" then
            { w with clusterStatus := { w.clusterStatus with version := rv.1 } }
          else w
        let kubeCfgBase64Cmd := "cat /etc/kubernetes/admin.conf | base64 --wrap=0"
        let (rk, w) := ExecuteCmd env (sudoE kubeCfgBase64Cmd) 1 false w
        match rk.2 with
        | some err1 => (.err (wrapStack err1 "Failed to get cluster kubeconfig"), w)
        | none =>
        let w := { w with clusterStatus := { w.clusterStatus with kubeconfig := rk.1 } }
        seqRet (loadKubeConfig env mgr w) fun w =>
        seqRet (getJoinNodesCmd env w) fun w =>
        (.nil, w)
    else (.nil, w)
  else (.nil, w)

/-- The first part of InitKubernetesCluster: the value of `kubeadmCfgBase64`, or the error
returned while producing it. -/
def kubeadmCfgBase64 (env : Env) (mgr : Manager) (w : World) : Except Error String :=
  if env.IsExist w.trace (mgr.WorkDir ++ "/kubeadm-config.yaml") then
    let r := env.localSh w.trace ("cat " ++ mgr.WorkDir ++ "/kubeadm-config.yaml | base64 --wrap=0")
    match r.2 with
    | some err => .error (wrapStack err
        ("Failed to read custom kubeadm config: " ++ mgr.WorkDir ++ "/kubeadm-config.yaml"))
    | none => .ok (TrimSpace r.1)
  else
    let r := env.GenerateKubeadmCfg w.trace mgr
    match r.2 with
    | some err => .error err
    | none => .ok (env.EncodeToString r.1)

/-- The call `dns.CreateClusterDns(mgr)`: its remote calls are logged. -/
def CreateClusterDns (env : Env) (mgr : Manager) (w : World) : Ret × World :=
  let r := env.CreateClusterDns w.trace mgr
  let w := { w with trace := w.trace ++ r.1 }
  match r.2 with
  | some err => (.err err, w)
  | none => (.nil, w)

/-- InitKubernetesCluster is used to init a new cluster. -/
def InitKubernetesCluster (env : Env) (mgr : Manager) (node : HostCfg) (w : World) :
    Ret × World :=
  if mgr.Runner.Index = 0 && !w.clusterIsExist then
    match kubeadmCfgBase64 env mgr w with
    | .error err => (.err err, w)
    | .ok cfg =>
    let (r1, w) := ExecuteCmd env
      (sudoE ("mkdir -p /etc/kubernetes && echo " ++ cfg ++
        " | base64 -d > /etc/kubernetes/kubeadm-config.yaml")) 1 false w
    match r1.2 with
    | some err1 => (.err (wrapStack err1 "Failed to generate kubeadm config"), w)
    | none =>
    seqRet (retryLoop env kubeadmInitCmd resetCmdInit "Failed to init kubernetes cluster"
      [0, 1, 2] w) fun w =>
    seqRet (GetKubeConfig env w) fun w =>
    seqRet (removeMasterTaint env node w) fun w =>
    seqRet (addWorkerLabel env node w) fun w =>
    seqRet (CreateClusterDns env mgr w) fun w =>
    let w := { w with clusterIsExist := true }
    seqRet (getJoinNodesCmd env w) fun w =>
    seqRet (loadKubeConfig env mgr w) fun w =>
    (.nil, w)
  else (.nil, w)

/-- The function addMaster. -/
def addMaster (env : Env) (w : World) : Ret × World :=
  seqRet (retryLoop env (sudoEnvPath w.clusterStatus.joinMasterCmd) resetCmdJoin
    "Failed to add master to cluster" [0, 1, 2] w) fun w =>
  seqRet (GetKubeConfig env w) fun w =>
  (.nil, w)

/-- The command creating the configuration directories in addWorker. -/
def createConfigDirCmd : String := sudoE "mkdir -p /root/.kube && mkdir -p $HOME/.kube"

/-- The value of `syncKubeconfigForRootCmd` in addWorker. -/
def syncKubeconfigForRootCmd (kubeconfig : String) : String :=
  "sudo -E /bin/sh -c \"echo " ++ kubeconfig ++ " | base64 -d > " ++ "/root/.kube/config" ++ "\""

/-- The command built from `syncKubeconfigForUserCmd` in addWorker. -/
def syncKubeconfigForUserCmd (kubeconfig : String) : String :=
  let chownKubeConfig := "chown $(id -u):$(id -g) -R $HOME/.kube"
  sudoE ("echo " ++ kubeconfig ++ " | base64 -d > " ++ "$HOME/.kube/config" ++ " && " ++
    chownKubeConfig)

/-- The function addWorker. -/
def addWorker (env : Env) (w : World) : Ret × World :=
  seqRet (retryLoop env (sudoEnvPath w.clusterStatus.joinWorkerCmd) resetCmdJoin
    "Failed to add worker to cluster" [0, 1, 2] w) fun w =>
  let (r, w) := ExecuteCmd env createConfigDirCmd 1 false w
  match r.2 with
  | some err => (.err (wrapStack err "Failed to create kube dir"), w)
  | none =>
  let (r, w) := ExecuteCmd env (syncKubeconfigForRootCmd w.clusterStatus.kubeconfig) 1 false w
  match r.2 with
  | some err => (.err (wrapStack err "Failed to sync kube config"), w)
  | none =>
  let (r, w) := ExecuteCmd env (syncKubeconfigForUserCmd w.clusterStatus.kubeconfig) 1 false w
  match r.2 with
  | some err => (.err (wrapStack err "Failed to sync kube config"), w)
  | none => (.nil, w)

/-- The `if node.IsMaster` block of JoinNodesToCluster. -/
def joinMasterBlock (env : Env) (node : HostCfg) (w : World) : Ret × World :=
  seqRet (addMaster env w) fun w =>
  seqRet (removeMasterTaint env node w) fun w =>
  seqRet (addWorkerLabel env node w) fun w =>
  (.nil, w)

/-- The `if node.IsWorker && !node.IsMaster` block of JoinNodesToCluster. -/
def joinWorkerBlock (env : Env) (node : HostCfg) (w : World) : Ret × World :=
  seqRet (addWorker env w) fun w =>
  seqRet (addWorkerLabel env node w) fun w =>
  (.nil, w)

/-- JoinNodesToCluster is used to join node to Cluster. -/
def JoinNodesToCluster (env : Env) (node : HostCfg) (w : World) : Ret × World :=
  if !ExistNode w.allNodesInfo node then
    seqRet (if node.IsMaster then joinMasterBlock env node w else (.nil, w)) fun w =>
    seqRet (if node.IsWorker && !node.IsMaster then joinWorkerBlock env node w else (.nil, w))
      fun w =>
    (.nil, w)
  else (.nil, w)

/-! ## Names for the calls and results of the operations -/

/-- The world after the remote calls `cs` were made and logged. -/
def World.issue (w : World) (cs : List Call) : World := { w with trace := w.trace ++ cs }

/-- The error of the executor for call `c` after the calls logged in `t`. -/
def errOf (env : Env) (t : List Call) (c : Call) : Option Error := (env.ExecuteCmd t c).2

/-- The command `c` fails on each of its three attempts, started after the calls logged
in `t` and separated by the reset call `r`; `e3` is the error of the third attempt. -/
def failsThrice (env : Env) (t : List Call) (c r : Call) (e3 : Error) : Prop :=
  (errOf env t c).isSome ∧ (errOf env (t ++ [c, r]) c).isSome ∧
    errOf env (t ++ [c, r, c, r]) c = some e3

/-- The call that uploads the kubeadm configuration `cfg` in InitKubernetesCluster. -/
def uploadCfgCall (cfg : String) : Call :=
  ⟨sudoE ("mkdir -p /etc/kubernetes && echo " ++ cfg ++
    " | base64 -d > /etc/kubernetes/kubeadm-config.yaml"), 1, false⟩

/-- The call uploading the certificates in getJoinCmd. -/
def uploadCertsCall : Call :=
  ⟨sudoE "/usr/local/bin/kubeadm init phase upload-certs --upload-certs", 5, true⟩

/-- The three calls of PatchKubeadmSecret. -/
def patchCalls : List Call :=
  [⟨patchCmd "external-etcd-ca.crt", 5, true⟩, ⟨patchCmd "external-etcd.crt", 5, true⟩,
    ⟨patchCmd "external-etcd.key", 5, true⟩]

/-- The call creating the token in getJoinCmd. -/
def tokenCreateCall : Call :=
  ⟨sudoE "/usr/local/bin/kubeadm token create --print-join-command", 5, true⟩

/-- The call listing the nodes in getJoinCmd. -/
def getNodesCall : Call := ⟨getNodesCmd, 5, true⟩

/-- The call reading the kubeconfig in getJoinCmd and GetClusterStatus. -/
def kubeCfgCall : Call := ⟨sudoE "cat /etc/kubernetes/admin.conf | base64 --wrap=0", 1, false⟩

/-- The output of the certificate upload of a getJoinCmd started in world `w`. -/
def uploadOutput (env : Env) (w : World) : String := (env.ExecuteCmd w.trace uploadCertsCall).1

/-- The output of the token creation of a getJoinCmd started in world `w`. -/
def tokenOutput (env : Env) (w : World) : String :=
  (env.ExecuteCmd (w.trace ++ uploadCertsCall :: patchCalls) tokenCreateCall).1

/-- The node listing returned to a getJoinCmd started in world `w`. -/
def nodesOutput (env : Env) (w : World) : String :=
  (env.ExecuteCmd (w.trace ++ uploadCertsCall :: (patchCalls ++ [tokenCreateCall])) getNodesCall).1

/-- The kubeconfig returned to a getJoinCmd started in world `w`. -/
def kubeCfgOutput (env : Env) (w : World) : String :=
  (env.ExecuteCmd (w.trace ++ uploadCertsCall :: (patchCalls ++ [tokenCreateCall, getNodesCall]))
    kubeCfgCall).1

/-- The list form of `Join`. -/
def joinL (sep : List Char) : List (List Char) → List Char
  | [] => []
  | [a] => a
  | a :: b :: rest => a ++ sep ++ joinL sep (b :: rest)

/-! ## Versions (`k8s.io/apimachinery/pkg/util/version`)

The library is not part of the repository; this is a model of its parser and comparison. -/

/-- The type `version.Version`. -/
structure Version where
  components : List Nat
  semver : Bool
  preRelease : String
  buildMetadata : String
  deriving DecidableEq, Repr

/-- The class `\s` of Go regular expressions. -/
def reSpace (c : Char) : Bool := c == '\t' || c == '\n' || c == '\x0c' || c == '\r' || c == ' '

/-- Character class `[0-9A-Za-z-]`. -/
def identChar (c : Char) : Bool :=
  ('0' ≤ c && c ≤ '9') || ('A' ≤ c && c ≤ 'Z') || ('a' ≤ c && c ≤ 'z') || c == '-'

/-- After a first character of the class `p`: the longest continuation of `p+(?:\.p+)*` and
the text left. -/
def dottedTail (p : Char → Bool) : List Char → List Char × List Char
  | [] => ([], [])
  | c :: cs =>
    if p c then ((c :: (dottedTail p cs).1), (dottedTail p cs).2)
    else if c == '.' then
      match cs with
      | d :: _ => if p d then (('.' :: (dottedTail p cs).1), (dottedTail p cs).2) else ([], c :: cs)
      | [] => ([], c :: cs)
    else ([], c :: cs)

/-- The greedy match of `p+(?:\.p+)*` at the head of the text, with the text left. -/
def dotted (p : Char → Bool) : List Char → Option (List Char × List Char)
  | [] => none
  | c :: cs => if p c then some (c :: (dottedTail p cs).1, (dottedTail p cs).2) else none

/-- The call `strconv.ParseUint(s, 10, 0)` on a 64-bit platform: `none` for an error. -/
def parseUint (s : List Char) : Option Nat :=
  if s.isEmpty || !s.all digitChar then none
  else
    let n := s.foldl (fun acc c => 10 * acc + (c.toNat - '0'.toNat)) 0
    if n < 2 ^ 64 then some n else none

/-- The loop over the components of `parse`: each must be free of a leading zero (the first
one, and all of them for a semantic version) and numeric. -/
def parseComponents (semver : Bool) : List (List Char) → Nat → Option (List Nat)
  | [], _ => some []
  | comp :: rest, i =>
    if (i == 0 || semver) && ['0'].isPrefixOf comp && comp != ['0'] then none
    else match parseUint comp with
      | none => none
      | some num => (parseComponents semver rest (i + 1)).map (num :: ·)

/-- The match of `extraMatchRE`,
`^(?:-([0-9A-Za-z-]+(?:\.[0-9A-Za-z-]+)*))?(?:\+([0-9A-Za-z-]+(?:\.[0-9A-Za-z-]+)*))?\s*$`:
the two submatches, `none` when the text does not match. -/
def matchExtra (extra : List Char) : Option (List Char × List Char) :=
  let g1 : List Char × List Char := match extra with
    | '-' :: r => (match dotted identChar r with
      | some (a, r2) => (a, r2)
      | none => ([], extra))
    | _ => ([], extra)
  let g2 : List Char × List Char := match g1.2 with
    | '+' :: r => (match dotted identChar r with
      | some (b, r3) => (b, r3)
      | none => ([], g1.2))
    | _ => ([], g1.2)
  if g2.2.all reSpace then some (g1.1, g2.1) else none

/-- The function `parse`. The expression `^\s*v?([0-9]+(?:\.[0-9]+)*)(.*)*$` matches
leading space, an optional `v`, the dotted numbers and a rest free of line feeds. -/
def parse (str : String) (semver : Bool) : Except String Version :=
  let s1 := str.data.dropWhile reSpace
  let s2 := match s1 with
    | 'v' :: r => r
    | _ => s1
  match dotted digitChar s2 with
  | none => .error "could not parse as version"
  | some (numbers, extra) =>
    if extra.contains '\n' then .error "could not parse as version"
    else
      let components := splitL numbers ['.']
      if (semver && components.length != 3) || (!semver && components.length < 2) then
        .error "illegal version string"
      else match parseComponents semver components 0 with
        | none => .error "illegal version component"
        | some comps =>
          if semver && !extra.isEmpty then
            match matchExtra extra with
            | none => .error "could not parse pre-release/metadata"
            | some (pre, build) =>
              if (splitL pre ['.']).any fun comp =>
                  (parseUint comp).isSome && (['0'].isPrefixOf comp && comp != ['0']) then
                .error "illegal zero-prefixed version component"
              else .ok { components := comps, semver := semver, preRelease := ⟨pre⟩,
                         buildMetadata := ⟨build⟩ }
          else .ok { components := comps, semver := semver, preRelease := "",
                     buildMetadata := "" }

/-- The function `onlyZeros`. -/
def onlyZeros (array : List Nat) : Bool := array.all (· == 0)

/-- The first loop of `compareInternal`, over the common components: `some` of the result
when the loop returns. -/
def compareComponents : List Nat → List Nat → Option Int
  | v :: vs, o :: os =>
    if o < v then some 1 else if o > v then some (-1) else compareComponents vs os
  | _, _ => none

/-- The last loop of `compareInternal`, over the common pre-release parts. -/
def comparePreRelease : List (List Char) → List (List Char) → Option Int
  | v :: vs, o :: os =>
    if v = o then comparePreRelease vs os
    else
      let num : Option Int := match parseUint v, parseUint o with
        | some vNum, some oNum =>
          if oNum < vNum then some 1 else if oNum > vNum then some (-1) else none
        | _, _ => none
      match num with
      | some r => some r
      | none =>
        if String.mk o < String.mk v then some 1
        else if String.mk o > String.mk v then some (-1)
        else comparePreRelease vs os
  | _, _ => none

/-- The method `compareInternal`: -1, 0 or 1. -/
def compareInternal (v other : Version) : Int :=
  let vLen := v.components.length
  let oLen := other.components.length
  match compareComponents v.components other.components with
  | some r => r
  | none =>
    if oLen < vLen && !onlyZeros (v.components.drop oLen) then 1
    else if oLen > vLen && !onlyZeros (other.components.drop vLen) then -1
    else if !v.semver || !other.semver then 0
    else if v.preRelease == "" && other.preRelease != "" then 1
    else if v.preRelease != "" && other.preRelease == "" then -1
    else if v.preRelease == other.preRelease then 0
    else
      let vPR := splitL v.preRelease.data ['.']
      let oPR := splitL other.preRelease.data ['.']
      match comparePreRelease vPR oPR with
      | some r => r
      | none =>
        if oPR.length < vPR.length then 1
        else if oPR.length > vPR.length then -1
        else 0

/-- The method `Compare`. -/
def Version.Compare (v : Version) (other : String) : Except String Int :=
  match parse other v.semver with
  | .error e => .error e
  | .ok ov => .ok (compareInternal v ov)

/-- The function `MustParseSemantic`: an error stands for its panic. -/
def MustParseSemantic (str : String) : Except String Version := parse str true

/-! ## prepull_images.go -/

/-- The type `images.Image`. -/
structure Image where
  RepoAddr : String
  Namespace : String
  Repo : String
  Tag : String
  Group : String
  Enable : Bool
  deriving DecidableEq, Repr

/-- The constants of package `kubekeyapiv1alpha1` read by GetImage; their declarations are
outside the embedded files. -/
structure Defaults where
  DefaultKubeImageNamespace : String
  DefaultEtcdVersion : String
  DefaultCalicoVersion : String
  DefaultFlannelVersion : String
  DefaultCiliumVersion : String
  DefaultKubeovnVersion : String
  K8s : String
  Master : String
  Worker : String
  Etcd : String

/-- Whether the rune `hi` outside ASCII is in the orbit of the ASCII rune `lo` under
`unicode.SimpleFold`. The orbits of ASCII runes are the two cases of each letter, with the
Kelvin sign U+212A added to K and k and the long s U+017F added to S and s. -/
def asciiOrbit (lo hi : Char) : Bool :=
  ((lo == 'K' || lo == 'k') && hi.toNat == 0x212A) ||
    ((lo == 'S' || lo == 's') && hi.toNat == 0x17F)

/-- One round of strings.EqualFold on the runes `sr` and `tr`: equal, or an ASCII letter and
its other case, or, when the larger of the two is not ASCII, two runes of one orbit of
`unicode.SimpleFold`, which is what the loop `for r != sr && r < tr` answers. For an ASCII
smaller rune the orbit is known (`asciiOrbit`); for two runes outside ASCII the Unicode
table is the parameter `sameOrbit`, asked with the smaller rune first. -/
def foldRune (sameOrbit : Char → Char → Bool) (sr tr : Char) : Bool :=
  if tr == sr then true
  else
    let lo := if tr < sr then tr else sr
    let hi := if tr < sr then sr else tr
    if hi.toNat < 0x80 then
      'A' ≤ lo && lo ≤ 'Z' && hi.toNat == lo.toNat + 'a'.toNat - 'A'.toNat
    else if lo.toNat < 0x80 then asciiOrbit lo hi
    else sameOrbit lo hi

/-- The loop of strings.EqualFold over the runes of both texts. -/
def equalFoldL (sameOrbit : Char → Char → Bool) : List Char → List Char → Bool
  | [], [] => true
  | sr :: s, tr :: t => foldRune sameOrbit sr tr && equalFoldL sameOrbit s t
  | _, _ => false

/-- The function strings.EqualFold. -/
def EqualFold (sameOrbit : Char → Char → Bool) (s t : String) : Bool :=
  equalFoldL sameOrbit s.data t.data

/-- What a call of GetImage does: it returns an image, or panics in MustParseSemantic, or
ends the program in `mgr.Logger.Fatal`. -/
inductive ImageResult where
  | image (i : Image)
  | panic (what : String)
  | fatal (what : String)
  deriving DecidableEq, Repr

/-- The map literal `ImageList` of GetImage read at `name`; an absent key reads as the zero
image. -/
def ImageList (sameOrbit : Char → Char → Bool) (k : Defaults) (mgr : Manager) (pauseTag : String)
    (name : String) : Image :=
  let reg := mgr.Cluster.Registry.PrivateRegistry
  let plugin := mgr.Cluster.Network.Plugin
  let fold := EqualFold sameOrbit
  if name = "pause" then
    ⟨reg, k.DefaultKubeImageNamespace, "pause", pauseTag, k.K8s, true⟩
  else if name = "kube-apiserver" then
    ⟨reg, k.DefaultKubeImageNamespace, "kube-apiserver", mgr.Cluster.Kubernetes.Version, k.Master, true⟩
  else if name = "kube-controller-manager" then
    ⟨reg, k.DefaultKubeImageNamespace, "kube-controller-manager", mgr.Cluster.Kubernetes.Version,
      k.Master, true⟩
  else if name = "kube-scheduler" then
    ⟨reg, k.DefaultKubeImageNamespace, "kube-scheduler", mgr.Cluster.Kubernetes.Version, k.Master, true⟩
  else if name = "kube-proxy" then
    ⟨reg, k.DefaultKubeImageNamespace, "kube-proxy", mgr.Cluster.Kubernetes.Version, k.K8s, true⟩
  else if name = "etcd" then
    ⟨reg, k.DefaultKubeImageNamespace, "etcd", k.DefaultEtcdVersion, k.Etcd, true⟩
  else if name = "coredns" then
    ⟨reg, "coredns", "coredns", "1.6.9", k.K8s, true⟩
  else if name = "k8s-dns-node-cache" then
    ⟨reg, k.DefaultKubeImageNamespace, "k8s-dns-node-cache", "1.15.12", k.K8s, true⟩
  else if name = "calico-kube-controllers" then
    ⟨reg, "calico", "kube-controllers", k.DefaultCalicoVersion, k.K8s, fold plugin "calico"⟩
  else if name = "calico-cni" then
    ⟨reg, "calico", "cni", k.DefaultCalicoVersion, k.K8s, fold plugin "calico"⟩
  else if name = "calico-node" then
    ⟨reg, "calico", "node", k.DefaultCalicoVersion, k.K8s, fold plugin "calico"⟩
  else if name = "calico-flexvol" then
    ⟨reg, "calico", "pod2daemon-flexvol", k.DefaultCalicoVersion, k.K8s, fold plugin "calico"⟩
  else if name = "calico-typha" then
    ⟨reg, "calico", "typha", k.DefaultCalicoVersion, k.K8s,
      fold plugin "calico" && decide (mgr.K8sNodes.length > 50)⟩
  else if name = "flannel" then
    ⟨reg, k.DefaultKubeImageNamespace, "flannel", k.DefaultFlannelVersion, k.K8s, fold plugin "flannel"⟩
  else if name = "cilium" then
    ⟨reg, "cilium", "cilium", k.DefaultCiliumVersion, k.K8s, fold plugin "cilium"⟩
  else if name = "operator-generic" then
    ⟨reg, "cilium", "operator-generic", k.DefaultCiliumVersion, k.K8s, fold plugin "cilium"⟩
  else if name = "kubeovn" then
    ⟨reg, "kubeovn", "kube-ovn", k.DefaultKubeovnVersion, k.K8s, fold plugin "kubeovn"⟩
  else if name = "provisioner-localpv" then
    ⟨reg, "openebs", "provisioner-localpv", "2.9.0", k.Worker, false⟩
  else if name = "linux-utils" then
    ⟨reg, "openebs", "linux-utils", "2.9.0", k.Worker, false⟩
  else ⟨"", "", "", "", "", false⟩

/-- GetImage defines the list of all images and gets image object by name. -/
def GetImage (sameOrbit : Char → Char → Bool) (k : Defaults) (mgr : Manager) (name : String) :
    ImageResult :=
  match MustParseSemantic mgr.Cluster.Kubernetes.Version with
  | .error what => .panic what
  | .ok v =>
    match v.Compare "v1.18.0" with
    | .error err => .fatal ("Failed to compare version: " ++ err)
    | .ok cmp =>
      let pauseTag :=
        if (cmp == 0 || cmp == 1) ||
            (mgr.Cluster.Kubernetes.ContainerManager != "" &&
              mgr.Cluster.Kubernetes.ContainerManager != "docker") then "3.2"
        else "3.1"
      .image (ImageList sameOrbit k mgr pauseTag name)

/-- Whether a parsed semantic version is at least the release `major.minor.patch` in the
precedence of semantic versioning: the numbers are compared in order, and on equal numbers
a pre-release comes before the release. -/
def Version.atLeast (v : Version) (major minor patch : Nat) : Bool :=
  match v.components with
  | [a, b, c] =>
    decide (major < a) || (a == major && decide (minor < b)) ||
      (a == major && b == minor && decide (patch < c)) ||
      (a == major && b == minor && c == patch && v.preRelease == "")
  | _ => false

/-! ## The outcomes of getJoinCmd -/

/-- The world with the two join commands stored by getJoinCmd from the tail of the printed
join command and the certificate key. -/
def World.withJoinCmds (w : World) (tail key : String) : World :=
  { w with clusterStatus := { w.clusterStatus with
      joinWorkerCmd := "/usr/local/bin/kubeadm join " ++ tail
      joinMasterCmd := "/usr/local/bin/kubeadm join " ++ tail ++
        " --control-plane --certificate-key " ++ key } }

/-- The world with the node listing stored and the registry as the loop over its lines
left it. -/
def World.withListing (w : World) (listing : String) (m : GoMap) : World :=
  { w with allNodesInfo := m, clusterStatus := { w.clusterStatus with clusterInfo := listing } }

/-- The world with the kubeconfig stored. -/
def World.withKubeconfig (w : World) (kubeconfig : String) : World :=
  { w with clusterStatus := { w.clusterStatus with kubeconfig := kubeconfig } }

/-- A getJoinCmd started in `w` reaches the token creation: the upload ran, `key` is the first
match of the key pattern in its output, and the three patches ran. -/
def tokenStage (env : Env) (w : World) (key : String) : Prop :=
  errOf env w.trace uploadCertsCall = none ∧
  (FindAllString certKeyRe (uploadOutput env w))[0]? = some key ∧
  PatchKubeadmSecret env (w.issue [uploadCertsCall]) =
    (Ret.nil, (w.issue [uploadCertsCall]).issue patchCalls)

/-- A getJoinCmd started in `w` reaches the node listing: moreover the token creation ran and
`tail` is element 1 of the split of its output. -/
def listingStage (env : Env) (w : World) (key tail : String) : Prop :=
  tokenStage env w key ∧
  errOf env (w.trace ++ uploadCertsCall :: patchCalls) tokenCreateCall = none ∧
  (Split (tokenOutput env w) "kubeadm join")[1]? = some tail

/-- A getJoinCmd started in `w` reaches the loop over the lines: moreover the node listing
ran. -/
def loopStage (env : Env) (w : World) (key tail : String) : Prop :=
  listingStage env w key tail ∧
  errOf env (w.trace ++ uploadCertsCall :: (patchCalls ++ [tokenCreateCall])) getNodesCall = none

/-- The calls of a getJoinCmd up to the token creation. -/
def callsToToken : List Call := uploadCertsCall :: (patchCalls ++ [tokenCreateCall])

/-- The calls of a getJoinCmd up to the node listing. -/
def callsToListing : List Call := uploadCertsCall :: (patchCalls ++ [tokenCreateCall, getNodesCall])

/-- The calls of a getJoinCmd that runs to its end. -/
def callsToEnd : List Call :=
  uploadCertsCall :: (patchCalls ++ [tokenCreateCall, getNodesCall, kubeCfgCall])

/-- The nine ways a getJoinCmd started in world `w` ends, each with the condition on the
executor under which it happens, the result and the world it leaves. -/
inductive JoinOutcome (env : Env) (w : World) : Ret × World → Prop where
  | uploadFailed (e : Error) (h : errOf env w.trace uploadCertsCall = some e) :
    JoinOutcome env w
      (Ret.err (wrapStack e "Failed to upload kubeadm certs"), w.issue [uploadCertsCall])
  | keyMissing (h : errOf env w.trace uploadCertsCall = none)
      (hk : (FindAllString certKeyRe (uploadOutput env w))[0]? = none) :
    JoinOutcome env w
      (Ret.panic "index out of range [0] with length 0", w.issue [uploadCertsCall])
  | patchFailed (key : String) (e : Error) (cs : List Call)
      (h : errOf env w.trace uploadCertsCall = none)
      (hk : (FindAllString certKeyRe (uploadOutput env w))[0]? = some key)
      (hp : PatchKubeadmSecret env (w.issue [uploadCertsCall]) =
        (Ret.err e, (w.issue [uploadCertsCall]).issue cs)) :
    JoinOutcome env w (Ret.err e, w.issue (uploadCertsCall :: cs))
  | tokenFailed (key : String) (e : Error) (h : tokenStage env w key)
      (ht : errOf env (w.trace ++ uploadCertsCall :: patchCalls) tokenCreateCall = some e) :
    JoinOutcome env w
      (Ret.err (wrapStack e "Failed to get join node cmd"), w.issue callsToToken)
  | tailMissing (key : String) (h : tokenStage env w key)
      (ht : errOf env (w.trace ++ uploadCertsCall :: patchCalls) tokenCreateCall = none)
      (hs : (Split (tokenOutput env w) "kubeadm join")[1]? = none) :
    JoinOutcome env w (Ret.panic "index out of range [1] with length 1", w.issue callsToToken)
  | listingFailed (key tail : String) (e : Error) (h : listingStage env w key tail)
      (hl : errOf env (w.trace ++ uploadCertsCall :: (patchCalls ++ [tokenCreateCall]))
        getNodesCall = some e) :
    JoinOutcome env w
      (Ret.err (wrapStack e "Failed to get cluster info"),
        (w.withJoinCmds tail key).issue callsToListing)
  | linePanicked (key tail what : String) (m : GoMap) (h : loopStage env w key tail)
      (hn : nodeLines (Split (nodesOutput env w) "\r\n") w.allNodesInfo = (Ret.panic what, m)) :
    JoinOutcome env w
      (Ret.panic what,
        ((w.withJoinCmds tail key).withListing (nodesOutput env w) m).issue callsToListing)
  | kubeconfigFailed (key tail : String) (m : GoMap) (e : Error) (h : loopStage env w key tail)
      (hn : nodeLines (Split (nodesOutput env w) "\r\n") w.allNodesInfo = (Ret.nil, m))
      (hc : errOf env (w.trace ++ callsToListing) kubeCfgCall = some e) :
    JoinOutcome env w
      (Ret.err (wrapStack e "Failed to get cluster kubeconfig"),
        ((w.withJoinCmds tail key).withListing (nodesOutput env w) m).issue callsToEnd)
  | done (key tail : String) (m : GoMap) (h : loopStage env w key tail)
      (hn : nodeLines (Split (nodesOutput env w) "\r\n") w.allNodesInfo = (Ret.nil, m))
      (hc : errOf env (w.trace ++ callsToListing) kubeCfgCall = none) :
    JoinOutcome env w
      (Ret.nil,
        (((w.withJoinCmds tail key).withListing (nodesOutput env w) m).withKubeconfig
          (kubeCfgOutput env w)).issue callsToEnd)

/-- The call looking up the running version in GetClusterStatus. -/
def versionCall : Call := ⟨versionCmd, 0, true⟩

/-- The probe call of GetClusterStatus. -/
def probeCall : Call := ⟨probeCmd, 0, true⟩

/-! ## Equality up to letter case in the words of the specification -/

/-- Following the specification: a rune with its letter case folded, as far as ASCII words
are concerned. An ASCII capital becomes its small letter (`Char.toLower`), and the Kelvin sign
U+212A becomes k and the long s U+017F becomes s: these two are the only runes outside ASCII
whose Unicode simple case folding is an ASCII letter. Every other rune is left as it is. -/
def caseFold (c : Char) : Char :=
  if c.toNat = 0x212A then 'k'
  else if c.toNat = 0x17F then 's'
  else c.toLower

/-- Following the specification: the configured text equals the lower-case ASCII word `word`
up to letter case. -/
def equalsIgnoringCase (s word : String) : Bool := decide (s.data.map caseFold = word.data)

/-! ## The registry population in the words of the specification -/

/-- Following the specification: what one line of the node listing records. First the first
IPv4-shaped token, if any, as key and value; then the first IPv6-shaped token, if any, as key
and value; then field 0 with field 1 when the line has more than three fields, and field 0
with the empty string otherwise. A line without any field records no name. -/
def recordLineSpec (line : String) (m : GoMap) : GoMap :=
  let m1 := match FindStringSubmatch ipv4Re line with
    | some t => m.set t t
    | none => m
  let m2 := match FindStringSubmatch ipv6Re line with
    | some u => m1.set u u
    | none => m1
  match Fields line with
  | name :: version :: _ :: _ :: _ => m2.set name version
  | name :: _ => m2.set name ""
  | [] => m2

/-- Following the specification: the registry after the lines of the listing `L`, split on
"\r\n", were processed in order, starting from the registry `m`. -/
def populateSpec (L : String) (m : GoMap) : GoMap :=
  (Split L "\r\n").foldl (fun acc line => recordLineSpec line acc) m

/-! ## Sample inputs -/

/-- A cluster manager on the driver host. -/
def sampleMgr : Manager :=
  { Runner := ⟨0⟩, WorkDir := "/work", ObjName := "demo",
    Cluster := { ControlPlaneEndpoint := ⟨"10.0.0.1", "203.0.113.5", 6443⟩,
                 Kubernetes := ⟨"v1.17.9", ""⟩, Network := ⟨"Calico"⟩, Registry := ⟨""⟩ },
    K8sNodes := [] }

/-- A control-plane node that is no worker. -/
def sampleMaster : HostCfg :=
  { Name := "node1", InternalAddress := "10.0.0.1", Arch := "amd64",
    IsMaster := true, IsWorker := false, Labels := [] }

/-- An environment whose remote executor fails every command. -/
def failEnv : Env :=
  { ExecuteCmd := fun _ _ => ("", some (.raw "exit status 1"))
    IsExist := fun _ _ => false
    localSh := fun _ _ => ("", none)
    GenerateKubeadmCfg := fun _ _ => ("cfg", none)
    CreateClusterDns := fun _ _ => ([], none)
    EncodeToString := fun s => s
    DecodeString := fun s => .ok s
    WriteFile := fun _ _ _ => none
    filepathJoin := fun a b => a ++ "/" ++ b }

/-- An environment whose remote executor runs the first command and fails every later one. -/
def initFailEnv : Env :=
  { failEnv with
    ExecuteCmd := fun t _ => if t.length = 0 then ("", none) else ("", some (.raw "exit status 1")) }

/-- An environment whose remote executor runs every command with empty output. -/
def quietEnv : Env :=
  { failEnv with ExecuteCmd := fun _ _ => ("", none) }

/-- A node that is both control-plane member and worker. -/
def sampleDual : HostCfg :=
  { Name := "node2", InternalAddress := "10.0.0.2", Arch := "amd64",
    IsMaster := true, IsWorker := true, Labels := [] }

/-- A world in which the registry knows node1 and the join commands are stored. -/
def sampleWorld : World :=
  { World.init with
    allNodesInfo := [("node1", "v1.17.9")]
    clusterStatus := { version := "", joinMasterCmd := "join-master", joinWorkerCmd := "join-worker",
                       clusterInfo := "node1 v1.17.9 a b", kubeconfig := "" } }

/-- A certificate key as printed by the certificate upload. -/
def sampleKey : String := "0123456789abcdef0123456789abcdef0123456789abcdef0123456789abcdef"

/-- An environment for a fresh cluster: the probe finds no admin.conf and every command
runs; the upload prints a certificate key, the token creation a join command and the node
listing the line of node1. -/
def sampleEnv : Env :=
  { failEnv with
    ExecuteCmd := fun _ c =>
      if c.cmd = probeCmd then ("Cluster will be created.\n", none)
      else if c = uploadCertsCall then
        ("[upload-certs] Using certificate key:\n" ++ sampleKey ++ "\n", none)
      else if c = tokenCreateCall then
        ("kubeadm join 10.0.0.1:6443 --token abcdef.0123456789abcdef", none)
      else if c = getNodesCall then
        ("node1   v1.17.9   [map[address:10.0.0.1 type:InternalIP] map[address:node1 type:Hostname]]",
          none)
      else ("", none) }

/-- An environment in which the token creation runs but prints no join command. -/
def noTokenEnv : Env :=
  { failEnv with
    ExecuteCmd := fun _ c =>
      if c = uploadCertsCall then (sampleKey, none) else ("", none) }

/-- A world whose stored kubeconfig names the control plane by its internal address (the
sample environment decodes a text to itself). -/
def sampleKubeconfigWorld : World :=
  { World.init with
    clusterStatus := { World.init.clusterStatus with
      kubeconfig := "clusters:\n- cluster:\n    server: https://10.0.0.1:6443\n  name: cluster.local\n" } }

/-- The constants of `kubekeyapiv1alpha1` used in the samples. -/
def sampleDefaults : Defaults :=
  { DefaultKubeImageNamespace := "kubesphere", DefaultEtcdVersion := "v3.3.12",
    DefaultCalicoVersion := "v3.15.1", DefaultFlannelVersion := "v0.12.0",
    DefaultCiliumVersion := "v1.8.3", DefaultKubeovnVersion := "v1.5.0",
    K8s := "k8s", Master := "master", Worker := "worker", Etcd := "etcd" }

/-- A table of the `unicode.SimpleFold` orbits outside ASCII, holding the orbit of É and é
only. -/
def sampleOrbit (lo hi : Char) : Bool := lo.toNat == 0xC9 && hi.toNat == 0xE9

/-- The sample environment of a fresh cluster with a node listing that fails. -/
def listFailEnv : Env :=
  { sampleEnv with
    ExecuteCmd := fun t c =>
      if c = getNodesCall then ("", some (.raw "exit status 1")) else sampleEnv.ExecuteCmd t c }

/-- The sample environment of a fresh cluster with a token creation that prints two join
commands. -/
def twoJoinEnv : Env :=
  { sampleEnv with
    ExecuteCmd := fun t c =>
      if c = tokenCreateCall then ("kubeadm join 10.0.0.1:6443 --token a\nkubeadm join 10.0.0.2:6443", none)
      else sampleEnv.ExecuteCmd t c }

/-- An environment of an existing cluster without the apiserver manifest: the version
lookup prints the complaint of `cat` and the pipeline ends without error. -/
def noFileEnv : Env :=
  { sampleEnv with
    ExecuteCmd := fun t c =>
      if c = probeCall then ("Cluster already exists.", none)
      else if c = versionCall then
        ("cat: /etc/kubernetes/manifests/kube-apiserver.yaml: No such file or directory", none)
      else sampleEnv.ExecuteCmd t c }

/-- The same environment with an executor that also reports an error for the version
lookup. -/
def noFileErrEnv : Env :=
  { sampleEnv with
    ExecuteCmd := fun t c =>
      if c = probeCall then ("Cluster already exists.", none)
      else if c = versionCall then
        ("cat: /etc/kubernetes/manifests/kube-apiserver.yaml: No such file or directory",
          some (.raw "exit status 1"))
      else sampleEnv.ExecuteCmd t c }

/-- A worker node that is no control-plane member. -/
def sampleWorker : HostCfg :=
  { Name := "node3", InternalAddress := "10.0.0.3", Arch := "amd64",
    IsMaster := false, IsWorker := true, Labels := [] }

/-- The sample environment of a fresh cluster with the node listing `L`. -/
def listingEnv (L : String) : Env :=
  { sampleEnv with
    ExecuteCmd := fun t c => if c = getNodesCall then (L, none) else sampleEnv.ExecuteCmd t c }

/-- A node listing whose only line holds the name of node1, its kubelet version and no
address: three fields. -/
def bareListing : String := "node1   v1.17.9   <none>"

/-- A node listing of two nodes whose lines are separated by a line feed alone. -/
def lfListing : String :=
  "node0   v1.17.9   [map[address:10.0.0.9 type:InternalIP] map[address:node0 type:Hostname]]\n" ++
  "node1   v1.17.9   [map[address:10.0.0.1 type:InternalIP] map[address:node1 type:Hostname]]"

/-! # Theorems -/

/-! ## Membership test -/

/-- C1: ExistNode is true exactly when the node name is bound to a non-empty string in the
registry or the internal address is a key of the registry, whatever its value. So a name
bound to the empty string with the address absent gives false, an address present with
the name absent gives true, and a name bound to a non-empty version with the address
absent gives true. -/
theorem ExistNode_iff (m : GoMap) (node : HostCfg) :
    (ExistNode m node = true ↔
      ((∃ v, m.get? node.Name = some v ∧ v ≠ "") ∨
        ∃ a, m.get? node.InternalAddress = some a)) ∧
    (m.get? node.Name = some "" ∧ m.get? node.InternalAddress = none →
      ExistNode m node = false) ∧
    ((∃ a, m.get? node.InternalAddress = some a) ∧ m.get? node.Name = none →
      ExistNode m node = true) ∧
    ((∃ v, m.get? node.Name = some v ∧ v ≠ "") ∧ m.get? node.InternalAddress = none →
      ExistNode m node = true) := by
  have main : ExistNode m node = true ↔
      ((∃ v, m.get? node.Name = some v ∧ v ≠ "") ∨
        ∃ a, m.get? node.InternalAddress = some a) := by
    unfold ExistNode GoMap.has GoMap.get
    cases hn : m.get? node.Name <;> cases ha : m.get? node.InternalAddress <;> simp
  refine ⟨main, ?_, ?_, ?_⟩
  · rintro ⟨h1, h2⟩
    cases h : ExistNode m node
    · rfl
    · rcases main.1 h with ⟨v, hv, hne⟩ | ⟨a, ha⟩
      · rw [h1] at hv
        exact absurd (Option.some.inj hv).symm hne
      · rw [h2] at ha
        cases ha
  · rintro ⟨h1, _⟩
    exact main.2 (Or.inr h1)
  · rintro ⟨h1, _⟩
    exact main.2 (Or.inl h1)

/-- Witness of C1 on a registry holding a name without version and an address. -/
theorem ExistNode_iff_witness :
    ExistNode [("node1", ""), ("10.0.0.2", "10.0.0.2")]
        { Name := "node1", InternalAddress := "10.0.0.1", Arch := "amd64",
          IsMaster := true, IsWorker := false, Labels := [] } = false ∧
    ExistNode [("node1", ""), ("10.0.0.2", "10.0.0.2")]
        { Name := "node2", InternalAddress := "10.0.0.2", Arch := "amd64",
          IsMaster := true, IsWorker := false, Labels := [] } = true :=
  ⟨(ExistNode_iff _ _).2.1 ⟨by decide, by decide⟩,
   (ExistNode_iff _ _).2.2.1 ⟨⟨"10.0.0.2", by decide⟩, by decide⟩⟩

/-! ## Retry loops -/

theorem issue_issue (w : World) (a b : List Call) : (w.issue a).issue b = w.issue (a ++ b) := by
  simp [World.issue, List.append_assoc]

theorem ExecuteCmd_eq (env : Env) (cmd : String) (n : Int) (b : Bool) (w : World) :
    ExecuteCmd env cmd n b w = (env.ExecuteCmd w.trace ⟨cmd, n, b⟩, w.issue [⟨cmd, n, b⟩]) := rfl

/-- The retry loop in terms of the results of its three attempts. -/
theorem retryLoop_eq (env : Env) (cmd reset msg : String) (w : World) :
    retryLoop env cmd reset msg [0, 1, 2] w =
      (match errOf env w.trace ⟨cmd, 0, true⟩,
          errOf env (w.trace ++ [⟨cmd, 0, true⟩, ⟨reset, 0, true⟩]) ⟨cmd, 0, true⟩,
          errOf env (w.trace ++ [⟨cmd, 0, true⟩, ⟨reset, 0, true⟩, ⟨cmd, 0, true⟩,
            ⟨reset, 0, true⟩]) ⟨cmd, 0, true⟩ with
      | none, _, _ => (Ret.nil, w.issue [⟨cmd, 0, true⟩])
      | some _, none, _ => (Ret.nil, w.issue [⟨cmd, 0, true⟩, ⟨reset, 0, true⟩, ⟨cmd, 0, true⟩])
      | some _, some _, none =>
        (Ret.nil, w.issue [⟨cmd, 0, true⟩, ⟨reset, 0, true⟩, ⟨cmd, 0, true⟩, ⟨reset, 0, true⟩,
          ⟨cmd, 0, true⟩])
      | some _, some _, some e3 =>
        (Ret.err (wrapStack e3 msg),
          w.issue [⟨cmd, 0, true⟩, ⟨reset, 0, true⟩, ⟨cmd, 0, true⟩, ⟨reset, 0, true⟩,
            ⟨cmd, 0, true⟩])) := by
  simp only [retryLoop, ExecuteCmd_eq, errOf, issue_issue, World.issue, List.append_assoc,
    List.singleton_append, List.cons_append, List.nil_append]
  cases h1 : (env.ExecuteCmd w.trace ⟨cmd, 0, true⟩).2
  · simp
  · cases h2 : (env.ExecuteCmd (w.trace ++ [⟨cmd, 0, true⟩, ⟨reset, 0, true⟩]) ⟨cmd, 0, true⟩).2
    · simp [h2]
    · cases h3 : (env.ExecuteCmd (w.trace ++ [⟨cmd, 0, true⟩, ⟨reset, 0, true⟩, ⟨cmd, 0, true⟩,
            ⟨reset, 0, true⟩]) ⟨cmd, 0, true⟩).2
      · simp [h2, h3]
      · simp [h2, h3]


/-- C2: each retry loop makes at most three attempts with a reset after a failed first and a
failed second attempt only. Its outcome is a function of the results of the attempts: when
the command first succeeds on attempt k the calls are k attempts separated by k-1 resets and
the loop ends without error; when all three fail the calls are attempt, reset, attempt,
reset, attempt and the error wraps the error of the third attempt. In that case addMaster,
addWorker and InitKubernetesCluster return that error with their own message and make no
further call, and the cause of the error is the cause of the third error. An executor that
answers the three attempts alike gives the same outcome whatever it answers to a reset. -/
theorem retry_loops (env : Env) (mgr : Manager) (node : HostCfg) (w : World)
    (cmd reset msg : String) :
    (retryLoop env cmd reset msg [0, 1, 2] w =
      (match errOf env w.trace ⟨cmd, 0, true⟩,
          errOf env (w.trace ++ [⟨cmd, 0, true⟩, ⟨reset, 0, true⟩]) ⟨cmd, 0, true⟩,
          errOf env (w.trace ++ [⟨cmd, 0, true⟩, ⟨reset, 0, true⟩, ⟨cmd, 0, true⟩,
            ⟨reset, 0, true⟩]) ⟨cmd, 0, true⟩ with
      | none, _, _ => (Ret.nil, w.issue [⟨cmd, 0, true⟩])
      | some _, none, _ => (Ret.nil, w.issue [⟨cmd, 0, true⟩, ⟨reset, 0, true⟩, ⟨cmd, 0, true⟩])
      | some _, some _, none =>
        (Ret.nil, w.issue [⟨cmd, 0, true⟩, ⟨reset, 0, true⟩, ⟨cmd, 0, true⟩, ⟨reset, 0, true⟩,
          ⟨cmd, 0, true⟩])
      | some _, some _, some e3 =>
        (Ret.err (wrapStack e3 msg),
          w.issue [⟨cmd, 0, true⟩, ⟨reset, 0, true⟩, ⟨cmd, 0, true⟩, ⟨reset, 0, true⟩,
            ⟨cmd, 0, true⟩]))) ∧
    (∀ e3, failsThrice env w.trace ⟨sudoEnvPath w.clusterStatus.joinMasterCmd, 0, true⟩
        ⟨resetCmdJoin, 0, true⟩ e3 →
      addMaster env w = (Ret.err (wrapStack e3 "Failed to add master to cluster"),
        w.issue [⟨sudoEnvPath w.clusterStatus.joinMasterCmd, 0, true⟩, ⟨resetCmdJoin, 0, true⟩,
          ⟨sudoEnvPath w.clusterStatus.joinMasterCmd, 0, true⟩, ⟨resetCmdJoin, 0, true⟩,
          ⟨sudoEnvPath w.clusterStatus.joinMasterCmd, 0, true⟩])) ∧
    (∀ e3, failsThrice env w.trace ⟨sudoEnvPath w.clusterStatus.joinWorkerCmd, 0, true⟩
        ⟨resetCmdJoin, 0, true⟩ e3 →
      addWorker env w = (Ret.err (wrapStack e3 "Failed to add worker to cluster"),
        w.issue [⟨sudoEnvPath w.clusterStatus.joinWorkerCmd, 0, true⟩, ⟨resetCmdJoin, 0, true⟩,
          ⟨sudoEnvPath w.clusterStatus.joinWorkerCmd, 0, true⟩, ⟨resetCmdJoin, 0, true⟩,
          ⟨sudoEnvPath w.clusterStatus.joinWorkerCmd, 0, true⟩])) ∧
    (∀ cfg e3, mgr.Runner.Index = 0 → w.clusterIsExist = false →
      kubeadmCfgBase64 env mgr w = .ok cfg → errOf env w.trace (uploadCfgCall cfg) = none →
      failsThrice env (w.trace ++ [uploadCfgCall cfg]) ⟨kubeadmInitCmd, 0, true⟩
        ⟨resetCmdInit, 0, true⟩ e3 →
      InitKubernetesCluster env mgr node w =
        (Ret.err (wrapStack e3 "Failed to init kubernetes cluster"),
          w.issue [uploadCfgCall cfg, ⟨kubeadmInitCmd, 0, true⟩, ⟨resetCmdInit, 0, true⟩,
            ⟨kubeadmInitCmd, 0, true⟩, ⟨resetCmdInit, 0, true⟩, ⟨kubeadmInitCmd, 0, true⟩])) ∧
    (∀ e3 : Error, (wrapStack e3 msg).Cause = e3.Cause) ∧
    (∀ env2 : Env,
      errOf env2 w.trace ⟨cmd, 0, true⟩ = errOf env w.trace ⟨cmd, 0, true⟩ →
      errOf env2 (w.trace ++ [⟨cmd, 0, true⟩, ⟨reset, 0, true⟩]) ⟨cmd, 0, true⟩ =
        errOf env (w.trace ++ [⟨cmd, 0, true⟩, ⟨reset, 0, true⟩]) ⟨cmd, 0, true⟩ →
      errOf env2 (w.trace ++ [⟨cmd, 0, true⟩, ⟨reset, 0, true⟩, ⟨cmd, 0, true⟩,
          ⟨reset, 0, true⟩]) ⟨cmd, 0, true⟩ =
        errOf env (w.trace ++ [⟨cmd, 0, true⟩, ⟨reset, 0, true⟩, ⟨cmd, 0, true⟩,
          ⟨reset, 0, true⟩]) ⟨cmd, 0, true⟩ →
      retryLoop env2 cmd reset msg [0, 1, 2] w = retryLoop env cmd reset msg [0, 1, 2] w) := by
  refine ⟨retryLoop_eq env cmd reset msg w, ?_, ?_, ?_, ?_, ?_⟩
  · rintro e3 ⟨h1, h2, h3⟩
    obtain ⟨e1, h1⟩ := Option.isSome_iff_exists.1 h1
    obtain ⟨e2, h2⟩ := Option.isSome_iff_exists.1 h2
    simp [addMaster, retryLoop_eq, h1, h2, h3, seqRet]
  · rintro e3 ⟨h1, h2, h3⟩
    obtain ⟨e1, h1⟩ := Option.isSome_iff_exists.1 h1
    obtain ⟨e2, h2⟩ := Option.isSome_iff_exists.1 h2
    simp [addWorker, retryLoop_eq, h1, h2, h3, seqRet]
  · rintro cfg e3 hi he hcfg hup ⟨h1, h2, h3⟩
    obtain ⟨e1, h1⟩ := Option.isSome_iff_exists.1 h1
    obtain ⟨e2, h2⟩ := Option.isSome_iff_exists.1 h2
    have hup2 : (env.ExecuteCmd w.trace (uploadCfgCall cfg)).2 = none := hup
    simp only [uploadCfgCall] at hup2 h1 h2 h3
    simp only [World.issue, List.append_assoc, List.singleton_append, List.cons_append,
      List.nil_append] at h1 h2 h3
    simp [InitKubernetesCluster, hi, he, hcfg, ExecuteCmd_eq, hup2, retryLoop_eq, World.issue,
      h1, h2, h3, seqRet, uploadCfgCall]
  · intro e3
    rfl
  · intro env2 g1 g2 g3
    rw [retryLoop_eq, retryLoop_eq, g1, g2, g3]

/-- Witness of C2: on an executor that fails every command, addMaster, addWorker and
InitKubernetesCluster stop after three attempts and two resets. -/
theorem retry_loops_witness :
    InitKubernetesCluster initFailEnv sampleMgr sampleMaster World.init =
      (Ret.err (wrapStack (.raw "exit status 1") "Failed to init kubernetes cluster"),
        World.init.issue [uploadCfgCall "cfg", ⟨kubeadmInitCmd, 0, true⟩,
          ⟨resetCmdInit, 0, true⟩, ⟨kubeadmInitCmd, 0, true⟩, ⟨resetCmdInit, 0, true⟩,
          ⟨kubeadmInitCmd, 0, true⟩]) ∧
    addMaster failEnv World.init =
      (Ret.err (wrapStack (.raw "exit status 1") "Failed to add master to cluster"),
        World.init.issue [⟨sudoEnvPath "", 0, true⟩, ⟨resetCmdJoin, 0, true⟩,
          ⟨sudoEnvPath "", 0, true⟩, ⟨resetCmdJoin, 0, true⟩, ⟨sudoEnvPath "", 0, true⟩]) ∧
    addWorker failEnv World.init =
      (Ret.err (wrapStack (.raw "exit status 1") "Failed to add worker to cluster"),
        World.init.issue [⟨sudoEnvPath "", 0, true⟩, ⟨resetCmdJoin, 0, true⟩,
          ⟨sudoEnvPath "", 0, true⟩, ⟨resetCmdJoin, 0, true⟩, ⟨sudoEnvPath "", 0, true⟩]) :=
  ⟨(retry_loops initFailEnv sampleMgr sampleMaster World.init "" "" "").2.2.2.1 "cfg" _
      rfl rfl rfl rfl ⟨rfl, rfl, rfl⟩,
   (retry_loops failEnv sampleMgr sampleMaster World.init "" "" "").2.1 _ ⟨rfl, rfl, rfl⟩,
   (retry_loops failEnv sampleMgr sampleMaster World.init "" "" "").2.2.1 _ ⟨rfl, rfl, rfl⟩⟩

/-! ## Joining nodes -/

/-- C4: for a node that ExistNode reports as a member, whatever its roles and the stored join
commands, JoinNodesToCluster returns nil and leaves the whole world as it was: no remote
call is logged, the cluster state and the registry are unchanged. Hence any number of calls
in a row leave the world as it was. -/
theorem JoinNodesToCluster_member (env : Env) (node : HostCfg) (w : World)
    (h : ExistNode w.allNodesInfo node = true) :
    JoinNodesToCluster env node w = (Ret.nil, w) ∧
    ∀ n : Nat, (fun x => (JoinNodesToCluster env node x).2)^[n] w = w := by
  have h1 : JoinNodesToCluster env node w = (Ret.nil, w) := by
    simp [JoinNodesToCluster, h]
  refine ⟨h1, fun n => ?_⟩
  induction n with
  | zero => rfl
  | succ k ih =>
    rw [Function.iterate_succ_apply, h1]
    exact ih

/-- Witness of C4: node1 is registered, joining it twice logs no call. -/
theorem JoinNodesToCluster_member_witness :
    JoinNodesToCluster failEnv sampleMaster sampleWorld = (Ret.nil, sampleWorld) ∧
    (fun x => (JoinNodesToCluster failEnv sampleMaster x).2)^[2] sampleWorld = sampleWorld :=
  ⟨(JoinNodesToCluster_member failEnv sampleMaster sampleWorld (by decide)).1,
   (JoinNodesToCluster_member failEnv sampleMaster sampleWorld (by decide)).2 2⟩

theorem sudoEnvPath_injective (a b : String) (h : sudoEnvPath a = sudoEnvPath b) : a = b := by
  unfold sudoEnvPath at h
  have h2 := congrArg String.data h
  simp only [String.data_append, List.append_assoc] at h2
  have h3 := List.append_cancel_left h2
  have h4 := List.append_cancel_right h3
  exact String.ext h4

theorem append_ne_of_take_ne (p q x y : String) (n : Nat) (hp : n ≤ p.data.length)
    (hq : n ≤ q.data.length) (h : p.data.take n ≠ q.data.take n) : p ++ x ≠ q ++ y := by
  intro e
  have e2 := congrArg (fun s : String => s.data.take n) e
  simp only [String.data_append, List.take_append_of_le_length hp,
    List.take_append_of_le_length hq] at e2
  exact h e2

theorem taint_ne_sudoEnvPath (node : HostCfg) (a : String) :
    sudoEnvPath a ≠ removeMasterTaintCmd node := by
  unfold sudoEnvPath removeMasterTaintCmd
  rw [String.append_assoc, String.append_assoc]
  exact append_ne_of_take_ne _ _ _ _ 6 (by decide) (by decide) (by decide)

theorem ne_append_of_take_ne (a q y : String) (n : Nat) (ha : n ≤ a.data.length)
    (hq : n ≤ q.data.length) (h : a.data.take n ≠ q.data.take n) : a ≠ q ++ y := by
  have := append_ne_of_take_ne a q "" y n ha hq h
  simpa using this

theorem taint_ne_createConfigDir (node : HostCfg) :
    createConfigDirCmd ≠ removeMasterTaintCmd node := by
  unfold removeMasterTaintCmd
  rw [String.append_assoc]
  exact ne_append_of_take_ne _ _ _ 21 (by decide) (by decide) (by decide)

theorem taint_ne_syncRoot (node : HostCfg) (k : String) :
    syncKubeconfigForRootCmd k ≠ removeMasterTaintCmd node := by
  unfold syncKubeconfigForRootCmd removeMasterTaintCmd
  simp only [String.append_assoc]
  exact append_ne_of_take_ne _ _ _ _ 21 (by decide) (by decide) (by decide)

theorem taint_ne_syncUser (node : HostCfg) (k : String) :
    syncKubeconfigForUserCmd k ≠ removeMasterTaintCmd node := by
  unfold syncKubeconfigForUserCmd sudoE removeMasterTaintCmd
  simp only [String.append_assoc]
  rw [← String.append_assoc "sudo -E /bin/sh -c \"" "echo "]
  exact append_ne_of_take_ne _ _ _ _ 21 (by decide) (by decide) (by decide)

theorem taint_ne_label (node : HostCfg) :
    addWorkerLabelCmd node ≠ removeMasterTaintCmd node := by
  unfold addWorkerLabelCmd removeMasterTaintCmd
  simp only [String.append_assoc]
  exact append_ne_of_take_ne _ _ _ _ 44 (by decide) (by decide) (by decide)

/-- C9: for a node that is not a member, on an executor on which every command succeeds,
JoinNodesToCluster makes exactly these calls in this order. A master: the stored master
join command, the copy of admin.conf, and, when it is also a worker, the master-taint
removal and then the worker label. A worker that is no master: the stored worker join
command, the three kubeconfig commands, and the worker label, with no taint removal. A node
that is neither: no call. The join command of the other role is not among the calls. -/
theorem JoinNodesToCluster_calls (env : Env) (node : HostCfg) (w : World)
    (hn : ExistNode w.allNodesInfo node = false)
    (hok : ∀ t c, (env.ExecuteCmd t c).2 = none) :
    (node.IsMaster = true →
      JoinNodesToCluster env node w =
        (Ret.nil, w.issue ([⟨sudoEnvPath w.clusterStatus.joinMasterCmd, 0, true⟩,
            ⟨getKubeConfigCmd, 2, false⟩] ++
          (if node.IsWorker then [⟨removeMasterTaintCmd node, 5, true⟩] else []) ++
          (if node.IsWorker then [⟨addWorkerLabelCmd node, 5, true⟩] else []))) ∧
      (w.clusterStatus.joinWorkerCmd ≠ w.clusterStatus.joinMasterCmd →
        (⟨sudoEnvPath w.clusterStatus.joinWorkerCmd, 0, true⟩ : Call) ∉
          (JoinNodesToCluster env node w).2.trace.drop w.trace.length)) ∧
    (node.IsWorker = true → node.IsMaster = false →
      JoinNodesToCluster env node w =
        (Ret.nil, w.issue [⟨sudoEnvPath w.clusterStatus.joinWorkerCmd, 0, true⟩,
          ⟨createConfigDirCmd, 1, false⟩,
          ⟨syncKubeconfigForRootCmd w.clusterStatus.kubeconfig, 1, false⟩,
          ⟨syncKubeconfigForUserCmd w.clusterStatus.kubeconfig, 1, false⟩,
          ⟨addWorkerLabelCmd node, 5, true⟩]) ∧
      (∀ c ∈ (JoinNodesToCluster env node w).2.trace.drop w.trace.length,
        c.cmd ≠ removeMasterTaintCmd node) ∧
      (w.clusterStatus.joinWorkerCmd ≠ w.clusterStatus.joinMasterCmd →
        (⟨sudoEnvPath w.clusterStatus.joinMasterCmd, 0, true⟩ : Call) ∉
          (JoinNodesToCluster env node w).2.trace.drop w.trace.length)) ∧
    (node.IsMaster = false → node.IsWorker = false →
      JoinNodesToCluster env node w = (Ret.nil, w)) := by
  refine ⟨fun hm => ?_, fun hw hm => ?_, fun hm hw => ?_⟩
  · have key : JoinNodesToCluster env node w =
        (Ret.nil, w.issue ([⟨sudoEnvPath w.clusterStatus.joinMasterCmd, 0, true⟩,
            ⟨getKubeConfigCmd, 2, false⟩] ++
          (if node.IsWorker then [⟨removeMasterTaintCmd node, 5, true⟩] else []) ++
          (if node.IsWorker then [⟨addWorkerLabelCmd node, 5, true⟩] else []))) := by
      cases hw : node.IsWorker <;>
        simp [JoinNodesToCluster, hn, hm, hw, joinMasterBlock, addMaster, retryLoop_eq, errOf,
          hok, seqRet, GetKubeConfig, ExecuteCmd_eq, removeMasterTaint, addWorkerLabel,
          issue_issue]
    refine ⟨key, fun hne => ?_⟩
    rw [key]
    simp only [World.issue, List.drop_left]
    intro hmem
    cases hw : node.IsWorker <;> simp [hw] at hmem
    · exact hne (sudoEnvPath_injective _ _ hmem)
    · exact hne (sudoEnvPath_injective _ _ hmem)
  · have key : JoinNodesToCluster env node w =
        (Ret.nil, w.issue [⟨sudoEnvPath w.clusterStatus.joinWorkerCmd, 0, true⟩,
          ⟨createConfigDirCmd, 1, false⟩,
          ⟨syncKubeconfigForRootCmd w.clusterStatus.kubeconfig, 1, false⟩,
          ⟨syncKubeconfigForUserCmd w.clusterStatus.kubeconfig, 1, false⟩,
          ⟨addWorkerLabelCmd node, 5, true⟩]) := by
      simp [JoinNodesToCluster, hn, hm, hw, joinWorkerBlock, addWorker, retryLoop_eq, errOf,
        hok, seqRet, ExecuteCmd_eq, addWorkerLabel, issue_issue, World.issue]
    refine ⟨key, ?_, fun hne => ?_⟩
    · rw [key]
      simp only [World.issue, List.drop_left]
      intro c hc
      simp only [List.mem_cons, List.mem_singleton, List.not_mem_nil, or_false] at hc
      rcases hc with rfl | rfl | rfl | rfl | rfl
      · exact taint_ne_sudoEnvPath node _
      · exact taint_ne_createConfigDir node
      · exact taint_ne_syncRoot node _
      · exact taint_ne_syncUser node _
      · exact taint_ne_label node
    · rw [key]
      simp only [World.issue, List.drop_left]
      intro hmem
      simp at hmem
      exact hne (sudoEnvPath_injective _ _ hmem).symm
  · simp [JoinNodesToCluster, hn, hm, hw, seqRet]

/-- Witness of C9: joining the unregistered dual-role node2 on an executor that runs every
command. -/
theorem JoinNodesToCluster_calls_witness :
    JoinNodesToCluster quietEnv sampleDual sampleWorld =
      (Ret.nil, sampleWorld.issue [⟨sudoEnvPath "join-master", 0, true⟩,
        ⟨getKubeConfigCmd, 2, false⟩, ⟨removeMasterTaintCmd sampleDual, 5, true⟩,
        ⟨addWorkerLabelCmd sampleDual, 5, true⟩]) :=
  ((JoinNodesToCluster_calls quietEnv sampleDual sampleWorld (by decide)
    (fun _ _ => rfl)).1 rfl).1

/-! ## Join credentials -/

/-- PatchKubeadmSecret changes nothing but the log: it logs a non-empty initial part of its
three calls, all three when it returns nil, and never panics. -/
theorem PatchKubeadmSecret_eq (env : Env) (w : World) :
    (PatchKubeadmSecret env w = (Ret.nil, w.issue patchCalls)) ∨
    ∃ e cs, PatchKubeadmSecret env w = (Ret.err e, w.issue cs) := by
  simp only [PatchKubeadmSecret, patchLoop, ExecuteCmd_eq, patchCalls, issue_issue]
  cases h1 : (env.ExecuteCmd w.trace ⟨patchCmd "external-etcd-ca.crt", 5, true⟩).2
  · cases h2 : (env.ExecuteCmd (w.issue [⟨patchCmd "external-etcd-ca.crt", 5, true⟩]).trace
        ⟨patchCmd "external-etcd.crt", 5, true⟩).2
    · cases h3 : (env.ExecuteCmd (w.issue ([⟨patchCmd "external-etcd-ca.crt", 5, true⟩] ++
          [⟨patchCmd "external-etcd.crt", 5, true⟩])).trace
          ⟨patchCmd "external-etcd.key", 5, true⟩).2
      · left
        simp
      · right
        exact ⟨_, _, rfl⟩
    · right
      exact ⟨_, _, rfl⟩
  · right
    exact ⟨_, _, rfl⟩

/-- The loop over the lines of the listing never returns an error: it ends or panics. -/
theorem nodeLines_ne_err (ls : List String) (m : GoMap) (e : Error) :
    (nodeLines ls m).1 ≠ Ret.err e := by
  induction ls generalizing m with
  | nil => simp [nodeLines]
  | cons l rest ih =>
    unfold nodeLines
    have hl : (nodeLine l m).1 ≠ Ret.err e := by
      unfold nodeLine
      simp only
      split
      · split <;> simp
      · split <;> simp
    rcases hnl : nodeLine l m with ⟨r, m2⟩
    rw [hnl] at hl
    cases r with
    | nil => exact ih m2
    | err e2 => simpa using hl
    | panic s => simp

theorem nodeLines_guard (ls : List String) (m : GoMap) :
    (if ls.length ≥ 1 then nodeLines ls m else (Ret.nil, m)) = nodeLines ls m := by
  cases ls with
  | nil => simp [nodeLines]
  | cons a t => simp

/-- Either getJoinCmd does not return nil, or the key and the tail of the join command were
found, the loop over the listing ended, and the final world is as given. -/
theorem getJoinCmd_cases (env : Env) (w : World) :
    (getJoinCmd env w).1 ≠ Ret.nil ∨
    ∃ key tail m,
      (FindAllString certKeyRe (uploadOutput env w))[0]? = some key ∧
      (Split (tokenOutput env w) "kubeadm join")[1]? = some tail ∧
      nodeLines (Split (nodesOutput env w) "\r\n") w.allNodesInfo = (Ret.nil, m) ∧
      getJoinCmd env w = (Ret.nil,
        { clusterIsExist := w.clusterIsExist
          allNodesInfo := m
          clusterStatus :=
            { version := w.clusterStatus.version
              joinMasterCmd := "/usr/local/bin/kubeadm join " ++ tail ++
                " --control-plane --certificate-key " ++ key
              joinWorkerCmd := "/usr/local/bin/kubeadm join " ++ tail
              clusterInfo := nodesOutput env w
              kubeconfig := kubeCfgOutput env w }
          trace := w.trace ++ uploadCertsCall ::
            (patchCalls ++ [tokenCreateCall, getNodesCall, kubeCfgCall])
          writes := w.writes }) := by
  unfold getJoinCmd
  simp only [ExecuteCmd_eq]
  split
  · left; simp
  · split
    · left; simp
    · rename_i key hkey
      rcases PatchKubeadmSecret_eq env (w.issue [uploadCertsCall]) with hp | ⟨e, cs, hp⟩
      · simp only [uploadCertsCall] at hp
        simp only [hp, seqRet]
        split
        · left; simp
        · split
          · left; simp
          · rename_i tail htail
            split
            · left; simp
            · simp only [issue_issue, World.issue, List.append_assoc, List.singleton_append,
                List.cons_append, List.nil_append, nodeLines_guard] at htail ⊢
              rw [← uploadCertsCall, ← tokenCreateCall, ← getNodesCall, ← kubeCfgCall]
              rw [← uploadCertsCall, ← tokenCreateCall] at htail
              rw [← uploadCertsCall] at hkey
              change (Split (tokenOutput env w) "kubeadm join")[1]? = some tail at htail
              change (FindAllString certKeyRe (uploadOutput env w))[0]? = some key at hkey
              rcases hnl : nodeLines (Split (nodesOutput env w) "\r\n") w.allNodesInfo with ⟨r, m⟩
              have hnl2 := hnl
              simp only [nodesOutput] at hnl2
              simp only [hnl2]
              cases r with
              | nil =>
                cases h6 : (env.ExecuteCmd (w.trace ++ uploadCertsCall ::
                    (patchCalls ++ [tokenCreateCall, getNodesCall])) kubeCfgCall).2
                · right
                  refine ⟨key, tail, m, hkey, htail, rfl, ?_⟩
                  simp [nodesOutput, kubeCfgOutput]
                · left; simp
              | err e =>
                exact absurd (congrArg Prod.fst hnl) (nodeLines_ne_err _ _ e)
              | panic s => left; simp
      · simp only [uploadCertsCall] at hp
        simp [hp, seqRet]


/-- C3: after every getJoinCmd that returns nil, the stored master join command is the stored
worker join command followed by " --control-plane --certificate-key " and the certificate
key, the first match of the key pattern in the upload-certs output of that call. -/
theorem getJoinCmd_joinMasterCmd (env : Env) (w : World)
    (h : (getJoinCmd env w).1 = Ret.nil) :
    ∃ certificateKey,
      (FindAllString certKeyRe (uploadOutput env w))[0]? = some certificateKey ∧
      (getJoinCmd env w).2.clusterStatus.joinMasterCmd =
        (getJoinCmd env w).2.clusterStatus.joinWorkerCmd ++
          " --control-plane --certificate-key " ++ certificateKey := by
  rcases getJoinCmd_cases env w with hne | ⟨key, tail, m, hkey, _, _, heq⟩
  · exact absurd h hne
  · exact ⟨key, hkey, by rw [heq]⟩

set_option maxRecDepth 100000 in
/-- Witness of C3: a successful refresh on the sample environment. -/
theorem getJoinCmd_joinMasterCmd_witness :
    ∃ certificateKey,
      (FindAllString certKeyRe (uploadOutput sampleEnv World.init))[0]? = some certificateKey ∧
      (getJoinCmd sampleEnv World.init).2.clusterStatus.joinMasterCmd =
        (getJoinCmd sampleEnv World.init).2.clusterStatus.joinWorkerCmd ++
          " --control-plane --certificate-key " ++ certificateKey :=
  getJoinCmd_joinMasterCmd sampleEnv World.init (by decide)

theorem splitAux_of_not_contains (sep : List Char) :
    ∀ s : List Char, containsL sep s = false → splitAux sep s 0 = [s] := by
  intro s
  induction s with
  | nil => intro _; rfl
  | cons c cs ih =>
    intro h
    simp only [containsL, Bool.or_eq_false_iff] at h
    simp only [splitAux, h.1, Bool.false_eq_true, if_false, ih h.2]

theorem Split_of_not_contains (s sep : String) (hsep : sep.data ≠ [])
    (h : Contains s sep = false) : Split s sep = [s] := by
  have hemp : sep.data.isEmpty = false := by
    cases hd : sep.data with
    | nil => exact absurd hd hsep
    | cons a t => rfl
  simp only [Split, splitL, hemp, Bool.false_eq_true, if_false,
    splitAux_of_not_contains _ _ h, List.map_cons, List.map_nil]

/-- C10: a parse failure in getJoinCmd is a panic, not a returned error. When the upload runs
and its output has no match of the key pattern, getJoinCmd panics on index 0 right after the
upload; when the key is found, the three patches run and the token creation runs with an
output that does not contain "kubeadm join", it panics on index 1 right after the token
creation. In both cases no join command is stored. -/
theorem getJoinCmd_parse_failure_panics (env : Env) (w : World) :
    (errOf env w.trace uploadCertsCall = none →
      FindAllString certKeyRe (uploadOutput env w) = [] →
      getJoinCmd env w =
        (Ret.panic "index out of range [0] with length 0", w.issue [uploadCertsCall])) ∧
    (∀ key, errOf env w.trace uploadCertsCall = none →
      (FindAllString certKeyRe (uploadOutput env w))[0]? = some key →
      PatchKubeadmSecret env (w.issue [uploadCertsCall]) =
        (Ret.nil, (w.issue [uploadCertsCall]).issue patchCalls) →
      errOf env (w.trace ++ uploadCertsCall :: patchCalls) tokenCreateCall = none →
      Contains (tokenOutput env w) "kubeadm join" = false →
      getJoinCmd env w =
        (Ret.panic "index out of range [1] with length 1",
          w.issue (uploadCertsCall :: (patchCalls ++ [tokenCreateCall])))) := by
  constructor
  · intro hup hnone
    have hup2 : (env.ExecuteCmd w.trace ⟨sudoE
        "/usr/local/bin/kubeadm init phase upload-certs --upload-certs", 5, true⟩).2 = none := hup
    have hnone2 : FindAllString certKeyRe (env.ExecuteCmd w.trace ⟨sudoE
        "/usr/local/bin/kubeadm init phase upload-certs --upload-certs", 5, true⟩).1 = [] := hnone
    unfold getJoinCmd
    simp only [ExecuteCmd_eq, hup2, hnone2]
    rfl
  · intro key hup hkey hpatch htok hcont
    have hup2 : (env.ExecuteCmd w.trace ⟨sudoE
        "/usr/local/bin/kubeadm init phase upload-certs --upload-certs", 5, true⟩).2 = none := hup
    have hkey2 : (FindAllString certKeyRe (env.ExecuteCmd w.trace ⟨sudoE
        "/usr/local/bin/kubeadm init phase upload-certs --upload-certs", 5, true⟩).1)[0]? =
        some key := hkey
    have hsplit := Split_of_not_contains (tokenOutput env w) "kubeadm join" (by decide) hcont
    have htr : ((w.issue [uploadCertsCall]).issue patchCalls).trace =
        w.trace ++ uploadCertsCall :: patchCalls := by
      simp [World.issue]
    have htok2 : (env.ExecuteCmd (w.trace ++ uploadCertsCall :: patchCalls) ⟨sudoE
        "/usr/local/bin/kubeadm token create --print-join-command", 5, true⟩).2 = none := htok
    have hsplit2 : Split (env.ExecuteCmd (w.trace ++ uploadCertsCall :: patchCalls) ⟨sudoE
        "/usr/local/bin/kubeadm token create --print-join-command", 5, true⟩).1 "kubeadm join" =
        [tokenOutput env w] := hsplit
    simp only [uploadCertsCall] at hpatch htr
    unfold getJoinCmd
    simp only [ExecuteCmd_eq, hup2, hkey2, hpatch, seqRet, htr]
    simp only [uploadCertsCall] at htok2 hsplit2
    simp only [htok2, hsplit2]
    simp [World.issue, uploadCertsCall, tokenCreateCall]

set_option maxRecDepth 100000 in
/-- Witness of C10: an executor that prints nothing, and one that prints a key but no join
command. -/
theorem getJoinCmd_parse_failure_panics_witness :
    getJoinCmd quietEnv World.init =
      (Ret.panic "index out of range [0] with length 0", World.init.issue [uploadCertsCall]) ∧
    getJoinCmd noTokenEnv World.init =
      (Ret.panic "index out of range [1] with length 1",
        World.init.issue (uploadCertsCall :: (patchCalls ++ [tokenCreateCall]))) :=
  ⟨(getJoinCmd_parse_failure_panics quietEnv World.init).1 (by decide) (by decide),
   (getJoinCmd_parse_failure_panics noTokenEnv World.init).2 sampleKey (by decide)
     (by decide) (by decide) (by decide) (by decide)⟩

/-! ## Rewriting the kubeconfig -/

theorem replaceAux_skip (old new xs rest : List Char) :
    replaceAux old new (xs ++ rest) xs.length = replaceAux old new rest 0 := by
  induction xs with
  | nil => cases rest <;> simp [replaceAux]
  | cons x xs ih => simpa [replaceAux] using ih

theorem replaceAux_of_isPrefix (old new rest : List Char) (h : old ≠ []) :
    replaceAux old new (old ++ rest) 0 = new ++ replaceAux old new rest 0 := by
  cases old with
  | nil => exact absurd rfl h
  | cons o os =>
    have hp : (o :: os).isPrefixOf (o :: (os ++ rest)) = true := by
      rw [List.isPrefixOf_iff_prefix]
      exact List.prefix_append (o :: os) rest
    have e : replaceAux (o :: os) new (o :: (os ++ rest)) 0 =
        if (o :: os).isPrefixOf (o :: (os ++ rest)) then
          new ++ replaceAux (o :: os) new (os ++ rest) ((o :: os).length - 1)
        else o :: replaceAux (o :: os) new (os ++ rest) 0 := rfl
    rw [List.cons_append, e, if_pos hp]
    have e2 : (o :: os).length - 1 = os.length := by simp
    rw [e2, replaceAux_skip]

theorem replaceAux_of_not_isPrefix (old new : List Char) (c : Char) (cs : List Char)
    (h : old.isPrefixOf (c :: cs) = false) :
    replaceAux old new (c :: cs) 0 = c :: replaceAux old new cs 0 := by
  simp [replaceAux, h]

theorem joinL_cons (sep p : List Char) (ps : List (List Char)) :
    ∃ rest, joinL sep (p :: ps) = p ++ rest := by
  cases ps with
  | nil => exact ⟨[], by simp [joinL]⟩
  | cons b t => exact ⟨sep ++ joinL sep (b :: t), by simp [joinL]⟩

theorem joinL_cons_cons (sep : List Char) (c : Char) (p : List Char) (ps : List (List Char)) :
    joinL sep ((c :: p) :: ps) = c :: joinL sep (p :: ps) := by
  cases ps <;> simp [joinL]

theorem joinL_nil_cons (sep : List Char) (ps : List (List Char)) (h : ps ≠ []) :
    joinL sep ([] :: ps) = sep ++ joinL sep ps := by
  cases ps with
  | nil => exact absurd rfl h
  | cons b t => simp [joinL]

/-- The effect of `strings.Replace(s, old, new, -1)` for a non-empty `old`: the text is cut
into pieces free of `old` with `old` between them, and the result is the same pieces with
`new` between them. -/
theorem replaceAux_pieces (old new : List Char) (h : old ≠ []) :
    ∀ (n : Nat) (s : List Char), s.length ≤ n →
      ∃ pieces : List (List Char), pieces ≠ [] ∧ s = joinL old pieces ∧
        replaceAux old new s 0 = joinL new pieces ∧ ∀ p ∈ pieces, containsL old p = false := by
  have hemp : old.isEmpty = false := by cases old <;> simp at h ⊢
  intro n
  induction n with
  | zero =>
    intro s hs
    have : s = [] := List.length_eq_zero.1 (Nat.le_zero.1 hs)
    subst this
    exact ⟨[[]], by simp, by simp [joinL], by simp [replaceAux, joinL], by simp [containsL, hemp]⟩
  | succ k ih =>
    intro s hs
    cases s with
    | nil =>
      exact ⟨[[]], by simp, by simp [joinL], by simp [replaceAux, joinL],
        by simp [containsL, hemp]⟩
    | cons c cs =>
      cases hp : old.isPrefixOf (c :: cs)
      · obtain ⟨pieces, hne, hs2, hr, hfree⟩ := ih cs (by simpa using hs)
        cases pieces with
        | nil => exact absurd rfl hne
        | cons p ps =>
          refine ⟨(c :: p) :: ps, by simp, ?_, ?_, ?_⟩
          · rw [joinL_cons_cons, ← hs2]
          · rw [replaceAux_of_not_isPrefix _ _ _ _ hp, hr, joinL_cons_cons]
          · intro q hq
            rcases List.mem_cons.1 hq with rfl | hq
            · have hfp := hfree p (List.mem_cons_self _ _)
              simp only [containsL, hfp, Bool.or_false]
              cases hcp : old.isPrefixOf (c :: p)
              · rfl
              · exfalso
                obtain ⟨rest, hrest⟩ := joinL_cons old p ps
                have h1 : old <+: c :: p := List.isPrefixOf_iff_prefix.1 hcp
                have h2 : old <+: c :: cs := by
                  rw [hs2, hrest]
                  exact h1.trans (List.prefix_append (c :: p) rest)
                rw [← List.isPrefixOf_iff_prefix, hp] at h2
                exact Bool.noConfusion h2
            · exact hfree q (List.mem_cons_of_mem _ hq)
      · obtain ⟨rest, hrest⟩ := List.isPrefixOf_iff_prefix.1 hp
        have hlen : rest.length ≤ k := by
          have h1 := congrArg List.length hrest
          have h2 : 0 < old.length := List.length_pos.2 h
          simp only [List.length_append, List.length_cons] at h1
          simp only [List.length_cons] at hs
          omega
        obtain ⟨pieces, hne, hs2, hr, hfree⟩ := ih rest hlen
        refine ⟨[] :: pieces, by simp, ?_, ?_, ?_⟩
        · rw [joinL_nil_cons _ _ hne, ← hs2, hrest]
        · rw [← hrest, replaceAux_of_isPrefix _ _ _ h, hr, joinL_nil_cons _ _ hne]
        · intro q hq
          rcases List.mem_cons.1 hq with rfl | hq
          · simp [containsL, hemp]
          · exact hfree q hq

theorem replaceAux_of_not_contains (old new : List Char) :
    ∀ s : List Char, containsL old s = false → replaceAux old new s 0 = s := by
  intro s
  induction s with
  | nil => intro _; simp [replaceAux]
  | cons c cs ih =>
    intro hc
    simp only [containsL, Bool.or_eq_false_iff] at hc
    rw [replaceAux_of_not_isPrefix _ _ _ _ hc.1, ih hc.2]

theorem Join_mk (sep : String) (ps : List (List Char)) :
    Join (ps.map String.mk) sep = ⟨joinL sep.data ps⟩ := by
  induction ps with
  | nil => rfl
  | cons a t ih =>
    cases t with
    | nil => simp [Join, joinL]
    | cons b u =>
      simp only [List.map_cons, Join, joinL] at ih ⊢
      rw [ih]
      apply String.ext
      simp [String.data_append]

theorem oldServer_data_ne_nil (mgr : Manager) : (oldServer mgr).data ≠ [] := by
  unfold oldServer
  rw [String.append_assoc, String.append_assoc]
  intro h
  have h2 := congrArg List.length h
  simp [String.data_append] at h2

/-- C7: when the stored kubeconfig decodes to the text T, loadKubeConfig passes to WriteFile,
for the path of the cluster, the text obtained from T by putting the new server line in
place of each occurrence of the old one, found from left to right without overlap, and
nothing else: T is a sequence of pieces free of the old server line with that line between
them, and the written text is the same pieces with the new server line between them. A T
without the old server line is written unchanged. The rest of the world is untouched. -/
theorem loadKubeConfig_writes (env : Env) (mgr : Manager) (w : World) (T : String)
    (h : env.DecodeString w.clusterStatus.kubeconfig = .ok T) :
    (∃ pieces : List String, pieces ≠ [] ∧
      (∀ p ∈ pieces, Contains p (oldServer mgr) = false) ∧
      T = Join pieces (oldServer mgr) ∧
      (loadKubeConfig env mgr w).2 = { w with writes := w.writes ++
        [(env.filepathJoin mgr.WorkDir ("config-" ++ mgr.ObjName),
          Join pieces (newServer mgr))] }) ∧
    (Contains T (oldServer mgr) = false →
      (loadKubeConfig env mgr w).2 = { w with writes := w.writes ++
        [(env.filepathJoin mgr.WorkDir ("config-" ++ mgr.ObjName), T)] }) := by
  have hold := oldServer_data_ne_nil mgr
  have hemp : (oldServer mgr).data.isEmpty = false := by
    cases hd : (oldServer mgr).data with
    | nil => exact absurd hd hold
    | cons a t => rfl
  have hw : (loadKubeConfig env mgr w).2 = { w with writes := w.writes ++
      [(env.filepathJoin mgr.WorkDir ("config-" ++ mgr.ObjName),
        Replace T (oldServer mgr) (newServer mgr))] } := by
    unfold loadKubeConfig
    simp only [h]
    split <;> rfl
  constructor
  · obtain ⟨pieces, hne, hs, hr, hfree⟩ :=
      replaceAux_pieces (oldServer mgr).data (newServer mgr).data hold T.data.length T.data
        (Nat.le_refl _)
    refine ⟨pieces.map String.mk, by simpa using hne, ?_, ?_, ?_⟩
    · intro p hp
      obtain ⟨q, hq, rfl⟩ := List.mem_map.1 hp
      exact hfree q hq
    · rw [Join_mk]
      exact String.ext hs
    · rw [hw, Join_mk]
      simp only [Replace, replaceL, hemp, Bool.false_eq_true, if_false, hr]
  · intro hc
    rw [hw]
    simp only [Replace, replaceL, hemp, Bool.false_eq_true, if_false,
      replaceAux_of_not_contains _ _ _ hc]

set_option maxRecDepth 100000 in
/-- Witness of C7: a kubeconfig naming `server: https://10.0.0.1:6443`, with domain 10.0.0.1
and address 203.0.113.5, is written with `server: https://203.0.113.5:6443` in its place
and every other character as it was. -/
theorem loadKubeConfig_writes_witness :
    (∃ pieces : List String, pieces ≠ [] ∧
      (∀ p ∈ pieces, Contains p (oldServer sampleMgr) = false) ∧
      sampleKubeconfigWorld.clusterStatus.kubeconfig = Join pieces (oldServer sampleMgr) ∧
      (loadKubeConfig failEnv sampleMgr sampleKubeconfigWorld).2 =
        { sampleKubeconfigWorld with writes := sampleKubeconfigWorld.writes ++
          [(failEnv.filepathJoin sampleMgr.WorkDir ("config-" ++ sampleMgr.ObjName),
            Join pieces (newServer sampleMgr))] }) ∧
    (loadKubeConfig failEnv sampleMgr sampleKubeconfigWorld).2.writes =
      [("/work/config-demo",
        "clusters:\n- cluster:\n    server: https://203.0.113.5:6443\n  name: cluster.local\n")] :=
  ⟨(loadKubeConfig_writes failEnv sampleMgr sampleKubeconfigWorld _ rfl).1, by decide⟩

/-! ## Initialisation end to end -/

theorem seqRet_nil (r : Ret × World) (k : World → Ret × World)
    (h : (seqRet r k).1 = Ret.nil) : r.1 = Ret.nil ∧ seqRet r k = k r.2 := by
  rcases r with ⟨r1, w⟩
  cases r1 <;> simp_all [seqRet]

theorem fieldsL_ne_nil : ∀ (s : List Char), ∀ f ∈ fieldsL s, f ≠ [] := by
  intro s
  induction s with
  | nil => simp [fieldsL]
  | cons c cs ih =>
    intro f hf
    unfold fieldsL at hf
    split at hf
    · exact ih f hf
    · split at hf
      · simp at hf; simp [hf]
      · split at hf
        · rcases List.mem_cons.1 hf with rfl | hf
          · simp
          · exact ih f hf
        · split at hf
          · simp at hf; simp [hf]
          · rename_i p ps heq
            rcases List.mem_cons.1 hf with rfl | hf
            · simp
            · exact ih f (by rw [heq]; exact List.mem_cons_of_mem _ hf)

theorem Fields_ne_empty (s f : String) (h : f ∈ Fields s) : f ≠ "" := by
  obtain ⟨q, hq, rfl⟩ := List.mem_map.1 h
  intro e
  exact fieldsL_ne_nil _ q hq (congrArg String.data e)

theorem get?_set (m : GoMap) (k v k2 : String) :
    (m.set k v).get? k2 = if k2 = k then some v else m.get? k2 := by
  simp only [GoMap.set, GoMap.get?, List.lookup]
  by_cases h : k2 = k
  · simp [h]
  · have : (k2 == k) = false := by simpa using h
    simp [h, this]

theorem ExistNode_version (m : GoMap) (node : HostCfg) :
    ExistNode m node = true ↔
      ((∃ v, m.get? node.Name = some v ∧ v ≠ "") ∨
        ∃ a, m.get? node.InternalAddress = some a) := by
  unfold ExistNode GoMap.has GoMap.get
  cases hn : m.get? node.Name <;> cases ha : m.get? node.InternalAddress <;> simp

/-- The registry binds `name` to a non-empty value. -/
theorem hasVersion_set (m : GoMap) (name k v : String)
    (h : (∃ x, m.get? name = some x ∧ x ≠ "") ∨ (k = name ∧ v ≠ "")) (hk : k = name → v ≠ "") :
    ∃ x, (m.set k v).get? name = some x ∧ x ≠ "" := by
  rw [get?_set]
  by_cases e : name = k
  · rw [if_pos e]
    exact ⟨v, rfl, hk e.symm⟩
  · rw [if_neg e]
    rcases h with h | ⟨h1, _⟩
    · exact h
    · exact absurd h1.symm e

/-- One line of the listing keeps a non-empty binding of `name`, and creates one when the
line is that of `name` and has more than three fields. -/
theorem nodeLine_hasVersion (name line : String) (m m2 : GoMap) (hname : name ≠ "")
    (h : nodeLine line m = (Ret.nil, m2))
    (hlen : (Fields line)[0]? = some name → 3 < (Fields line).length)
    (hpre : (∃ x, m.get? name = some x ∧ x ≠ "") ∨ (Fields line)[0]? = some name) :
    ∃ x, m2.get? name = some x ∧ x ≠ "" := by
  unfold nodeLine at h
  simp only at h
  -- the registry after the two address rounds keeps a non-empty binding
  have step : ∀ (m : GoMap) (o : Option String), (∃ x, m.get? name = some x ∧ x ≠ "") →
      ∃ x, (match o with
        | some ip => m.set ip ip
        | none => m).get? name = some x ∧ x ≠ "" := by
    intro m o hm
    cases o with
    | none => exact hm
    | some ip => exact hasVersion_set m name ip ip (Or.inl hm) (fun e => e ▸ hname)
  split at h
  · rename_i hgt
    split at h
    · rename_i f0 f1 h0 h1
      simp only [Prod.mk.injEq, true_and] at h
      subst h
      have hf1 : f1 ≠ "" := Fields_ne_empty line f1 (List.getElem?_mem h1)
      rw [get?_set]
      by_cases e : name = f0
      · rw [if_pos e]
        exact ⟨f1, rfl, hf1⟩
      · rw [if_neg e]
        rcases hpre with hpre | hpre
        · exact step _ _ (step _ _ hpre)
        · rw [h0] at hpre
          exact absurd (Option.some.inj hpre).symm e
    · simp at h
  · rename_i hle
    split at h
    · rename_i f0 h0
      simp only [Prod.mk.injEq, true_and] at h
      subst h
      have hne : name ≠ f0 := by
        intro e
        subst e
        exact hle (hlen h0)
      rw [get?_set, if_neg hne]
      rcases hpre with hpre | hpre
      · exact step _ _ (step _ _ hpre)
      · rw [h0] at hpre
        exact absurd (Option.some.inj hpre).symm hne
    · simp at h

/-- After the loop over the listing ended, a name that heads a line and whose lines all have
more than three fields is bound to a non-empty value. -/
theorem nodeLines_hasVersion (name : String) (hname : name ≠ "") :
    ∀ (ls : List String) (m m2 : GoMap), nodeLines ls m = (Ret.nil, m2) →
      (∀ l ∈ ls, (Fields l)[0]? = some name → 3 < (Fields l).length) →
      ((∃ x, m.get? name = some x ∧ x ≠ "") ∨ ∃ l ∈ ls, (Fields l)[0]? = some name) →
      ∃ x, m2.get? name = some x ∧ x ≠ "" := by
  intro ls
  induction ls with
  | nil =>
    intro m m2 h _ hpre
    simp only [nodeLines, Prod.mk.injEq, true_and] at h
    subst h
    rcases hpre with hpre | ⟨l, hl, _⟩
    · exact hpre
    · simp at hl
  | cons l rest ih =>
    intro m m2 h hlen hpre
    unfold nodeLines at h
    rcases hnl : nodeLine l m with ⟨r, m1⟩
    rw [hnl] at h
    cases r with
    | nil =>
      simp only at h
      apply ih m1 m2 h (fun x hx => hlen x (List.mem_cons_of_mem _ hx))
      by_cases hl : (Fields l)[0]? = some name
      · exact Or.inl (nodeLine_hasVersion name l m m1 hname hnl
          (hlen l (List.mem_cons_self _ _)) (Or.inr hl))
      · rcases hpre with hpre | ⟨x, hx, hx0⟩
        · exact Or.inl (nodeLine_hasVersion name l m m1 hname hnl
            (hlen l (List.mem_cons_self _ _)) (Or.inl hpre))
        · rcases List.mem_cons.1 hx with rfl | hx
          · exact absurd hx0 hl
          · exact Or.inr ⟨x, hx, hx0⟩
    | err e => simp at h
    | panic s => simp at h

theorem loadKubeConfig_fields (env : Env) (mgr : Manager) (w : World) :
    (loadKubeConfig env mgr w).2.clusterIsExist = w.clusterIsExist ∧
    (loadKubeConfig env mgr w).2.allNodesInfo = w.allNodesInfo ∧
    (loadKubeConfig env mgr w).2.clusterStatus = w.clusterStatus ∧
    (loadKubeConfig env mgr w).2.trace = w.trace := by
  unfold loadKubeConfig
  split
  · simp
  · simp only
    split <;> simp

theorem append_ne_empty (a b : String) (h : a ≠ "") : a ++ b ≠ "" := by
  intro e
  have e2 := congrArg String.data e
  simp only [String.data_append] at e2
  have e3 : a.data = [] := (List.append_eq_nil.1 e2).1
  exact h (String.ext e3)

theorem getJoinNodesCmd_eq (env : Env) (w : World) : getJoinNodesCmd env w = getJoinCmd env w := by
  unfold getJoinNodesCmd seqRet
  rcases getJoinCmd env w with ⟨r, w2⟩
  cases r <;> rfl

/-- An InitKubernetesCluster that runs its body and returns nil ended with a getJoinCmd that
returned nil in a world where the cluster exists, followed by loadKubeConfig. -/
theorem InitKubernetesCluster_nil (env : Env) (mgr : Manager) (node : HostCfg) (w : World)
    (hidx : mgr.Runner.Index = 0) (hex : w.clusterIsExist = false)
    (h : (InitKubernetesCluster env mgr node w).1 = Ret.nil) :
    ∃ w5 : World, w5.clusterIsExist = true ∧ (getJoinCmd env w5).1 = Ret.nil ∧
      (InitKubernetesCluster env mgr node w).2 =
        (loadKubeConfig env mgr (getJoinCmd env w5).2).2 := by
  unfold InitKubernetesCluster at h ⊢
  simp only [hidx, hex, Bool.not_false, Bool.and_true, decide_True, if_true,
    getJoinNodesCmd_eq] at h ⊢
  split at h
  · simp at h
  · rename_i cfg hcfg
    simp only [ExecuteCmd_eq] at h ⊢
    split at h
    · simp at h
    · rename_i hup
      obtain ⟨_, e1⟩ := seqRet_nil _ _ h
      rw [e1] at h ⊢
      obtain ⟨_, e2⟩ := seqRet_nil _ _ h
      rw [e2] at h ⊢
      obtain ⟨_, e3⟩ := seqRet_nil _ _ h
      rw [e3] at h ⊢
      obtain ⟨_, e4⟩ := seqRet_nil _ _ h
      rw [e4] at h ⊢
      obtain ⟨_, e5⟩ := seqRet_nil _ _ h
      rw [e5] at h ⊢
      obtain ⟨h6, e6⟩ := seqRet_nil _ _ h
      rw [e6] at h ⊢
      obtain ⟨_, e7⟩ := seqRet_nil _ _ h
      rw [e7]
      exact ⟨_, rfl, h6, rfl⟩

/-- C8, as amended: on the driver host, from the initial state, when the probe output
contains "Cluster will be created", GetClusterStatus returns nil, and when
InitKubernetesCluster then returns nil the resulting state has the cluster existing and
both join commands non-empty; when, moreover, the node listing of that run, split at
"\r\n", has a line whose first field is the name of the driver node and every such line
has more than three fields (its kubelet version is field 1), ExistNode is true for the
driver node. -/
theorem init_end_to_end (env : Env) (mgr : Manager) (node : HostCfg)
    (hidx : mgr.Runner.Index = 0)
    (hprobe : Contains (env.ExecuteCmd [] ⟨probeCmd, 0, true⟩).1 "Cluster will be created" = true)
    (hinit : (InitKubernetesCluster env mgr node
      (GetClusterStatus env mgr node World.init).2).1 = Ret.nil) :
    (GetClusterStatus env mgr node World.init).1 = Ret.nil ∧
    (InitKubernetesCluster env mgr node
      (GetClusterStatus env mgr node World.init).2).2.clusterIsExist = true ∧
    (InitKubernetesCluster env mgr node
      (GetClusterStatus env mgr node World.init).2).2.clusterStatus.joinWorkerCmd ≠ "" ∧
    (InitKubernetesCluster env mgr node
      (GetClusterStatus env mgr node World.init).2).2.clusterStatus.joinMasterCmd ≠ "" ∧
    ((∃ l ∈ Split (InitKubernetesCluster env mgr node
          (GetClusterStatus env mgr node World.init).2).2.clusterStatus.clusterInfo "\r\n",
        (Fields l)[0]? = some node.Name) →
      (∀ l ∈ Split (InitKubernetesCluster env mgr node
          (GetClusterStatus env mgr node World.init).2).2.clusterStatus.clusterInfo "\r\n",
        (Fields l)[0]? = some node.Name → 3 < (Fields l).length) →
      ExistNode (InitKubernetesCluster env mgr node
        (GetClusterStatus env mgr node World.init).2).2.allNodesInfo node = true) := by
  have hg : GetClusterStatus env mgr node World.init =
      (Ret.nil, { World.init.issue [⟨probeCmd, 0, true⟩] with clusterIsExist := false }) := by
    have ht : World.init.trace = [] := rfl
    have hc : World.init.clusterStatus.clusterInfo = "" := rfl
    unfold GetClusterStatus
    simp only [hidx, hc, if_true, ExecuteCmd_eq, ht, hprobe]
  rw [hg] at hinit ⊢
  obtain ⟨w5, _, hj, hfin⟩ := InitKubernetesCluster_nil env mgr node _ hidx rfl hinit
  obtain ⟨f1, f2, f3, _⟩ := loadKubeConfig_fields env mgr (getJoinCmd env w5).2
  rcases getJoinCmd_cases env w5 with hne | ⟨key, tail, m, _, _, hnl, heq⟩
  · exact absurd hj hne
  · rw [hfin]
    rw [f1, f2, f3, heq]
    simp only
    refine ⟨trivial, by assumption, ?_, ?_, ?_⟩
    · exact append_ne_empty _ _ (by decide)
    · exact append_ne_empty _ _ (append_ne_empty _ _ (append_ne_empty _ _ (by decide)))
    · intro hex hall
      obtain ⟨l, hl, hl0⟩ := hex
      have hname : node.Name ≠ "" := Fields_ne_empty l node.Name (List.getElem?_mem hl0)
      have := nodeLines_hasVersion node.Name hname _ _ _ hnl hall (Or.inr ⟨l, hl, hl0⟩)
      exact (ExistNode_version m node).2 (Or.inl this)

set_option maxRecDepth 100000 in
/-- Witness of C8 as amended: the sample environment of a fresh cluster with the
control-plane node node1, whose line the node listing holds. -/
theorem init_end_to_end_witness :
    (InitKubernetesCluster sampleEnv sampleMgr sampleMaster
      (GetClusterStatus sampleEnv sampleMgr sampleMaster World.init).2).2.clusterIsExist = true ∧
    ExistNode (InitKubernetesCluster sampleEnv sampleMgr sampleMaster
      (GetClusterStatus sampleEnv sampleMgr sampleMaster World.init).2).2.allNodesInfo
        sampleMaster = true :=
  ⟨(init_end_to_end sampleEnv sampleMgr sampleMaster rfl (by decide) (by decide)).2.1,
   (init_end_to_end sampleEnv sampleMgr sampleMaster rfl (by decide) (by decide)).2.2.2.2
     (by decide) (by decide)⟩

set_option maxRecDepth 100000 in
/-- Counterexample to C8 as stated: on the driver host, from the initial state, with a probe
output containing "Cluster will be created" and InitKubernetesCluster returning nil, the
node listing returned and stored in that run contains the line of the driver node node1
with its kubelet version v1.17.9, and yet ExistNode is false for node1. In the first run
the line has three fields (the node reports no address), so the name is recorded with the
empty text. In the second run the lines of two nodes are separated by a line feed alone,
so the listing is read as one line and only its first name and first address are
recorded. -/
theorem init_end_to_end_not_member :
    (sampleMgr.Runner.Index = 0 ∧
      Contains ((listingEnv bareListing).ExecuteCmd [] ⟨probeCmd, 0, true⟩).1
        "Cluster will be created" = true ∧
      (GetClusterStatus (listingEnv bareListing) sampleMgr sampleMaster World.init).1 =
        Ret.nil ∧
      (InitKubernetesCluster (listingEnv bareListing) sampleMgr sampleMaster
        (GetClusterStatus (listingEnv bareListing) sampleMgr sampleMaster World.init).2).1 =
          Ret.nil ∧
      (InitKubernetesCluster (listingEnv bareListing) sampleMgr sampleMaster
        (GetClusterStatus (listingEnv bareListing) sampleMgr sampleMaster
          World.init).2).2.clusterStatus.clusterInfo = bareListing ∧
      Fields bareListing =
        [sampleMaster.Name, sampleMgr.Cluster.Kubernetes.Version, "<none>"] ∧
      (InitKubernetesCluster (listingEnv bareListing) sampleMgr sampleMaster
        (GetClusterStatus (listingEnv bareListing) sampleMgr sampleMaster
          World.init).2).2.allNodesInfo = [("node1", "")] ∧
      ExistNode (InitKubernetesCluster (listingEnv bareListing) sampleMgr sampleMaster
        (GetClusterStatus (listingEnv bareListing) sampleMgr sampleMaster
          World.init).2).2.allNodesInfo sampleMaster = false) ∧
    (Contains ((listingEnv lfListing).ExecuteCmd [] ⟨probeCmd, 0, true⟩).1
        "Cluster will be created" = true ∧
      (GetClusterStatus (listingEnv lfListing) sampleMgr sampleMaster World.init).1 =
        Ret.nil ∧
      (InitKubernetesCluster (listingEnv lfListing) sampleMgr sampleMaster
        (GetClusterStatus (listingEnv lfListing) sampleMgr sampleMaster World.init).2).1 =
          Ret.nil ∧
      (InitKubernetesCluster (listingEnv lfListing) sampleMgr sampleMaster
        (GetClusterStatus (listingEnv lfListing) sampleMgr sampleMaster
          World.init).2).2.clusterStatus.clusterInfo = lfListing ∧
      ((Split lfListing "\n")[1]?.map fun l => (Fields l).take 2) =
        some [sampleMaster.Name, sampleMgr.Cluster.Kubernetes.Version] ∧
      ((Split lfListing "\n")[1]?.map fun l => decide (3 < (Fields l).length)) = some true ∧
      (InitKubernetesCluster (listingEnv lfListing) sampleMgr sampleMaster
        (GetClusterStatus (listingEnv lfListing) sampleMgr sampleMaster
          World.init).2).2.allNodesInfo = [("node0", "v1.17.9"), ("10.0.0.9", "10.0.0.9")] ∧
      ExistNode (InitKubernetesCluster (listingEnv lfListing) sampleMgr sampleMaster
        (GetClusterStatus (listingEnv lfListing) sampleMgr sampleMaster
          World.init).2).2.allNodesInfo sampleMaster = false) := by
  refine ⟨⟨?_, ?_, ?_, ?_, ?_, ?_, ?_, ?_⟩, ?_, ?_, ?_, ?_, ?_, ?_, ?_, ?_⟩ <;> decide

/-! ## Image manifest -/

theorem parseComponents_length (sv : Bool) :
    ∀ (l : List (List Char)) (i : Nat) (r : List Nat),
      parseComponents sv l i = some r → r.length = l.length := by
  intro l
  induction l with
  | nil =>
    intro i r h
    simp only [parseComponents, Option.some.injEq] at h
    subst h
    rfl
  | cons c rest ih =>
    intro i r h
    unfold parseComponents at h
    split at h
    · simp at h
    · split at h
      · simp at h
      · rcases hp : parseComponents sv rest (i + 1) with _ | r2
        · simp [hp] at h
        · simp only [hp, Option.map_some', Option.some.injEq] at h
          subst h
          simp [ih (i + 1) r2 hp]

/-- A text that parses as a semantic version has three components. -/
theorem parse_semver (str : String) (v : Version) (h : parse str true = .ok v) :
    v.semver = true ∧ ∃ a b c, v.components = [a, b, c] := by
  unfold parse at h
  simp only at h
  split at h
  · simp at h
  · rename_i numbers extra hd
    split at h
    · simp at h
    · split at h
      · simp at h
      · rename_i hlen
        simp only [Bool.true_and, Bool.not_true, Bool.false_and, Bool.or_false, bne_iff_ne, ne_eq,
          Decidable.not_not] at hlen
        split at h
        · simp at h
        · rename_i comps hc
          have hl := parseComponents_length true _ 0 comps hc
          have hl3 : comps.length = 3 := by
            rw [hl]
            simpa using hlen
          have h3 : ∃ a b c, comps = [a, b, c] := by
            match comps, hl3 with
            | [a, b, c], _ => exact ⟨a, b, c, rfl⟩
          split at h
          · split at h
            · simp at h
            · split at h
              · simp at h
              · simp only [Except.ok.injEq] at h
                subst h
                exact ⟨rfl, h3⟩
          · simp only [Except.ok.injEq] at h
            subst h
            exact ⟨rfl, h3⟩

theorem parse_v1_18_0 :
    parse "v1.18.0" true = .ok ⟨[1, 18, 0], true, "", ""⟩ := by rfl

/-- The comparison with v1.18.0 of a semantic version is 0 or 1 exactly when the version is
at least 1.18.0. -/
theorem compareInternal_v1_18_0 (v : Version) (hs : v.semver = true) (a b c : Nat)
    (hc : v.components = [a, b, c]) :
    (compareInternal v ⟨[1, 18, 0], true, "", ""⟩ == 0 ||
      compareInternal v ⟨[1, 18, 0], true, "", ""⟩ == 1) = v.atLeast 1 18 0 := by
  unfold compareInternal Version.atLeast
  simp only [hc, hs, compareComponents]
  rcases Nat.lt_trichotomy 1 a with h1 | h1 | h1
  · simp [h1]
  · subst h1
    rcases Nat.lt_trichotomy 18 b with h2 | h2 | h2
    · simp [h2]
    · subst h2
      rcases Nat.lt_trichotomy 0 c with h3 | h3 | h3
      · simp [h3]
      · subst h3
        by_cases hp : v.preRelease = ""
        · simp [hp, onlyZeros]
        · simp [hp, onlyZeros]
      · omega
    · have : ¬ 18 < b := by omega
      have : ¬ b = 18 := by omega
      simp [*]
  · have : ¬ 1 < a := by omega
    have : ¬ a = 1 := by omega
    simp [*]

/-- C5: for every cluster version that parses as a semantic version and every container
runtime, GetImage returns for "pause" an image whose tag is "3.2" when the version is at
least v1.18.0 in semantic-version precedence or the runtime is neither empty nor "docker",
and "3.1" otherwise. -/
theorem GetImage_pause_tag (sameOrbit : Char → Char → Bool) (k : Defaults) (mgr : Manager)
    (v : Version) (hv : MustParseSemantic mgr.Cluster.Kubernetes.Version = .ok v) :
    ∃ img, GetImage sameOrbit k mgr "pause" = .image img ∧
      img.Tag = if v.atLeast 1 18 0 ∨
          (mgr.Cluster.Kubernetes.ContainerManager ≠ "" ∧
            mgr.Cluster.Kubernetes.ContainerManager ≠ "docker") then "3.2" else "3.1" := by
  obtain ⟨hs, a, b, c, hc⟩ := parse_semver _ v hv
  have hcmp : v.Compare "v1.18.0" = .ok (compareInternal v ⟨[1, 18, 0], true, "", ""⟩) := by
    unfold Version.Compare
    rw [hs, parse_v1_18_0]
  unfold GetImage
  simp only [hv, hcmp]
  refine ⟨_, rfl, ?_⟩
  have hk := compareInternal_v1_18_0 v hs a b c hc
  simp only [ImageList, if_true]
  rw [hk]
  by_cases h1 : v.atLeast 1 18 0 = true
  · simp [h1]
  · by_cases h2 : mgr.Cluster.Kubernetes.ContainerManager = ""
    · simp [h1, h2]
    · by_cases h3 : mgr.Cluster.Kubernetes.ContainerManager = "docker"
      · simp [h1, h3]
      · simp [h1, h2, h3]

/-- Witness of C5: v1.17.9 with the default runtime gives "3.1", v1.18.0 gives "3.2", and
v1.17.9 with the runtime containerd gives "3.2". -/
theorem GetImage_pause_tag_witness :
    (∃ img, GetImage sampleOrbit sampleDefaults sampleMgr "pause" = .image img ∧
      img.Tag = "3.1") ∧
    (∃ img, GetImage sampleOrbit sampleDefaults
      { sampleMgr with Cluster := { sampleMgr.Cluster with Kubernetes := ⟨"v1.18.0", ""⟩ } }
      "pause" = .image img ∧ img.Tag = "3.2") ∧
    (∃ img, GetImage sampleOrbit sampleDefaults
      { sampleMgr with Cluster := { sampleMgr.Cluster with Kubernetes := ⟨"v1.17.9", "containerd"⟩ } }
      "pause" = .image img ∧ img.Tag = "3.2") := by
  refine ⟨?_, ?_, ?_⟩
  · obtain ⟨img, h1, h2⟩ := GetImage_pause_tag sampleOrbit sampleDefaults sampleMgr
      ⟨[1, 17, 9], true, "", ""⟩ (by rfl)
    exact ⟨img, h1, h2.trans (by decide)⟩
  · obtain ⟨img, h1, h2⟩ := GetImage_pause_tag sampleOrbit sampleDefaults
      { sampleMgr with Cluster := { sampleMgr.Cluster with Kubernetes := ⟨"v1.18.0", ""⟩ } }
      ⟨[1, 18, 0], true, "", ""⟩ (by rfl)
    exact ⟨img, h1, h2.trans (by decide)⟩
  · obtain ⟨img, h1, h2⟩ := GetImage_pause_tag sampleOrbit sampleDefaults
      { sampleMgr with Cluster := { sampleMgr.Cluster with Kubernetes := ⟨"v1.17.9", "containerd"⟩ } }
      ⟨[1, 17, 9], true, "", ""⟩ (by rfl)
    exact ⟨img, h1, h2.trans (by decide)⟩

/-! ## Network plugin images -/

theorem char_le_iff_toNat (a b : Char) : a ≤ b ↔ a.toNat ≤ b.toNat := by
  rw [Char.le_def]
  exact Iff.rfl

theorem char_lt_iff_toNat (a b : Char) : a < b ↔ a.toNat < b.toNat := by
  rw [Char.lt_def]
  exact Iff.rfl

theorem char_toNat_ofNat_small (n : Nat) (h : n < 0xd800) : (Char.ofNat n).toNat = n := by
  have hv : n.isValidChar := Or.inl h
  simp only [Char.ofNat, hv, dite_true]
  rfl

theorem char_eq_iff_toNat (a b : Char) : a = b ↔ a.toNat = b.toNat := by
  constructor
  · intro h; rw [h]
  · intro h
    have := congrArg Char.ofNat h
    simpa using this

/-- The code point of the ASCII lower-case form of a rune. -/
theorem toLower_toNat (c : Char) :
    c.toLower.toNat = if 65 ≤ c.toNat ∧ c.toNat ≤ 90 then c.toNat + 32 else c.toNat := by
  unfold Char.toLower
  simp only
  split
  · rename_i hr
    rw [char_toNat_ofNat_small _ (by omega)]
  · rfl

/-- The code point of a rune with its case folded. -/
theorem caseFold_toNat (c : Char) :
    (caseFold c).toNat =
      if c.toNat = 0x212A then 107 else if c.toNat = 0x17F then 115
      else if 65 ≤ c.toNat ∧ c.toNat ≤ 90 then c.toNat + 32 else c.toNat := by
  unfold caseFold
  split
  · rfl
  · split
    · rfl
    · exact toLower_toNat c

/-- One round of EqualFold against a lower-case ASCII letter succeeds exactly when the rune,
with its case folded, is that letter: for every Unicode table. -/
theorem foldRune_iff_caseFold (so : Char → Char → Bool) (c x : Char)
    (hx : 97 ≤ x.toNat ∧ x.toNat ≤ 122) : foldRune so c x = true ↔ caseFold c = x := by
  rw [char_eq_iff_toNat (caseFold c) x, caseFold_toNat]
  have hK : ('K' : Char).toNat = 75 := rfl
  have hk : ('k' : Char).toNat = 107 := rfl
  have hS : ('S' : Char).toNat = 83 := rfl
  have hs : ('s' : Char).toNat = 115 := rfl
  have hA : ('A' : Char).toNat = 65 := rfl
  have hZ : ('Z' : Char).toNat = 90 := rfl
  have ha : ('a' : Char).toNat = 97 := rfl
  simp only [foldRune, asciiOrbit, beq_iff_eq, char_eq_iff_toNat, char_lt_iff_toNat,
    char_le_iff_toNat, hK, hk, hS, hs, hA, hZ, ha, Bool.and_eq_true, Bool.or_eq_true,
    decide_eq_true_eq]
  have h128 : x.toNat < 128 := by omega
  rcases Nat.lt_trichotomy x.toNat c.toNat with h | h | h
  · have hne : ¬ x.toNat = c.toNat := by omega
    simp only [h, hne, if_true, if_false]
    by_cases hc : c.toNat < 128
    · simp only [hc, if_true, Bool.and_eq_true, decide_eq_true_eq, beq_iff_eq]
      split_ifs <;> omega
    · simp only [hc, h128, if_true, if_false, Bool.and_eq_true, Bool.or_eq_true,
        decide_eq_true_eq, beq_iff_eq, char_eq_iff_toNat, hK, hk, hS, hs]
      split_ifs <;> omega
  · rw [if_pos h]
    refine iff_of_true rfl ?_
    split_ifs <;> omega
  · have hne : ¬ x.toNat = c.toNat := by omega
    have hlt : ¬ x.toNat < c.toNat := by omega
    simp only [hlt, hne, h128, if_true, if_false, Bool.and_eq_true, decide_eq_true_eq,
      beq_iff_eq]
    split_ifs <;> omega

/-- EqualFold against a word of lower-case ASCII letters succeeds exactly when the text, with
the case of every rune folded, is the word: for every Unicode table. -/
theorem equalFoldL_eq_caseFold (so : Char → Char → Bool) :
    ∀ (p w : List Char), (∀ x ∈ w, 97 ≤ x.toNat ∧ x.toNat ≤ 122) →
      equalFoldL so p w = decide (p.map caseFold = w) := by
  intro p
  induction p with
  | nil =>
    intro w _
    cases w with
    | nil => rfl
    | cons x xs => simp [equalFoldL]
  | cons c cs ih =>
    intro w hw
    cases w with
    | nil => simp [equalFoldL]
    | cons x xs =>
      have h1 := foldRune_iff_caseFold so c x (hw x (List.mem_cons_self _ _))
      have h2 := ih xs (fun y hy => hw y (List.mem_cons_of_mem _ hy))
      rw [Bool.eq_iff_iff]
      simp only [equalFoldL, Bool.and_eq_true, h1, h2, decide_eq_true_eq, List.map_cons,
        List.cons.injEq]

/-- A text of ASCII runes with its case folded is its ASCII lower-case form. -/
theorem map_caseFold_ascii (p : List Char) (h : ∀ c ∈ p, c.toNat < 128) :
    p.map caseFold = p.map Char.toLower := by
  apply List.map_congr_left
  intro c hc
  have := h c hc
  unfold caseFold
  rw [if_neg (by omega), if_neg (by omega)]

/-- A rune whose ASCII lower-case form is an ASCII rune folds to that rune. -/
theorem caseFold_of_toLower (c x : Char) (hx : x.toNat < 128) (h : c.toLower = x) :
    caseFold c = x := by
  have ht := toLower_toNat c
  rw [h] at ht
  have hc : c.toNat < 128 := by
    split_ifs at ht <;> omega
  unfold caseFold
  rw [if_neg (by omega), if_neg (by omega)]
  exact h

/-- A text whose ASCII lower-case form is a word of ASCII runes folds to that word. -/
theorem map_caseFold_of_toLower :
    ∀ (p w : List Char), (∀ x ∈ w, x.toNat < 128) → p.map Char.toLower = w →
      p.map caseFold = w := by
  intro p
  induction p with
  | nil => intro w _ h; exact h
  | cons c cs ih =>
    intro w hw h
    cases w with
    | nil => simp at h
    | cons x xs =>
      simp only [List.map_cons, List.cons.injEq] at h
      simp only [List.map_cons, List.cons.injEq]
      exact ⟨caseFold_of_toLower c x (hw x (List.mem_cons_self _ _)) h.1,
        ih xs (fun y hy => hw y (List.mem_cons_of_mem _ hy)) h.2⟩

/-- The function strings.EqualFold against a word of lower-case ASCII letters is equality up
to letter case, for every Unicode table. -/
theorem EqualFold_eq_equalsIgnoringCase (so : Char → Char → Bool) (s w : String)
    (hw : ∀ x ∈ w.data, 97 ≤ x.toNat ∧ x.toNat ≤ 122) :
    EqualFold so s w = equalsIgnoringCase s w :=
  equalFoldL_eq_caseFold so s.data w.data hw

/-- C6: whenever GetImage returns an image, the Enable flag of a network-plugin image is
true exactly when the configured plugin equals the plugin word up to letter case, and false
for every other plugin: the word is "calico" for calico-kube-controllers, calico-cni,
calico-node and calico-flexvol, "flannel" for flannel, "cilium" for cilium and
operator-generic, "kubeovn" for kubeovn, and for calico-typha the flag is equality with
"calico" up to letter case and, in addition, more than 50 nodes. Equality up to letter case
is `equalsIgnoringCase`, which does not depend on the Unicode table; for a plugin of ASCII
runes it is equality of the ASCII lower-case form with the word, and outside ASCII only the
Kelvin sign counts as k and the long s as s, as in Unicode case folding. So a plugin that is
"calico" in any letter case enables calico-typha at 51 nodes and not at 50. -/
theorem GetImage_plugin_enable (sameOrbit : Char → Char → Bool) (k : Defaults) (mgr : Manager)
    (name : String) (img : Image) (h : GetImage sameOrbit k mgr name = .image img) :
    (name ∈ ["calico-kube-controllers", "calico-cni", "calico-node", "calico-flexvol"] →
      img.Enable = equalsIgnoringCase mgr.Cluster.Network.Plugin "calico") ∧
    (name = "flannel" →
      img.Enable = equalsIgnoringCase mgr.Cluster.Network.Plugin "flannel") ∧
    (name ∈ ["cilium", "operator-generic"] →
      img.Enable = equalsIgnoringCase mgr.Cluster.Network.Plugin "cilium") ∧
    (name = "kubeovn" →
      img.Enable = equalsIgnoringCase mgr.Cluster.Network.Plugin "kubeovn") ∧
    (name = "calico-typha" →
      img.Enable = (equalsIgnoringCase mgr.Cluster.Network.Plugin "calico" &&
        decide (mgr.K8sNodes.length > 50))) ∧
    ((∀ c ∈ mgr.Cluster.Network.Plugin.data, c.toNat < 128) → ∀ word : String,
      equalsIgnoringCase mgr.Cluster.Network.Plugin word =
        decide (mgr.Cluster.Network.Plugin.data.map Char.toLower = word.data)) ∧
    (name = "calico-typha" →
      mgr.Cluster.Network.Plugin.data.map Char.toLower = "calico".data →
      (mgr.K8sNodes.length = 51 → img.Enable = true) ∧
      (mgr.K8sNodes.length = 50 → img.Enable = false)) := by
  have hcal := EqualFold_eq_equalsIgnoringCase sameOrbit mgr.Cluster.Network.Plugin "calico"
    (by decide)
  have hfla := EqualFold_eq_equalsIgnoringCase sameOrbit mgr.Cluster.Network.Plugin "flannel"
    (by decide)
  have hcil := EqualFold_eq_equalsIgnoringCase sameOrbit mgr.Cluster.Network.Plugin "cilium"
    (by decide)
  have hkub := EqualFold_eq_equalsIgnoringCase sameOrbit mgr.Cluster.Network.Plugin "kubeovn"
    (by decide)
  unfold GetImage at h
  split at h
  · simp at h
  · split at h
    · simp at h
    · simp only [ImageResult.image.injEq] at h
      subst h
      have he : ∀ tag, (ImageList sameOrbit k mgr tag "calico-typha").Enable =
          (equalsIgnoringCase mgr.Cluster.Network.Plugin "calico" &&
            decide (mgr.K8sNodes.length > 50)) := by
        intro tag
        rw [← hcal]
        simp only [ImageList]; rfl
      refine ⟨?_, ?_, ?_, ?_, ?_, ?_, ?_⟩
      · intro hn
        simp only [List.mem_cons, List.mem_singleton, List.not_mem_nil, or_false] at hn
        rw [← hcal]
        rcases hn with rfl | rfl | rfl | rfl <;> (simp only [ImageList]; rfl)
      · rintro rfl
        rw [← hfla]
        simp only [ImageList]; rfl
      · intro hn
        simp only [List.mem_cons, List.mem_singleton, List.not_mem_nil, or_false] at hn
        rw [← hcil]
        rcases hn with rfl | rfl <;> (simp only [ImageList]; rfl)
      · rintro rfl
        rw [← hkub]
        simp only [ImageList]; rfl
      · rintro rfl
        exact he _
      · intro hascii word
        unfold equalsIgnoringCase
        rw [map_caseFold_ascii _ hascii]
      · rintro rfl hp
        have hf : equalsIgnoringCase mgr.Cluster.Network.Plugin "calico" = true := by
          unfold equalsIgnoringCase
          rw [map_caseFold_of_toLower _ _ (by decide) hp]
          exact decide_eq_true rfl
        constructor
        · intro hn
          rw [he, hf, hn]; rfl
        · intro hn
          rw [he, hf, hn]; rfl

set_option maxRecDepth 100000 in
/-- Witness of C6: the plugin "Calico" with 51 and with 50 nodes enables and disables
calico-typha, and it disables flannel, whose word differs; a plugin with an accented letter
in the place of a letter of the word is not equal to it, whatever the Unicode table says. -/
theorem GetImage_plugin_enable_witness :
    (GetImage sampleOrbit sampleDefaults
      { sampleMgr with K8sNodes := List.replicate 51 sampleMaster } "calico-typha" =
        .image ⟨"", "calico", "typha", "v3.15.1", "k8s", true⟩) ∧
    (GetImage sampleOrbit sampleDefaults
      { sampleMgr with K8sNodes := List.replicate 50 sampleMaster } "calico-typha" =
        .image ⟨"", "calico", "typha", "v3.15.1", "k8s", false⟩) ∧
    (GetImage sampleOrbit sampleDefaults sampleMgr "flannel" =
        .image ⟨"", "kubesphere", "flannel", "v0.12.0", "k8s", false⟩) ∧
    (⟨"", "calico", "typha", "v3.15.1", "k8s", true⟩ : Image).Enable = true ∧
    (⟨"", "calico", "typha", "v3.15.1", "k8s", false⟩ : Image).Enable = false ∧
    (⟨"", "kubesphere", "flannel", "v0.12.0", "k8s", false⟩ : Image).Enable =
      equalsIgnoringCase "Calico" "flannel" ∧
    equalsIgnoringCase "Calico" "flannel" = false ∧
    equalsIgnoringCase "Calico" "calico" = true ∧
    EqualFold (fun _ _ => true) "c\u00e9lico" "calico" = false ∧
    equalsIgnoringCase "c\u00e9lico" "calico" = false :=
  ⟨by decide, by decide, by decide,
   ((GetImage_plugin_enable sampleOrbit sampleDefaults
      { sampleMgr with K8sNodes := List.replicate 51 sampleMaster } "calico-typha" _
      (by decide)).2.2.2.2.2.2 rfl (by decide)).1 (by decide),
   ((GetImage_plugin_enable sampleOrbit sampleDefaults
      { sampleMgr with K8sNodes := List.replicate 50 sampleMaster } "calico-typha" _
      (by decide)).2.2.2.2.2.2 rfl (by decide)).2 (by decide),
   (GetImage_plugin_enable sampleOrbit sampleDefaults sampleMgr "flannel" _
      (by decide)).2.1 rfl,
   by decide, by decide, by decide, by decide⟩

/-! ## Every outcome of getJoinCmd -/

theorem JoinOutcome.of_eq {env : Env} {w : World} {r r2 : Ret × World}
    (h : JoinOutcome env w r) (e : r2 = r) : JoinOutcome env w r2 := e ▸ h

/-- The loop over the lines ends or panics, it returns no error. -/
theorem nodeLines_cases (ls : List String) (m : GoMap) :
    (∃ m2, nodeLines ls m = (Ret.nil, m2)) ∨ ∃ what m2, nodeLines ls m = (Ret.panic what, m2) := by
  rcases h : nodeLines ls m with ⟨r, m2⟩
  cases r with
  | nil => exact Or.inl ⟨m2, rfl⟩
  | err e => exact absurd (congrArg Prod.fst h) (nodeLines_ne_err _ _ e)
  | panic s => exact Or.inr ⟨s, m2, rfl⟩

/-- What getJoinCmd does, in every case. -/
theorem getJoinCmd_outcome (env : Env) (w : World) : JoinOutcome env w (getJoinCmd env w) := by
  cases hup : errOf env w.trace uploadCertsCall with
  | some e =>
    refine (JoinOutcome.uploadFailed e hup).of_eq ?_
    have hup2 : (env.ExecuteCmd w.trace ⟨sudoE
        "/usr/local/bin/kubeadm init phase upload-certs --upload-certs", 5, true⟩).2 = some e := hup
    unfold getJoinCmd
    simp only [ExecuteCmd_eq, hup2]
    rfl
  | none =>
    have hup2 : (env.ExecuteCmd w.trace ⟨sudoE
        "/usr/local/bin/kubeadm init phase upload-certs --upload-certs", 5, true⟩).2 = none := hup
    cases hkey : (FindAllString certKeyRe (uploadOutput env w))[0]? with
    | none =>
      refine (JoinOutcome.keyMissing hup hkey).of_eq ?_
      have hkey2 : (FindAllString certKeyRe (env.ExecuteCmd w.trace ⟨sudoE
          "/usr/local/bin/kubeadm init phase upload-certs --upload-certs", 5, true⟩).1)[0]? =
          none := hkey
      unfold getJoinCmd
      simp only [ExecuteCmd_eq, hup2, hkey2]
      rfl
    | some key =>
      have hkey2 : (FindAllString certKeyRe (env.ExecuteCmd w.trace ⟨sudoE
          "/usr/local/bin/kubeadm init phase upload-certs --upload-certs", 5, true⟩).1)[0]? =
          some key := hkey
      rcases PatchKubeadmSecret_eq env (w.issue [uploadCertsCall]) with hp | ⟨e, cs, hp⟩
      · have hstage : tokenStage env w key := ⟨hup, hkey, hp⟩
        have hp2 := hp
        simp only [uploadCertsCall] at hp2
        cases htok : errOf env (w.trace ++ uploadCertsCall :: patchCalls) tokenCreateCall with
        | some e2 =>
          refine (JoinOutcome.tokenFailed key e2 hstage htok).of_eq ?_
          have htok2 : (env.ExecuteCmd (w.trace ++ uploadCertsCall :: patchCalls) ⟨sudoE
              "/usr/local/bin/kubeadm token create --print-join-command", 5, true⟩).2 =
              some e2 := htok
          simp only [uploadCertsCall] at htok2
          unfold getJoinCmd
          simp only [ExecuteCmd_eq, hup2, hkey2, hp2, seqRet]
          simp only [issue_issue, World.issue,
            List.append_assoc, List.singleton_append, List.cons_append, List.nil_append, htok2]
          rfl
        | none =>
          have htok2 : (env.ExecuteCmd (w.trace ++ uploadCertsCall :: patchCalls) ⟨sudoE
              "/usr/local/bin/kubeadm token create --print-join-command", 5, true⟩).2 =
              none := htok
          simp only [uploadCertsCall] at htok2
          cases htail : (Split (tokenOutput env w) "kubeadm join")[1]? with
          | none =>
            refine (JoinOutcome.tailMissing key hstage htok htail).of_eq ?_
            have htail2 : (Split (env.ExecuteCmd (w.trace ++ uploadCertsCall :: patchCalls) ⟨sudoE
                "/usr/local/bin/kubeadm token create --print-join-command", 5, true⟩).1
                "kubeadm join")[1]? = none := htail
            simp only [uploadCertsCall] at htail2
            unfold getJoinCmd
            simp only [ExecuteCmd_eq, hup2, hkey2, hp2, seqRet]
            simp only [issue_issue, World.issue,
              List.append_assoc, List.singleton_append, List.cons_append, List.nil_append, htok2,
              htail2]
            rfl
          | some tail =>
            have htail2 : (Split (env.ExecuteCmd (w.trace ++ uploadCertsCall :: patchCalls) ⟨sudoE
                "/usr/local/bin/kubeadm token create --print-join-command", 5, true⟩).1
                "kubeadm join")[1]? = some tail := htail
            simp only [uploadCertsCall] at htail2
            have hlst : listingStage env w key tail := ⟨hstage, htok, htail⟩
            cases hnodes : errOf env (w.trace ++ uploadCertsCall ::
                (patchCalls ++ [tokenCreateCall])) getNodesCall with
            | some e3 =>
              refine (JoinOutcome.listingFailed key tail e3 hlst hnodes).of_eq ?_
              have hnodes2 : (env.ExecuteCmd (w.trace ++ uploadCertsCall ::
                  (patchCalls ++ [tokenCreateCall])) ⟨getNodesCmd, 5, true⟩).2 = some e3 := hnodes
              simp only [uploadCertsCall, tokenCreateCall] at hnodes2
              unfold getJoinCmd
              simp only [ExecuteCmd_eq, hup2, hkey2, hp2, seqRet]
              simp only [issue_issue, World.issue,
                List.append_assoc, List.singleton_append, List.cons_append, List.nil_append,
                htok2, htail2, hnodes2]
              rfl
            | none =>
              have hnodes2 : (env.ExecuteCmd (w.trace ++ uploadCertsCall ::
                  (patchCalls ++ [tokenCreateCall])) ⟨getNodesCmd, 5, true⟩).2 = none := hnodes
              simp only [uploadCertsCall, tokenCreateCall] at hnodes2
              have hloop : loopStage env w key tail := ⟨hlst, hnodes⟩
              have hout : (env.ExecuteCmd (w.trace ++ uploadCertsCall ::
                  (patchCalls ++ [tokenCreateCall])) ⟨getNodesCmd, 5, true⟩).1 =
                  nodesOutput env w := rfl
              simp only [uploadCertsCall, tokenCreateCall] at hout
              rcases nodeLines_cases (Split (nodesOutput env w) "\r\n") w.allNodesInfo with
                ⟨m, hnl⟩ | ⟨what, m, hnl⟩
              · cases hcfg : errOf env (w.trace ++ callsToListing) kubeCfgCall with
                | some e6 =>
                  refine (JoinOutcome.kubeconfigFailed key tail m e6 hloop hnl hcfg).of_eq ?_
                  have hcfg2 : (env.ExecuteCmd (w.trace ++ uploadCertsCall ::
                      (patchCalls ++ [tokenCreateCall, getNodesCall])) ⟨sudoE
                      "cat /etc/kubernetes/admin.conf | base64 --wrap=0", 1, false⟩).2 =
                      some e6 := hcfg
                  simp only [uploadCertsCall, tokenCreateCall, getNodesCall] at hcfg2
                  unfold getJoinCmd
                  simp only [ExecuteCmd_eq, hup2, hkey2, hp2, seqRet]
                  simp only [issue_issue, World.issue,
                    List.append_assoc, List.singleton_append, List.cons_append, List.nil_append,
                    htok2, htail2, hnodes2, nodeLines_guard, hout]
                  simp only [hnl, hcfg2]
                  rfl
                | none =>
                  refine (JoinOutcome.done key tail m hloop hnl hcfg).of_eq ?_
                  have hcfg2 : (env.ExecuteCmd (w.trace ++ uploadCertsCall ::
                      (patchCalls ++ [tokenCreateCall, getNodesCall])) ⟨sudoE
                      "cat /etc/kubernetes/admin.conf | base64 --wrap=0", 1, false⟩).2 =
                      none := hcfg
                  have hcout : (env.ExecuteCmd (w.trace ++ uploadCertsCall ::
                      (patchCalls ++ [tokenCreateCall, getNodesCall])) ⟨sudoE
                      "cat /etc/kubernetes/admin.conf | base64 --wrap=0", 1, false⟩).1 =
                      kubeCfgOutput env w := rfl
                  simp only [uploadCertsCall, tokenCreateCall, getNodesCall] at hcfg2 hcout
                  unfold getJoinCmd
                  simp only [ExecuteCmd_eq, hup2, hkey2, hp2, seqRet]
                  simp only [issue_issue, World.issue,
                    List.append_assoc, List.singleton_append, List.cons_append, List.nil_append,
                    htok2, htail2, hnodes2, nodeLines_guard, hout]
                  simp only [hnl, hcfg2, hcout]
                  rfl
              · refine (JoinOutcome.linePanicked key tail what m hloop hnl).of_eq ?_
                unfold getJoinCmd
                simp only [ExecuteCmd_eq, hup2, hkey2, hp2, seqRet]
                simp only [issue_issue, World.issue,
                  List.append_assoc, List.singleton_append, List.cons_append, List.nil_append,
                  htok2, htail2, hnodes2, nodeLines_guard, hout]
                simp only [hnl]
                rfl
      · refine (JoinOutcome.patchFailed key e cs hup hkey hp).of_eq ?_
        have hp2 := hp
        simp only [uploadCertsCall] at hp2
        unfold getJoinCmd
        simp only [ExecuteCmd_eq, hup2, hkey2, hp2, seqRet, issue_issue]
        rfl

/-! ## What an error return of getJoinCmd leaves behind -/

/-- An error of PatchKubeadmSecret is the wrapped error of one of its calls. -/
theorem PatchKubeadmSecret_err (env : Env) (w w2 : World) (e : Error)
    (h : PatchKubeadmSecret env w = (Ret.err e, w2)) :
    ∃ cause, e = wrapStack cause "Failed to patch kubeadm secret" := by
  simp only [PatchKubeadmSecret, patchLoop, ExecuteCmd_eq] at h
  split at h
  · simp only [Prod.mk.injEq, Ret.err.injEq] at h
    exact ⟨_, h.1.symm⟩
  · split at h
    · simp only [Prod.mk.injEq, Ret.err.injEq] at h
      exact ⟨_, h.1.symm⟩
    · split at h
      · simp only [Prod.mk.injEq, Ret.err.injEq] at h
        exact ⟨_, h.1.symm⟩
      · simp at h

/-- C13, as amended: a getJoinCmd that returns an error returns a wrapped error whose message
names the failed sub-step, and leaves the kubeconfig, the version and the existence flag as
they were. After a failed certificate upload, secret patch or token creation the join
commands, the node listing and the registry are unchanged too. After a failed node listing
the two join commands are already stored, the node listing and the registry unchanged.
After a failed final kubeconfig read the join commands, the node listing and the registry
are all stored. -/
theorem getJoinCmd_error_state (env : Env) (w : World) (e : Error)
    (h : (getJoinCmd env w).1 = Ret.err e) :
    (getJoinCmd env w).2.clusterStatus.kubeconfig = w.clusterStatus.kubeconfig ∧
    (getJoinCmd env w).2.clusterStatus.version = w.clusterStatus.version ∧
    (getJoinCmd env w).2.clusterIsExist = w.clusterIsExist ∧
    ∃ cause msg, e = wrapStack cause msg ∧
      ((msg ∈ ["Failed to upload kubeadm certs", "Failed to patch kubeadm secret",
            "Failed to get join node cmd"] ∧
          (getJoinCmd env w).2.clusterStatus = w.clusterStatus ∧
          (getJoinCmd env w).2.allNodesInfo = w.allNodesInfo) ∨
        (msg = "Failed to get cluster info" ∧
          (∃ key tail, (FindAllString certKeyRe (uploadOutput env w))[0]? = some key ∧
            (Split (tokenOutput env w) "kubeadm join")[1]? = some tail ∧
            (getJoinCmd env w).2.clusterStatus = (w.withJoinCmds tail key).clusterStatus) ∧
          (getJoinCmd env w).2.allNodesInfo = w.allNodesInfo) ∨
        (msg = "Failed to get cluster kubeconfig" ∧
          ∃ key tail m, (FindAllString certKeyRe (uploadOutput env w))[0]? = some key ∧
            (Split (tokenOutput env w) "kubeadm join")[1]? = some tail ∧
            nodeLines (Split (nodesOutput env w) "\r\n") w.allNodesInfo = (Ret.nil, m) ∧
            (getJoinCmd env w).2.clusterStatus =
              ((w.withJoinCmds tail key).withListing (nodesOutput env w) m).clusterStatus ∧
            (getJoinCmd env w).2.allNodesInfo = m)) := by
  have ho := getJoinCmd_outcome env w
  generalize getJoinCmd env w = r at h ho
  cases ho with
  | uploadFailed e1 h1 =>
    simp only [Ret.err.injEq] at h
    subst h
    exact ⟨rfl, rfl, rfl, e1, _, rfl, Or.inl ⟨by simp, rfl, rfl⟩⟩
  | keyMissing h1 hk => simp at h
  | patchFailed key e1 cs h1 hk hp =>
    simp only [Ret.err.injEq] at h
    subst h
    obtain ⟨cause, hc⟩ := PatchKubeadmSecret_err env _ _ _ hp
    exact ⟨rfl, rfl, rfl, cause, _, hc, Or.inl ⟨by simp, rfl, rfl⟩⟩
  | tokenFailed key e1 hs ht =>
    simp only [Ret.err.injEq] at h
    subst h
    exact ⟨rfl, rfl, rfl, e1, _, rfl, Or.inl ⟨by simp, rfl, rfl⟩⟩
  | tailMissing key hs ht hsp => simp at h
  | listingFailed key tail e1 hs hl =>
    simp only [Ret.err.injEq] at h
    subst h
    exact ⟨rfl, rfl, rfl, e1, _, rfl, Or.inr (Or.inl ⟨rfl, ⟨key, tail, hs.1.2.1, hs.2.2, rfl⟩, rfl⟩)⟩
  | linePanicked key tail what m hs hn => simp at h
  | kubeconfigFailed key tail m e1 hs hn hc =>
    simp only [Ret.err.injEq] at h
    subst h
    exact ⟨rfl, rfl, rfl, e1, _, rfl,
      Or.inr (Or.inr ⟨rfl, key, tail, m, hs.1.1.2.1, hs.1.2.2, hn, rfl, rfl⟩)⟩
  | done key tail m hs hn hc => simp at h

set_option maxRecDepth 100000 in
/-- Witness of C13 as amended: the node listing fails after the join commands were stored. -/
theorem getJoinCmd_error_state_witness :
    (getJoinCmd listFailEnv World.init).2.clusterStatus.kubeconfig =
      World.init.clusterStatus.kubeconfig ∧
    (getJoinCmd listFailEnv World.init).2.clusterStatus.version =
      World.init.clusterStatus.version :=
  ⟨(getJoinCmd_error_state listFailEnv World.init
      (wrapStack (.raw "exit status 1") "Failed to get cluster info") (by decide)).1,
   (getJoinCmd_error_state listFailEnv World.init
      (wrapStack (.raw "exit status 1") "Failed to get cluster info") (by decide)).2.1⟩

set_option maxRecDepth 100000 in
/-- Counterexample to C13 as stated: the node listing fails, getJoinCmd returns its error, and
the stored join commands are no longer the empty ones of the state before the call. -/
theorem getJoinCmd_error_changes_state :
    (getJoinCmd listFailEnv World.init).1 =
      Ret.err (wrapStack (.raw "exit status 1") "Failed to get cluster info") ∧
    (getJoinCmd listFailEnv World.init).2.clusterStatus.joinWorkerCmd ≠
      World.init.clusterStatus.joinWorkerCmd ∧
    (getJoinCmd listFailEnv World.init).2.clusterStatus.joinMasterCmd ≠
      World.init.clusterStatus.joinMasterCmd := by
  decide

/-! ## The worker join command -/

theorem splitAux_skip (sep xs rest : List Char) :
    splitAux sep (xs ++ rest) xs.length = splitAux sep rest 0 := by
  induction xs with
  | nil => cases rest <;> simp [splitAux]
  | cons x xs ih => simpa [splitAux] using ih

theorem splitAux_of_isPrefix (sep rest : List Char) (h : sep ≠ []) :
    splitAux sep (sep ++ rest) 0 = [] :: splitAux sep rest 0 := by
  cases sep with
  | nil => exact absurd rfl h
  | cons o os =>
    have hp : (o :: os).isPrefixOf (o :: (os ++ rest)) = true := by
      rw [List.isPrefixOf_iff_prefix]
      exact List.prefix_append (o :: os) rest
    have e : splitAux (o :: os) (o :: (os ++ rest)) 0 =
        if (o :: os).isPrefixOf (o :: (os ++ rest)) then
          [] :: splitAux (o :: os) (os ++ rest) ((o :: os).length - 1)
        else match splitAux (o :: os) (os ++ rest) 0 with
          | [] => [[o]]
          | p :: ps => (o :: p) :: ps := rfl
    rw [List.cons_append, e, if_pos hp]
    have e2 : (o :: os).length - 1 = os.length := by simp
    rw [e2, splitAux_skip]

/-- The split at the first occurrence of the separator: when `pre` is the shortest text
followed by the separator, the first piece is `pre` and the others are the pieces of the
text after that occurrence. -/
theorem splitAux_first (sep : List Char) (h : sep ≠ []) :
    ∀ (pre after : List Char),
      (∀ a b : List Char, pre ++ sep ++ after = a ++ sep ++ b → pre.length ≤ a.length) →
      splitAux sep (pre ++ sep ++ after) 0 = pre :: splitAux sep after 0 := by
  intro pre
  induction pre with
  | nil =>
    intro after _
    simpa using splitAux_of_isPrefix sep after h
  | cons c pre ih =>
    intro after hmin
    have hnp : sep.isPrefixOf (c :: (pre ++ sep ++ after)) = false := by
      cases hp : sep.isPrefixOf (c :: (pre ++ sep ++ after))
      · rfl
      · exfalso
        obtain ⟨b, hb⟩ := List.isPrefixOf_iff_prefix.1 hp
        have := hmin [] b (by simpa using hb.symm)
        simp at this
    have hrec := ih after (by
      intro a b hab
      have := hmin (c :: a) b (by simp [hab])
      simpa using this)
    have e : splitAux sep (c :: (pre ++ sep ++ after)) 0 =
        if sep.isPrefixOf (c :: (pre ++ sep ++ after)) then
          [] :: splitAux sep (pre ++ sep ++ after) (sep.length - 1)
        else match splitAux sep (pre ++ sep ++ after) 0 with
          | [] => [[c]]
          | p :: ps => (c :: p) :: ps := rfl
    have e0 : c :: pre ++ sep ++ after = c :: (pre ++ sep ++ after) := by simp
    rw [e0, e, hnp, hrec]
    simp

/-- The string form of the split at the first occurrence of a non-empty separator. -/
theorem Split_first (sep pre after O : String) (hsep : sep.data ≠ [])
    (hO : O = pre ++ sep ++ after)
    (hfirst : ∀ a b : String, O = a ++ sep ++ b → pre.length ≤ a.length) :
    Split O sep = pre :: Split after sep := by
  have hemp : sep.data.isEmpty = false := by
    cases hd : sep.data with
    | nil => exact absurd hd hsep
    | cons a t => rfl
  have hmin : ∀ a b : List Char, pre.data ++ sep.data ++ after.data = a ++ sep.data ++ b →
      pre.data.length ≤ a.length := by
    intro a b hab
    have := hfirst ⟨a⟩ ⟨b⟩ (by
      rw [hO]
      apply String.ext
      simpa [String.data_append] using hab)
    exact this
  have hd : O.data = pre.data ++ sep.data ++ after.data := by
    rw [hO]
    simp [String.data_append]
  have e1 : splitL O.data sep.data = pre.data :: splitL after.data sep.data := by
    unfold splitL
    rw [hemp, hd]
    exact splitAux_first sep.data hsep pre.data after.data hmin
  unfold Split
  rw [e1]
  rfl

/-- C11, as amended: after a getJoinCmd that returns nil, for a token-creation output in which
`pre` is the text before the first occurrence of "kubeadm join" and `after` the text after
it, the stored worker join command is "/usr/local/bin/kubeadm join " followed by `after`
when `after` has no further occurrence of "kubeadm join", and otherwise followed by the
part of `after` before its first occurrence of "kubeadm join". -/
theorem getJoinCmd_joinWorkerCmd (env : Env) (w : World) (pre after : String)
    (h : (getJoinCmd env w).1 = Ret.nil)
    (hO : tokenOutput env w = pre ++ "kubeadm join" ++ after)
    (hfirst : ∀ a b : String, tokenOutput env w = a ++ "kubeadm join" ++ b →
      pre.length ≤ a.length) :
    (Contains after "kubeadm join" = false →
      (getJoinCmd env w).2.clusterStatus.joinWorkerCmd =
        "/usr/local/bin/kubeadm join " ++ after) ∧
    (∀ tail rest : String, after = tail ++ "kubeadm join" ++ rest →
      (∀ a b : String, after = a ++ "kubeadm join" ++ b → tail.length ≤ a.length) →
      (getJoinCmd env w).2.clusterStatus.joinWorkerCmd =
        "/usr/local/bin/kubeadm join " ++ tail) := by
  have hsp := Split_first "kubeadm join" pre after _ (by decide) hO hfirst
  rcases getJoinCmd_cases env w with hne | ⟨key, tail0, m, _, htail, _, heq⟩
  · exact absurd h hne
  · rw [hsp] at htail
    rw [heq]
    constructor
    · intro hc
      rw [Split_of_not_contains after "kubeadm join" (by decide) hc] at htail
      have e : after = tail0 := by simpa using htail
      rw [e]
    · intro tail rest hafter hmin
      rw [Split_first "kubeadm join" tail rest after (by decide) hafter hmin] at htail
      have e : tail = tail0 := by simpa using htail
      rw [e]

set_option maxRecDepth 100000 in
/-- Witness of C11 as amended: the sample token output holds one join command. -/
theorem getJoinCmd_joinWorkerCmd_witness :
    (getJoinCmd sampleEnv World.init).2.clusterStatus.joinWorkerCmd =
      "/usr/local/bin/kubeadm join " ++ " 10.0.0.1:6443 --token abcdef.0123456789abcdef" :=
  (getJoinCmd_joinWorkerCmd sampleEnv World.init "" " 10.0.0.1:6443 --token abcdef.0123456789abcdef"
    (by decide) (by decide) (fun _ _ _ => Nat.zero_le _)).1 (by decide)

set_option maxRecDepth 100000 in
/-- Counterexample to C11 as stated: the token creation prints two join commands, getJoinCmd
returns nil, and the stored worker join command is not made of the whole text after the
first "kubeadm join" but stops before the second one. -/
theorem getJoinCmd_joinWorkerCmd_stops :
    (getJoinCmd twoJoinEnv World.init).1 = Ret.nil ∧
    tokenOutput twoJoinEnv World.init =
      "" ++ "kubeadm join" ++ " 10.0.0.1:6443 --token a\nkubeadm join 10.0.0.2:6443" ∧
    (getJoinCmd twoJoinEnv World.init).2.clusterStatus.joinWorkerCmd ≠
      "/usr/local/bin/kubeadm join " ++ " 10.0.0.1:6443 --token a\nkubeadm join 10.0.0.2:6443" ∧
    (getJoinCmd twoJoinEnv World.init).2.clusterStatus.joinWorkerCmd =
      "/usr/local/bin/kubeadm join " ++ " 10.0.0.1:6443 --token a\n" := by
  decide

/-! ## The version lookup of GetClusterStatus -/

/-- Every getJoinCmd keeps the stored version and only adds calls to the log. -/
theorem getJoinCmd_frame (env : Env) (w : World) :
    (getJoinCmd env w).2.clusterStatus.version = w.clusterStatus.version ∧
    ∃ cs, (getJoinCmd env w).2.trace = w.trace ++ cs := by
  have ho := getJoinCmd_outcome env w
  generalize getJoinCmd env w = r at ho
  cases ho <;> exact ⟨rfl, _, rfl⟩

theorem getJoinNodesCmd_eq_fun (env : Env) :
    (fun w => getJoinNodesCmd env w) = fun w => getJoinCmd env w :=
  funext fun w => getJoinNodesCmd_eq env w

theorem seqRet_snd (r : Ret × World) (k : World → Ret × World) :
    (seqRet r k).2 = r.2 ∨ (seqRet r k).2 = (k r.2).2 := by
  rcases r with ⟨r1, w⟩
  cases r1
  · right; rfl
  · left; rfl
  · left; rfl

/-- The end of GetClusterStatus, loadKubeConfig followed by getJoinNodesCmd, keeps the stored
version and only adds calls to the log. -/
theorem statusTail_frame (env : Env) (mgr : Manager) (w : World) :
    (seqRet (loadKubeConfig env mgr w) fun w =>
      seqRet (getJoinNodesCmd env w) fun w => (Ret.nil, w)).2.clusterStatus.version =
        w.clusterStatus.version ∧
    ∃ rest, (seqRet (loadKubeConfig env mgr w) fun w =>
      seqRet (getJoinNodesCmd env w) fun w => (Ret.nil, w)).2.trace = w.trace ++ rest := by
  obtain ⟨_, _, f3, f4⟩ := loadKubeConfig_fields env mgr w
  rcases hl : loadKubeConfig env mgr w with ⟨r1, w4⟩
  rw [hl] at f3 f4
  simp only at f3 f4
  cases r1 with
  | nil =>
    simp only [seqRet, getJoinNodesCmd_eq]
    obtain ⟨g1, cs, g2⟩ := getJoinCmd_frame env w4
    rcases hj : getJoinCmd env w4 with ⟨r2, w5⟩
    rw [hj] at g1 g2
    simp only at g1 g2
    cases r2 <;> exact ⟨by simp only [g1, f3], cs, by simp only [g2, f4]⟩
  | err e => exact ⟨by simp only [seqRet, f3], [], by simp [seqRet, f4]⟩
  | panic s => exact ⟨by simp only [seqRet, f3], [], by simp [seqRet, f4]⟩

/-- C12, as amended: in GetClusterStatus on the driver host for an existing cluster, when the
executor reports no error for the version lookup and its output carries "No such file or
directory", the stored version is left as it was and GetClusterStatus goes on to read the
kubeconfig. When the executor reports an error for the version lookup, GetClusterStatus
returns the error "Failed to find current version" right after it, whatever the output. -/
theorem GetClusterStatus_version_lookup (env : Env) (mgr : Manager) (node : HostCfg) (w : World)
    (hidx : mgr.Runner.Index = 0) (hinfo : w.clusterStatus.clusterInfo = "")
    (hprobe : Contains (env.ExecuteCmd w.trace probeCall).1 "Cluster will be created" = false)
    (hperr : errOf env w.trace probeCall = none) :
    (errOf env (w.trace ++ [probeCall]) versionCall = none →
      Contains (env.ExecuteCmd (w.trace ++ [probeCall]) versionCall).1
        "No such file or directory" = true →
      (GetClusterStatus env mgr node w).2.clusterStatus.version = w.clusterStatus.version ∧
      ∃ rest, (GetClusterStatus env mgr node w).2.trace =
        w.trace ++ [probeCall, versionCall, kubeCfgCall] ++ rest) ∧
    (∀ e, errOf env (w.trace ++ [probeCall]) versionCall = some e →
      GetClusterStatus env mgr node w =
        (Ret.err (wrapStack e "Failed to find current version"),
          { w with clusterIsExist := true, trace := w.trace ++ [probeCall, versionCall] })) := by
  have hprobe2 : Contains (env.ExecuteCmd w.trace ⟨probeCmd, 0, true⟩).1
      "Cluster will be created" = false := hprobe
  have hperr2 : (env.ExecuteCmd w.trace ⟨probeCmd, 0, true⟩).2 = none := hperr
  constructor
  · intro hv hc
    have hv2 : (env.ExecuteCmd (w.trace ++ [⟨probeCmd, 0, true⟩]) ⟨versionCmd, 0, true⟩).2 =
        none := hv
    have hc2 : Contains (env.ExecuteCmd (w.trace ++ [⟨probeCmd, 0, true⟩])
        ⟨versionCmd, 0, true⟩).1 "No such file or directory" = true := hc
    unfold GetClusterStatus
    simp only [hidx, hinfo, if_true, ExecuteCmd_eq, hprobe2, hperr2, Bool.false_eq_true,
      if_false, World.issue, hv2, hc2, Bool.not_true, List.append_assoc, List.singleton_append]
    split
    · exact ⟨rfl, [], by simp [probeCall, versionCall, kubeCfgCall]⟩
    · obtain ⟨hver, rest, htr⟩ := statusTail_frame env mgr
        { clusterIsExist := true, allNodesInfo := w.allNodesInfo,
          clusterStatus := { w.clusterStatus with clusterInfo := "", kubeconfig :=
            (env.ExecuteCmd (w.trace ++ [⟨probeCmd, 0, true⟩, ⟨versionCmd, 0, true⟩])
              ⟨sudoE "cat /etc/kubernetes/admin.conf | base64 --wrap=0", 1, false⟩).1 },
          trace := w.trace ++ ([⟨probeCmd, 0, true⟩, ⟨versionCmd, 0, true⟩] ++
            [⟨sudoE "cat /etc/kubernetes/admin.conf | base64 --wrap=0", 1, false⟩]),
          writes := w.writes }
      refine ⟨hver, rest, ?_⟩
      rw [htr]
      simp [probeCall, versionCall, kubeCfgCall]
  · intro e he
    have he2 : (env.ExecuteCmd (w.trace ++ [⟨probeCmd, 0, true⟩]) ⟨versionCmd, 0, true⟩).2 =
        some e := he
    unfold GetClusterStatus
    simp only [hidx, hinfo, if_true, ExecuteCmd_eq, hprobe2, hperr2, Bool.false_eq_true,
      if_false, World.issue, he2, List.append_assoc, List.singleton_append]
    rfl

set_option maxRecDepth 100000 in
/-- Witness of C12 as amended: the version lookup prints the complaint of `cat` without an
error of the executor; the version stays empty and the kubeconfig is read. -/
theorem GetClusterStatus_version_lookup_witness :
    (GetClusterStatus noFileEnv sampleMgr sampleMaster World.init).2.clusterStatus.version =
      World.init.clusterStatus.version ∧
    ∃ rest, (GetClusterStatus noFileEnv sampleMgr sampleMaster World.init).2.trace =
      World.init.trace ++ [probeCall, versionCall, kubeCfgCall] ++ rest :=
  (GetClusterStatus_version_lookup noFileEnv sampleMgr sampleMaster World.init rfl rfl
    (by decide) (by decide)).1 (by decide) (by decide)

set_option maxRecDepth 100000 in
/-- Counterexample to C12 as stated: the version lookup carries "No such file or directory"
and the executor also reports an error; GetClusterStatus returns "Failed to find current
version" and does not read the kubeconfig. -/
theorem GetClusterStatus_version_lookup_error :
    Contains (noFileErrEnv.ExecuteCmd [probeCall] versionCall).1 "No such file or directory" =
      true ∧
    (GetClusterStatus noFileErrEnv sampleMgr sampleMaster World.init).1 =
      Ret.err (wrapStack (.raw "exit status 1") "Failed to find current version") ∧
    (GetClusterStatus noFileErrEnv sampleMgr sampleMaster World.init).2.trace =
      [probeCall, versionCall] := by
  decide

/-! ## Joining before the credentials exist -/

/-- The first call of a retry loop is its command. -/
theorem retryLoop_first_call (env : Env) (cmd reset msg : String) (w : World) :
    ∃ rest, (retryLoop env cmd reset msg [0, 1, 2] w).2.trace = w.trace ++ ⟨cmd, 0, true⟩ :: rest := by
  rw [retryLoop_eq]
  cases errOf env w.trace ⟨cmd, 0, true⟩ with
  | none => exact ⟨_, rfl⟩
  | some e1 =>
    cases errOf env (w.trace ++ [⟨cmd, 0, true⟩, ⟨reset, 0, true⟩]) ⟨cmd, 0, true⟩ with
    | none => exact ⟨_, rfl⟩
    | some e2 =>
      cases errOf env (w.trace ++ [⟨cmd, 0, true⟩, ⟨reset, 0, true⟩, ⟨cmd, 0, true⟩,
          ⟨reset, 0, true⟩]) ⟨cmd, 0, true⟩ with
      | none => exact ⟨_, rfl⟩
      | some e3 => exact ⟨_, rfl⟩

/-- A continuation that only adds calls keeps the first call of what came before. -/
theorem seqRet_first_call (r : Ret × World) (k : World → Ret × World) (t : List Call) (c : Call)
    (h : ∃ rest, r.2.trace = t ++ c :: rest)
    (hk : ∀ w, ∃ cs, (k w).2.trace = w.trace ++ cs) :
    ∃ rest, (seqRet r k).2.trace = t ++ c :: rest := by
  obtain ⟨rest, hr⟩ := h
  rcases seqRet_snd r k with e | e
  · exact ⟨rest, by rw [e, hr]⟩
  · obtain ⟨cs, hcs⟩ := hk r.2
    exact ⟨rest ++ cs, by rw [e, hcs, hr]; simp⟩

theorem seqRet_grows (f k : World → Ret × World)
    (hf : ∀ w, ∃ cs, (f w).2.trace = w.trace ++ cs)
    (hk : ∀ w, ∃ cs, (k w).2.trace = w.trace ++ cs) :
    ∀ w, ∃ cs, (seqRet (f w) k).2.trace = w.trace ++ cs := by
  intro w
  obtain ⟨cs, hcs⟩ := hf w
  rcases seqRet_snd (f w) k with e | e
  · exact ⟨cs, by rw [e, hcs]⟩
  · obtain ⟨cs2, hcs2⟩ := hk (f w).2
    exact ⟨cs ++ cs2, by rw [e, hcs2, hcs]; simp⟩

theorem GetKubeConfig_grows (env : Env) :
    ∀ w, ∃ cs, (GetKubeConfig env w).2.trace = w.trace ++ cs := by
  intro w
  unfold GetKubeConfig
  simp only [ExecuteCmd_eq]
  split <;> exact ⟨_, rfl⟩

theorem removeMasterTaint_grows (env : Env) (node : HostCfg) :
    ∀ w, ∃ cs, (removeMasterTaint env node w).2.trace = w.trace ++ cs := by
  intro w
  unfold removeMasterTaint
  simp only [ExecuteCmd_eq]
  split
  · split <;> exact ⟨_, rfl⟩
  · exact ⟨[], by simp⟩

theorem addWorkerLabel_grows (env : Env) (node : HostCfg) :
    ∀ w, ∃ cs, (addWorkerLabel env node w).2.trace = w.trace ++ cs := by
  intro w
  unfold addWorkerLabel
  simp only [ExecuteCmd_eq]
  split
  · exact ⟨_, rfl⟩
  · exact ⟨[], by simp⟩

theorem pure_grows : ∀ w : World, ∃ cs, ((Ret.nil, w) : Ret × World).2.trace = w.trace ++ cs :=
  fun _ => ⟨[], by simp⟩

theorem addMaster_first_call (env : Env) (w : World) :
    ∃ rest, (addMaster env w).2.trace =
      w.trace ++ ⟨sudoEnvPath w.clusterStatus.joinMasterCmd, 0, true⟩ :: rest := by
  unfold addMaster
  exact seqRet_first_call _ _ _ _ (retryLoop_first_call _ _ _ _ _)
    (seqRet_grows _ _ (GetKubeConfig_grows env) pure_grows)

theorem addWorker_first_call (env : Env) (w : World) :
    ∃ rest, (addWorker env w).2.trace =
      w.trace ++ ⟨sudoEnvPath w.clusterStatus.joinWorkerCmd, 0, true⟩ :: rest := by
  unfold addWorker
  refine seqRet_first_call _ _ _ _ (retryLoop_first_call _ _ _ _ _) ?_
  intro w2
  simp only [ExecuteCmd_eq, issue_issue]
  split
  · exact ⟨_, rfl⟩
  · split
    · exact ⟨_, rfl⟩
    · split
      · exact ⟨_, rfl⟩
      · exact ⟨_, rfl⟩

/-- C14, as amended: JoinNodesToCluster has no guard on the join credentials. For a node that
is not a member, the first command it executes is the shell wrapper around the stored master
join command when the node is a master, and around the stored worker join command when it
is a worker and no master, whatever is stored. Both stored commands are non-empty after a
getJoinCmd that returned nil and empty in the initial state. -/
theorem JoinNodesToCluster_first_call (env : Env) (node : HostCfg) (w : World)
    (hn : ExistNode w.allNodesInfo node = false) :
    (node.IsMaster = true →
      ∃ rest, (JoinNodesToCluster env node w).2.trace =
        w.trace ++ ⟨sudoEnvPath w.clusterStatus.joinMasterCmd, 0, true⟩ :: rest) ∧
    (node.IsWorker = true → node.IsMaster = false →
      ∃ rest, (JoinNodesToCluster env node w).2.trace =
        w.trace ++ ⟨sudoEnvPath w.clusterStatus.joinWorkerCmd, 0, true⟩ :: rest) ∧
    (∀ (env0 : Env) (w0 : World), (getJoinCmd env0 w0).1 = Ret.nil →
      (getJoinCmd env0 w0).2.clusterStatus.joinMasterCmd ≠ "" ∧
      (getJoinCmd env0 w0).2.clusterStatus.joinWorkerCmd ≠ "") ∧
    World.init.clusterStatus.joinMasterCmd = "" ∧ World.init.clusterStatus.joinWorkerCmd = "" := by
  refine ⟨fun hm => ?_, fun hw hm => ?_, fun env0 w0 h0 => ?_, rfl, rfl⟩
  · unfold JoinNodesToCluster
    simp only [hn, hm, Bool.not_false, if_true, Bool.not_true, Bool.and_false,
      Bool.false_eq_true, if_false]
    refine seqRet_first_call _ _ _ _ ?_ (seqRet_grows _ _ pure_grows pure_grows)
    unfold joinMasterBlock
    exact seqRet_first_call _ _ _ _ (addMaster_first_call env w)
      (seqRet_grows _ _ (removeMasterTaint_grows env node)
        (seqRet_grows _ _ (addWorkerLabel_grows env node) pure_grows))
  · unfold JoinNodesToCluster
    simp only [hn, hm, hw, Bool.not_false, if_true, Bool.and_true, Bool.false_eq_true,
      if_false, seqRet]
    have key : ∃ rest, (joinWorkerBlock env node w).2.trace =
        w.trace ++ ⟨sudoEnvPath w.clusterStatus.joinWorkerCmd, 0, true⟩ :: rest := by
      unfold joinWorkerBlock
      exact seqRet_first_call _ _ _ _ (addWorker_first_call env w)
        (seqRet_grows _ _ (addWorkerLabel_grows env node) pure_grows)
    rcases hj : joinWorkerBlock env node w with ⟨r, w2⟩
    rw [hj] at key
    cases r <;> exact key
  · rcases getJoinCmd_cases env0 w0 with hne | ⟨key, tail, m, _, _, _, heq⟩
    · exact absurd h0 hne
    · rw [heq]
      exact ⟨append_ne_empty _ _ (append_ne_empty _ _ (append_ne_empty _ _ (by decide))),
        append_ne_empty _ _ (by decide)⟩

/-- Witness of C14 as amended: in the initial state the master node1 is no member. -/
theorem JoinNodesToCluster_first_call_witness :
    ∃ rest, (JoinNodesToCluster quietEnv sampleMaster World.init).2.trace =
      World.init.trace ++ ⟨sudoEnvPath World.init.clusterStatus.joinMasterCmd, 0, true⟩ :: rest :=
  (JoinNodesToCluster_first_call quietEnv sampleMaster World.init (by decide)).1 rfl

set_option maxRecDepth 100000 in
/-- Counterexample to C14 as stated: in the initial state, before any getJoinCmd, joining the
master node1 and joining the worker node3 both start by running the shell wrapper with an
empty join command. -/
theorem JoinNodesToCluster_runs_empty_join :
    (JoinNodesToCluster quietEnv sampleMaster World.init).2.trace =
      [⟨"sudo env PATH=$PATH /bin/sh -c \"\"", 0, true⟩, ⟨getKubeConfigCmd, 2, false⟩] ∧
    (JoinNodesToCluster quietEnv sampleWorker World.init).2.trace.head? =
      some ⟨"sudo env PATH=$PATH /bin/sh -c \"\"", 0, true⟩ := by
  decide

/-! ## The registry population -/

/-- A round of the loop that does not panic records what the specification says. -/
theorem nodeLine_eq_spec (line : String) (m m2 : GoMap) (h : nodeLine line m = (Ret.nil, m2)) :
    m2 = recordLineSpec line m := by
  unfold nodeLine at h
  unfold recordLineSpec
  rcases hf : Fields line with _ | ⟨a, _ | ⟨b, _ | ⟨c, _ | ⟨d, rest⟩⟩⟩⟩ <;>
    simp [hf] at h ⊢ <;> exact h.symm

/-- A loop over the lines that ends records what the specification says. -/
theorem nodeLines_eq_spec :
    ∀ (ls : List String) (m m2 : GoMap), nodeLines ls m = (Ret.nil, m2) →
      m2 = ls.foldl (fun acc line => recordLineSpec line acc) m := by
  intro ls
  induction ls with
  | nil =>
    intro m m2 h
    simp only [nodeLines, Prod.mk.injEq, true_and] at h
    simp [h]
  | cons l rest ih =>
    intro m m2 h
    unfold nodeLines at h
    rcases hnl : nodeLine l m with ⟨r, m1⟩
    rw [hnl] at h
    cases r with
    | nil =>
      simp only at h
      rw [List.foldl_cons, ← nodeLine_eq_spec l m m1 hnl]
      exact ih m1 m2 h
    | err e => simp at h
    | panic s => simp at h

/-- In a loop over the lines that ends, every line has a field 0. -/
theorem nodeLines_fields :
    ∀ (ls : List String) (m m2 : GoMap), nodeLines ls m = (Ret.nil, m2) →
      ∀ l ∈ ls, ∃ name, (Fields l)[0]? = some name := by
  intro ls
  induction ls with
  | nil => intro m m2 _ l hl; simp at hl
  | cons a rest ih =>
    intro m m2 h l hl
    unfold nodeLines at h
    rcases hnl : nodeLine a m with ⟨r, m1⟩
    rw [hnl] at h
    cases r with
    | nil =>
      simp only at h
      rcases List.mem_cons.1 hl with rfl | hl
      · unfold nodeLine at hnl
        rcases hf : Fields l with _ | ⟨x, t⟩
        · simp [hf] at hnl
        · exact ⟨x, by simp⟩
      · exact ih m1 m2 h l hl
    | err e => simp at h
    | panic s => simp at h

/-- What the specification records for the name of a line. -/
theorem recordLineSpec_name (line name : String) (m : GoMap)
    (h0 : (Fields line)[0]? = some name) :
    ((Fields line).length ≤ 3 → (recordLineSpec line m).get? name = some "") ∧
    (3 < (Fields line).length →
      ∃ version, (Fields line)[1]? = some version ∧
        (recordLineSpec line m).get? name = some version) := by
  unfold recordLineSpec
  rcases hf : Fields line with _ | ⟨a, _ | ⟨b, _ | ⟨c, _ | ⟨d, rest⟩⟩⟩⟩ <;>
    simp [hf] at h0 ⊢ <;> subst h0 <;> simp [get?_set]

/-- C15: after a getJoinCmd that returns nil, the stored node listing L is the output of the
listing command and the registry is the one obtained from the registry before the call by
processing the lines of L, split on "\r\n", in order: per line the first IPv4-shaped token
as key and value, then the first IPv6-shaped token as key and value, then field 0 bound to
field 1 when the line has more than three fields and to the empty string otherwise. Every
line of such a run has a field 0; a line of three or fewer fields binds it to the empty
version, a line of four or more fields to field 1. -/
theorem getJoinCmd_registry (env : Env) (w : World) (h : (getJoinCmd env w).1 = Ret.nil) :
    (getJoinCmd env w).2.clusterStatus.clusterInfo = nodesOutput env w ∧
    (getJoinCmd env w).2.allNodesInfo = populateSpec (nodesOutput env w) w.allNodesInfo ∧
    ∀ line ∈ Split (nodesOutput env w) "\r\n", ∀ m : GoMap,
      ∃ name, (Fields line)[0]? = some name ∧
        ((Fields line).length ≤ 3 → (recordLineSpec line m).get? name = some "") ∧
        (3 < (Fields line).length →
          ∃ version, (Fields line)[1]? = some version ∧
            (recordLineSpec line m).get? name = some version) := by
  rcases getJoinCmd_cases env w with hne | ⟨key, tail, m, _, _, hnl, heq⟩
  · exact absurd h hne
  · rw [heq]
    refine ⟨rfl, nodeLines_eq_spec _ _ _ hnl, ?_⟩
    intro line hl m0
    obtain ⟨name, hname⟩ := nodeLines_fields _ _ _ hnl line hl
    exact ⟨name, hname, recordLineSpec_name line name m0 hname⟩

set_option maxRecDepth 100000 in
/-- Witness of C15: the listing of the sample environment holds the line of node1, with its
version and its address. -/
theorem getJoinCmd_registry_witness :
    (getJoinCmd sampleEnv World.init).2.allNodesInfo =
      populateSpec (nodesOutput sampleEnv World.init) World.init.allNodesInfo ∧
    populateSpec (nodesOutput sampleEnv World.init) World.init.allNodesInfo =
      [("node1", "v1.17.9"), ("10.0.0.1", "10.0.0.1")] :=
  ⟨(getJoinCmd_registry sampleEnv World.init (by decide)).2.1, by decide⟩

/-! ## Blank lines in the node listing -/

/-- A line without fields makes its round of the loop panic on index 0, a line with fields
makes it end. -/
theorem nodeLine_cases (line : String) (m : GoMap) :
    (Fields line = [] ∧
      ∃ m2, nodeLine line m = (Ret.panic "index out of range [0] with length 0", m2)) ∨
    (Fields line ≠ [] ∧ ∃ m2, nodeLine line m = (Ret.nil, m2)) := by
  unfold nodeLine
  rcases hf : Fields line with _ | ⟨a, _ | ⟨b, _ | ⟨c, _ | ⟨d, rest⟩⟩⟩⟩
  · left; simp
  · right; simp
  · right; simp
  · right; simp
  · right; simp

/-- A listing with a line without fields makes the loop over the lines panic on index 0. -/
theorem nodeLines_blank :
    ∀ (ls : List String) (m : GoMap), (∃ l ∈ ls, Fields l = []) →
      ∃ m2, nodeLines ls m = (Ret.panic "index out of range [0] with length 0", m2) := by
  intro ls
  induction ls with
  | nil => intro m ⟨l, hl, _⟩; simp at hl
  | cons a rest ih =>
    intro m ⟨l, hl, hb⟩
    unfold nodeLines
    rcases nodeLine_cases a m with ⟨_, m2, h2⟩ | ⟨hne, m2, h2⟩
    · rw [h2]
      exact ⟨m2, rfl⟩
    · rw [h2]
      rcases List.mem_cons.1 hl with rfl | hl
      · exact absurd hb hne
      · exact ih m2 ⟨l, hl, hb⟩

theorem splitAux_ne_nil (sep : List Char) : ∀ (s : List Char) (k : Nat), splitAux sep s k ≠ [] := by
  intro s
  induction s with
  | nil => intro k; simp [splitAux]
  | cons c cs ih =>
    intro k
    cases k with
    | succ k => simpa [splitAux] using ih k
    | zero =>
      unfold splitAux
      split
      · simp
      · split <;> simp

/-- C16: splitting any text on "\r\n" yields at least one line, but the loop of getJoinCmd
over the lines is not safe: whenever getJoinCmd reaches the loop with a listing that has a
line without fields, reading field 0 of that line is out of range and getJoinCmd panics. -/
theorem getJoinCmd_blank_line_panics (env : Env) (w : World) (key tail : String)
    (hs : loopStage env w key tail)
    (hb : ∃ l ∈ Split (nodesOutput env w) "\r\n", Fields l = []) :
    1 ≤ (Split (nodesOutput env w) "\r\n").length ∧
    (getJoinCmd env w).1 = Ret.panic "index out of range [0] with length 0" := by
  constructor
  · have : splitL (nodesOutput env w).data "\r\n".data ≠ [] := by
      unfold splitL
      simp only [show ("\r\n".data.isEmpty) = false from by decide, Bool.false_eq_true, if_false]
      exact splitAux_ne_nil _ _ _
    unfold Split
    rw [List.length_map]
    exact List.length_pos.2 this
  · obtain ⟨m2, hp⟩ := nodeLines_blank _ w.allNodesInfo hb
    have ho := getJoinCmd_outcome env w
    generalize getJoinCmd env w = r at ho
    obtain ⟨⟨⟨h1, h2, h3⟩, h4, h5⟩, h6⟩ := hs
    cases ho with
    | uploadFailed e1 g1 => simp [h1] at g1
    | keyMissing g1 gk => simp [h2] at gk
    | patchFailed key2 e1 cs g1 gk gp => simp [h3] at gp
    | tokenFailed key2 e1 gs gt => simp [h4] at gt
    | tailMissing key2 gs gt gsp => simp [h5] at gsp
    | listingFailed key2 tail2 e1 gs gl => simp [h6] at gl
    | linePanicked key2 tail2 what m gs gn =>
      have e := hp.symm.trans gn
      simp only [Prod.mk.injEq, Ret.panic.injEq] at e
      simp [e.1]
    | kubeconfigFailed key2 tail2 m e1 gs gn gc =>
      have e := hp.symm.trans gn
      simp at e
    | done key2 tail2 m gs gn gc =>
      have e := hp.symm.trans gn
      simp at e

set_option maxRecDepth 100000 in
/-- Witness of C16: the empty listing, a listing that ends with a line terminator, and a
listing with a whitespace-only line each make getJoinCmd panic. -/
theorem getJoinCmd_blank_line_panics_witness :
    (getJoinCmd (listingEnv "") World.init).1 =
      Ret.panic "index out of range [0] with length 0" ∧
    (getJoinCmd (listingEnv "node1   v1.17.9   a b\r\n") World.init).1 =
      Ret.panic "index out of range [0] with length 0" ∧
    (getJoinCmd (listingEnv "node1   v1.17.9   a b\r\n  \r\nnode2   v1.17.9   a b")
      World.init).1 = Ret.panic "index out of range [0] with length 0" :=
  ⟨(getJoinCmd_blank_line_panics (listingEnv "") World.init sampleKey
      " 10.0.0.1:6443 --token abcdef.0123456789abcdef" ⟨⟨⟨by decide, by decide, by decide⟩, by decide, by decide⟩, by decide⟩ (by decide)).2,
   (getJoinCmd_blank_line_panics (listingEnv "node1   v1.17.9   a b\r\n") World.init sampleKey
      " 10.0.0.1:6443 --token abcdef.0123456789abcdef" ⟨⟨⟨by decide, by decide, by decide⟩, by decide, by decide⟩, by decide⟩ (by decide)).2,
   (getJoinCmd_blank_line_panics
      (listingEnv "node1   v1.17.9   a b\r\n  \r\nnode2   v1.17.9   a b") World.init sampleKey
      " 10.0.0.1:6443 --token abcdef.0123456789abcdef" ⟨⟨⟨by decide, by decide, by decide⟩, by decide, by decide⟩, by decide⟩ (by decide)).2⟩

end Kubekey
